import Mathlib

/-!
The per-container init daemon `wshd` (`src/old/linux_backend/src/wsh/wshd.c`).

A shallow embedding of the parts of `wshd.c` that manage spawned children:
the PID map, the reaper, the environment builder, the forked child's setup,
the two spawn handlers, the bind-mount handler and the request dispatcher.

Conventions of the embedding.

* C `int`, `pid_t` and descriptors are `Int`; `-1` is the usual failure value.
* The heap array `w->pid_to_fd` together with `w->pid_to_fd_len` is one list:
  the length field is the length of the list. `memmove` and `realloc` act on
  that list cell by cell.
* Results of system calls that depend on the outside world (whether `fork`
  fails, what `waitpid` reports, ...) are read from an explicit record, so every
  function of the daemon is a total, executable function of its inputs.
* A function of the daemon either returns, or ends the process (`exit`,
  `abort` or a failed `assert`), or replaces the process image (`exec`).
* Memory allocation succeeds: the `assert`s on what `malloc` and `realloc`
  return hold and are left out.
* The kernel numbers a new descriptor with the lowest number that is not open.
-/

set_option linter.unusedTactic false
set_option linter.unreachableTactic false

namespace Wshd

/-! ## The PID map -/

/-- One cell of the array `pid_to_fd` of `struct wshd_s`. -/
structure pid_fd where
  pid : Int
  fd : Int
deriving DecidableEq, Repr, Inhabited

/-- The fields of `struct wshd_s` (barriers left out). -/
structure wshd_t where
  run_path : String := ""
  lib_path : String := ""
  root_path : String := ""
  volumes_path : String := ""
  title : String := ""
  fd : Int := 0
  host_mount_ns : Int := 0
  pid_to_fd : List pid_fd := []
deriving DecidableEq, Repr

/-- The field `pid_to_fd_len`: the number of cells of `pid_to_fd`. -/
def wshd_t.pid_to_fd_len (w : wshd_t) : Nat := w.pid_to_fd.length

/-- The effect of `memmove(&a[dst], &a[src], n * sizeof(a[0]))` on an array:
cells `src .. src+n-1` are copied over cells `dst .. dst+n-1`. -/
def memmove {α : Type} (a : List α) (dst src n : Nat) : List α :=
  a.take dst ++ (a.drop src).take n ++ a.drop (dst + n)

/-- The effect of `realloc(a, n * sizeof(a[0]))`: the first `n` cells are kept,
cells beyond the old size are uninitialised (here: `default`). -/
def realloc {α : Type} [Inhabited α] (a : List α) (n : Nat) : List α :=
  a.take n ++ List.replicate (n - a.length) default

/-- The `for (i = 0; i < len; i++)` loop of `child_pid_to_fd_remove`, from
index `i` on; `fuel` bounds the number of iterations left. Returns `fd` and
the array. -/
def child_pid_to_fd_remove_loop (pid : Int) (len : Nat) :
    Nat → Nat → List pid_fd → Int × List pid_fd
  | 0, _, a => (-1, a)
  | fuel + 1, i, a =>
    if i < len then
      if (a.getD i default).pid = pid then
        let fd := (a.getD i default).fd
        -- Move tail if there is one
        let a1 := if i + 1 < len then memmove a i (i + 1) (len - i - 1) else a
        let a2 := realloc a1 (len - 1)
        (fd, a2)
      else
        child_pid_to_fd_remove_loop pid len fuel (i + 1) a
    else
      (-1, a)

/-- The function `child_pid_to_fd_remove`: returns `fd` (or `-1`) and the
updated daemon state. -/
def child_pid_to_fd_remove (w : wshd_t) (pid : Int) : Int × wshd_t :=
  let len := w.pid_to_fd_len
  let r := child_pid_to_fd_remove_loop pid len len 0 w.pid_to_fd
  (r.1, { w with pid_to_fd := r.2 })

/-- Reference lookup-and-delete on the map, following the specification: `-1`
and the same map when no entry has the PID, otherwise the descriptor of the
first entry with the PID and the map without that one entry. -/
def remove_reference (m : List pid_fd) (pid : Int) : Int × List pid_fd :=
  match m.find? (fun e => decide (e.pid = pid)) with
  | none => (-1, m)
  | some e => (e.fd, m.eraseP (fun e => decide (e.pid = pid)))


/-! ## The process, its descriptors and the system calls it makes -/

/-- The three request handlers `child_accept` can dispatch to. -/
inductive Handler
  | bind_mount
  | interactive
  | noninteractive
deriving DecidableEq, Repr

/-- What the process does that is visible outside it, in program order. The
constructor `enter` is a ghost event marking the entry of a request handler. -/
inductive Sys
  | accept (rv : Int)
  | recv_fds (fd rv : Int)
  | cloexec (fd : Int)
  | pipe (rd wr : Int)
  | openpty (master slave : Int)
  | send_fds (fd : Int) (fds : List Int) (rv : Int)
  | fork (rv : Int)
  | dup (oldfd newfd : Int)
  | dup2 (oldfd newfd : Int)
  | write (fd : Int) (buf : List Nat)
  | close (fd : Int)
  | setsid
  | tiocsctty (fd : Int)
  | chdir (path : String) (rv : Int)
  | open_ns (rv : Int)
  | setns (fd : Int) (rv : Int)
  | mkdir (path : String) (rv : Int)
  | chown (path : String) (uid gid : Int) (rv : Int)
  | mount (source target : String) (rv : Int)
  | enter (h : Handler)
deriving DecidableEq, Repr

/-- The state of one process: the daemon record, the descriptors open in the
process, its working directory, `errno`, the mount namespace it is in with the
directories that exist in the host and in the container namespace, and the
trace of what it has done. -/
structure World where
  w : wshd_t := {}
  open_fds : List Int := []
  cwd : String := "/"
  errno : Int := 0
  in_host_ns : Bool := false
  host_dirs : List String := []
  container_dirs : List String := []
  trace : List Sys := []
deriving DecidableEq, Repr

/-- How a call ends: it returns a value, or the process ends by `exit(code)`,
or by `abort()` (also a failed `assert`), or the process image is replaced by
`execvpe`, or the call has no defined behaviour in C. -/
inductive Outcome (α : Type)
  | ret (a : α) (s : World)
  | exit (code : Int) (s : World)
  | abort (s : World)
  | exec (argv : List (Option String)) (envp : List (Option String)) (s : World)
  | undefined
deriving DecidableEq, Repr

/-- A piece of the program: from the state of the process to how it ends. -/
def Proc (α : Type) : Type := World → Outcome α

/-- Sequencing: the second piece runs only when the first one returns. -/
def Proc.bind {α β : Type} (m : Proc α) (f : α → Proc β) : Proc β := fun s =>
  match m s with
  | .ret a s1 => f a s1
  | .exit c s1 => .exit c s1
  | .abort s1 => .abort s1
  | .exec a e s1 => .exec a e s1
  | .undefined => .undefined

instance : Monad Proc where
  pure a := fun s => .ret a s
  bind := Proc.bind

/-- Append one event to the trace. -/
def emit (e : Sys) : Proc Unit := fun s => .ret () { s with trace := s.trace ++ [e] }

/-- The call `exit(code)`. -/
def sys_exit {α : Type} (code : Int) : Proc α := fun s => .exit code s

/-- The call `abort()`. -/
def sys_abort {α : Type} : Proc α := fun s => .abort s

/-- The statement `if (c) stmt` without `else`. -/
def c_if (c : Prop) [Decidable c] (stmt : Proc Unit) : Proc Unit :=
  if c then stmt else pure ()

/-- The macro `assert(b)`: aborts the process when `b` is false. -/
def c_assert (b : Bool) : Proc Unit := fun s => if b then .ret () s else .abort s

/-- The lowest descriptor number that is not open: the number the kernel gives
to the next descriptor it creates. -/
def lowest_free (open_fds : List Int) : Int :=
  Int.ofNat (((List.range (open_fds.length + 1)).find?
    (fun n : Nat => decide ((n : Int) ∉ open_fds))).getD 0)

/-- The errno value `EINTR`. -/
def EINTR : Int := 4
/-- The errno value `EEXIST`. -/
def EEXIST : Int := 17
/-- The errno value `EMFILE`. -/
def EMFILE : Int := 24
/-- The constant `PATH_MAX` of `<limits.h>`. -/
def PATH_MAX : Nat := 4096

/-- The call `close(fd)`. -/
def sys_close (fd : Int) : Proc Int := fun s =>
  .ret (if fd ∈ s.open_fds then 0 else -1)
    { s with open_fds := s.open_fds.filter (fun x => decide (x ≠ fd)),
             trace := s.trace ++ [Sys.close fd] }

/-- The call `write(fd, buf, n)`. -/
def sys_write (fd : Int) (buf : List Nat) : Proc Int := fun s =>
  .ret (if fd ∈ s.open_fds then (buf.length : Int) else -1)
    { s with trace := s.trace ++ [Sys.write fd buf] }

/-- The call `dup(fd)`: on success a new descriptor with the lowest free
number; `-1` when `ok` is false (descriptor table full) or `fd` is not open. -/
def sys_dup (ok : Bool) (fd : Int) : Proc Int := fun s =>
  if ok && decide (fd ∈ s.open_fds) then
    let n := lowest_free s.open_fds
    .ret n { s with open_fds := n :: s.open_fds, trace := s.trace ++ [Sys.dup fd n] }
  else
    .ret (-1) { s with errno := EMFILE, trace := s.trace ++ [Sys.dup fd (-1)] }

/-- The call `pipe(p)`: on success returns `0` and the read and write end; on
failure returns `-1` and leaves `p` as it was. -/
def sys_pipe (ok : Bool) (p : Int × Int) : Proc (Int × (Int × Int)) := fun s =>
  if ok then
    let r := lowest_free s.open_fds
    let wr := lowest_free (r :: s.open_fds)
    .ret (0, (r, wr))
      { s with open_fds := wr :: r :: s.open_fds, trace := s.trace ++ [Sys.pipe r wr] }
  else
    .ret (-1, p) { s with errno := EMFILE }

/-- The call `fcntl_mix_cloexec(fd)` of `util.h`: sets the close-on-exec flag;
the set of open descriptors is unchanged. -/
def fcntl_mix_cloexec (fd : Int) : Proc Unit := emit (Sys.cloexec fd)

/-! ## The PID map: insertion -/

/-- The function `child_pid_to_fd_add`; `dup_ok` says whether `dup` finds a
free slot in the descriptor table. -/
def child_pid_to_fd_add (dup_ok : Bool) (pid : Int) (fd : Int) : Proc Unit := do
  -- int len = w->pid_to_fd_len;
  let len := (← (fun s => Outcome.ret s.w.pid_to_fd_len s : Proc Nat))
  -- Store a copy
  let fd ← sys_dup dup_ok fd
  c_if (fd = -1) sys_abort
  fun s =>
    let a := realloc s.w.pid_to_fd (len + 1)
    let a := a.set len { pid := pid, fd := fd }
    .ret () { s with w := { s.w with pid_to_fd := a } }

/-! ## The reaper -/

/-- The call `child_pid_to_fd_remove(w, pid)` as a step of the process. -/
def remove_step (pid : Int) : Proc Int := fun s =>
  .ret (child_pid_to_fd_remove s.w pid).1 { s with w := (child_pid_to_fd_remove s.w pid).2 }

/-- A `char **`: the cells of an array of string pointers, `none` being the
`NULL` pointer that ends it. -/
abbrev strv : Type := List (Option String)

/-- The array `E[0], ..., E[n-1], NULL`. -/
def c_array (E : List String) : strv := E.map some ++ [none]

/-- The fields of `struct passwd` the daemon reads. -/
structure passwd where
  pw_name : String := "root"
  pw_dir : String := "/root"
  pw_shell : String := "/bin/bash"
  pw_uid : Int := 0
deriving DecidableEq, Repr

/-- The record `msg_array_t` of `msg.h`: only its `count` is read here, the
rest goes to `msg_array_export`. -/
structure msg_array_t where
  count : Int := 0
  items : List String := []
deriving DecidableEq, Repr

/-- The record `msg_user_t` of `msg.h`: the field `name`. -/
structure msg_user_t where
  name : String := ""
deriving DecidableEq, Repr

/-- The record `msg_dir_t` of `msg.h`: the field `path`. -/
structure msg_dir_t where
  path : String := ""
deriving DecidableEq, Repr

/-- The fields of `msg_request_t` (`msg.h`) the daemon reads. -/
structure msg_request_t where
  tty : Int := 0
  arg : msg_array_t := {}
  env : msg_array_t := {}
  dir : msg_dir_t := {}
  user : msg_user_t := {}
  bind_mount_name : String := ""
  bind_mount_source : msg_dir_t := {}
  bind_mount_destination : msg_dir_t := {}
deriving DecidableEq, Repr

/-- What the world outside the process answers during one run: results of
system calls and of the helpers of `msg.h`, `un.h` and `pwd.h`, which are not
part of `wshd.c`. By default every call succeeds. -/
structure Env where
  /-- The value `sizeof(msg_request_t)`. -/
  sizeof_req : Int := 1
  /-- Whether `accept` succeeds. -/
  accept_ok : Bool := true
  /-- The value `un_recv_fds` returns. -/
  recv_rv : Int := 1
  /-- The request record `un_recv_fds` stores. -/
  recv_req : msg_request_t := {}
  /-- Whether the call `pipe(p[i])` succeeds. -/
  pipe_ok : Nat → Bool := fun _ => true
  /-- Whether `openpty` succeeds. -/
  openpty_ok : Bool := true
  /-- The value `un_send_fds` returns. -/
  send_rv : Int := 0
  /-- The value `fork` returns. -/
  fork_rv : Int := 1
  /-- Whether `dup` finds a free slot. -/
  dup_ok : Bool := true
  /-- The value `setsid` returns. -/
  setsid_rv : Int := 1
  /-- The function `getpwnam`. -/
  getpwnam : String → Option passwd := fun _ => some {}
  /-- The function `isatty`. -/
  isatty : Int → Bool := fun _ => false
  /-- The value `ioctl(STDIN_FILENO, TIOCSCTTY, 1)` returns. -/
  ioctl_rv : Int := 0
  /-- The function `msg_array_export`. -/
  msg_array_export : msg_array_t → Option strv := fun a => some (c_array a.items)
  /-- The value `msg_rlimit_export` returns. -/
  msg_rlimit_export_rv : Int := 0
  /-- The value `msg_user_export` returns. -/
  msg_user_export_rv : Int := 0
  /-- Whether `chdir(path)` succeeds. -/
  chdir_ok : String → Bool := fun _ => true
  /-- Whether `execvpe` replaces the process image. -/
  execvpe_ok : Bool := true
  /-- Whether `open("/proc/self/ns/mnt", O_RDONLY)` succeeds. -/
  open_ok : Bool := true
  /-- Whether `setns(fd, CLONE_NEWNS)` succeeds. -/
  setns_ok : Int → Bool := fun _ => true
  /-- The error (`0`: none) `mkdir(path)` meets when `path` does not exist yet. -/
  mkdir_errno : String → Int := fun _ => 0
  /-- Whether `chown(path, ..)` succeeds. -/
  chown_ok : String → Bool := fun _ => true
  /-- Whether `mount(source, target, NULL, MS_BIND, NULL)` succeeds. -/
  mount_ok : String → String → Bool := fun _ _ => true

/-- The state of the daemon record. -/
def get_w : Proc wshd_t := fun s => .ret s.w s

/-- The value `0` or `-1` of a call that only succeeds or fails. -/
def rv_of (ok : Bool) : Int := if ok then 0 else -1

/-! ## System calls of the child and of the mount injector -/

/-- The call `chdir(path)`. -/
def sys_chdir (o : Env) (path : String) : Proc Int := fun s =>
  if o.chdir_ok path then
    .ret 0 { s with cwd := path, trace := s.trace ++ [Sys.chdir path 0] }
  else
    .ret (-1) { s with trace := s.trace ++ [Sys.chdir path (-1)] }

/-- The open descriptors once `fd` is open too. -/
def fd_insert (fd : Int) (open_fds : List Int) : List Int :=
  if fd ∈ open_fds then open_fds else fd :: open_fds

/-- The call `dup2(oldfd, newfd)`: fails when `oldfd` is not open. -/
def sys_dup2 (oldfd newfd : Int) : Proc Int := fun s =>
  if oldfd ∈ s.open_fds then
    .ret newfd { s with open_fds := fd_insert newfd s.open_fds,
                        trace := s.trace ++ [Sys.dup2 oldfd newfd] }
  else
    .ret (-1) { s with trace := s.trace ++ [Sys.dup2 oldfd (-1)] }

/-- The call `setsid()`. -/
def sys_setsid (o : Env) : Proc Int := fun s =>
  .ret o.setsid_rv { s with trace := s.trace ++ [Sys.setsid] }

/-- The call `ioctl(fd, TIOCSCTTY, 1)`. -/
def sys_tiocsctty (o : Env) (fd : Int) : Proc Int := fun s =>
  .ret o.ioctl_rv { s with trace := s.trace ++ [Sys.tiocsctty fd] }

/-- The call `fork()`, seen from the process in which it returns. -/
def sys_fork (o : Env) : Proc Int := fun s =>
  .ret o.fork_rv { s with trace := s.trace ++ [Sys.fork o.fork_rv] }

/-- The call `execvpe(argv[0], argv, envp)`: does not return when it
succeeds. -/
def sys_execvpe (o : Env) (argv envp : strv) : Proc Int := fun s =>
  if o.execvpe_ok then .exec argv envp s else .ret (-1) s

/-- The call `openpty(&master, &slave, NULL)`. -/
def sys_openpty (ok : Bool) (p : Int × Int) : Proc (Int × (Int × Int)) := fun s =>
  if ok then
    let m := lowest_free s.open_fds
    let sl := lowest_free (m :: s.open_fds)
    .ret (0, (m, sl))
      { s with open_fds := sl :: m :: s.open_fds, trace := s.trace ++ [Sys.openpty m sl] }
  else
    .ret (-1, p) s

/-- The call `accept(lfd, NULL, NULL)` on the listening socket `lfd`. -/
def sys_accept (o : Env) (_lfd : Int) : Proc Int := fun s =>
  if o.accept_ok then
    let n := lowest_free s.open_fds
    .ret n { s with open_fds := n :: s.open_fds, trace := s.trace ++ [Sys.accept n] }
  else
    .ret (-1) { s with trace := s.trace ++ [Sys.accept (-1)] }

/-- The call `un_recv_fds(fd, &req, sizeof(req), NULL, 0)` of `un.h`. -/
def un_recv_fds (o : Env) (fd : Int) : Proc Int := fun s =>
  .ret o.recv_rv { s with trace := s.trace ++ [Sys.recv_fds fd o.recv_rv] }

/-- The call `un_send_fds(fd, &res, sizeof(res), fds, n)` of `un.h`. -/
def un_send_fds (o : Env) (fd : Int) (fds : List Int) : Proc Int := fun s =>
  .ret o.send_rv { s with trace := s.trace ++ [Sys.send_fds fd fds o.send_rv] }

/-- The call `open("/proc/self/ns/mnt", O_RDONLY)`. -/
def sys_open_ns (o : Env) : Proc Int := fun s =>
  if o.open_ok then
    let n := lowest_free s.open_fds
    .ret n { s with open_fds := n :: s.open_fds, trace := s.trace ++ [Sys.open_ns n] }
  else
    .ret (-1) { s with trace := s.trace ++ [Sys.open_ns (-1)] }

/-- The call `setns(fd, CLONE_NEWNS)`: on success the process is in the host
mount namespace exactly when `fd` is the saved `host_mount_ns`. -/
def sys_setns (o : Env) (fd : Int) : Proc Int := fun s =>
  if o.setns_ok fd then
    .ret 0 { s with in_host_ns := decide (fd = s.w.host_mount_ns),
                    trace := s.trace ++ [Sys.setns fd 0] }
  else
    .ret (-1) { s with trace := s.trace ++ [Sys.setns fd (-1)] }

/-- The call `mkdir(path, 0755)` in the current mount namespace: fails with
`EEXIST` when `path` exists, else with the error the outside world gives, else
creates the directory. -/
def sys_mkdir (o : Env) (path : String) : Proc Int := fun s =>
  let dirs := if s.in_host_ns then s.host_dirs else s.container_dirs
  if path ∈ dirs then
    .ret (-1) { s with errno := EEXIST, trace := s.trace ++ [Sys.mkdir path (-1)] }
  else if o.mkdir_errno path ≠ 0 then
    .ret (-1) { s with errno := o.mkdir_errno path, trace := s.trace ++ [Sys.mkdir path (-1)] }
  else if s.in_host_ns then
    .ret 0 { s with host_dirs := path :: s.host_dirs, trace := s.trace ++ [Sys.mkdir path 0] }
  else
    .ret 0 { s with container_dirs := path :: s.container_dirs,
                    trace := s.trace ++ [Sys.mkdir path 0] }

/-- The call `chown(path, uid, gid)`. -/
def sys_chown (o : Env) (path : String) (uid gid : Int) : Proc Int := fun s =>
  .ret (rv_of (o.chown_ok path))
    { s with trace := s.trace ++ [Sys.chown path uid gid (rv_of (o.chown_ok path))] }

/-- The call `mount(source, target, NULL, MS_BIND, NULL)`. -/
def sys_mount (o : Env) (source target : String) : Proc Int := fun s =>
  .ret (rv_of (o.mount_ok source target))
    { s with trace := s.trace ++ [Sys.mount source target (rv_of (o.mount_ok source target))] }

/-- The call `snprintf(buf, size, "%s", str)` (or with a longer format whose
expansion is `str`): the value returned and the string left in `buf`. -/
def snprintf (size : Nat) (str : String) : Int × String :=
  ((str.length : Int), String.mk (str.data.take (size - 1)))

/-! ## The environment of a spawned process -/

/-- The loop `while(envp[envplen++] != NULL);` started with `envplen = n`: the
value of `envplen` when it ends. A cell past the end of the array reads as
`NULL`. -/
def env_scan : strv → Nat → Nat
  | [], n => n + 1
  | none :: _, n => n + 1
  | some _ :: rest, n => env_scan rest (n + 1)

/-- The function `env__add`: the array it returns (never `NULL`). The buffer
has room for the whole of `key=value`, so `assert(rv == buflen - 1)` holds. -/
def env__add (envp : Option strv) (key value : String) : strv :=
  let envplen : Nat :=
    match envp with
    | none => 1  -- Trailing NULL
    | some a => env_scan a 0
  let envp := realloc (envp.getD []) (envplen + 1)
  let buf := (snprintf (key.length + 1 + value.length + 1) (key ++ "=" ++ value)).2
  let envp := envp.set (envplen - 1) (some buf)
  let envp := envp.set envplen none
  envp

/-- The function `child_setup_environment`: the array it returns, `none`
being `NULL`. -/
def child_setup_environment (o : Env) (pw : passwd) (extra_env_vars : Option strv) :
    Proc (Option strv) := do
  let envp := extra_env_vars
  let rv ← sys_chdir o pw.pw_dir
  if rv = -1 then
    pure none
  else
    let envp := env__add envp "HOME" pw.pw_dir
    let envp := env__add (some envp) "USER" pw.pw_name
    let envp :=
      if pw.pw_uid = 0 then
        env__add (some envp) "PATH" "/usr/local/sbin:/usr/local/bin:/usr/sbin:/usr/bin:/sbin:/bin"
      else
        env__add (some envp) "PATH" "/usr/local/bin:/usr/bin:/bin"
    pure (some envp)

/-! ## Fork and the setup of the forked child -/

/-- The second part of the block `if (rv == 0) { ... }` of `child_fork`, from
`user = req->user.name` on: account, arguments, limits, identity, environment,
working directory and `execvpe`. It never returns. -/
def child_fork_exec (o : Env) (req : msg_request_t) (in_ : Int) : Proc Int :=
  let user := if req.user.name.length = 0 then "root" else req.user.name
  match o.getpwnam user with
  | none => sys_exit 255
  | some pw => do
    let default_argv : strv :=
      [some (if pw.pw_shell.length ≠ 0 then pw.pw_shell else "/bin/sh"), none]
    -- Set controlling terminal if needed
    c_if (o.isatty in_ = true) do
      let rv ← sys_tiocsctty o 0
      c_assert (decide (rv ≠ -1))
    -- Use argv from request if needed
    let argv : Option strv ←
      (if req.arg.count ≠ 0 then do
        let argv := o.msg_array_export req.arg
        c_assert argv.isSome
        pure argv
      else
        pure (some default_argv))
    c_if (o.msg_rlimit_export_rv = -1) (sys_exit 255)
    c_if (o.msg_user_export_rv = -1) (sys_exit 255)
    let extra_env_vars : Option strv ←
      (if req.env.count ≠ 0 then do
        let extra_env_vars := o.msg_array_export req.env
        c_assert extra_env_vars.isSome
        pure extra_env_vars
      else
        pure none)
    let envp ← child_setup_environment o pw extra_env_vars
    c_assert envp.isSome
    c_if (req.dir.path.length ≠ 0) do
      let rv ← sys_chdir o req.dir.path
      c_if (rv = -1) (sys_exit 255)
    let _ ← sys_execvpe o (argv.getD []) (envp.getD [])
    sys_exit 255

/-- The block `if (rv == 0) { ... }` of `child_fork`: what the forked child
does. It never returns: it ends in `exec`, `exit(255)` or an abort. -/
def child_fork_child (o : Env) (req : msg_request_t) (in_ out err : Int) : Proc Int := do
  let rv ← sys_dup2 in_ 0
  c_assert (decide (rv ≠ -1))
  let rv ← sys_dup2 out 1
  c_assert (decide (rv ≠ -1))
  let rv ← sys_dup2 err 2
  c_assert (decide (rv ≠ -1))
  let rv ← sys_setsid o
  c_assert (decide (rv ≠ -1))
  child_fork_exec o req in_

/-- The function `child_fork`, in the process in which `fork` returns. -/
def child_fork (o : Env) (req : msg_request_t) (in_ out err : Int) : Proc Int := do
  let rv ← sys_fork o
  c_if (rv = -1) (sys_exit 1)
  if rv = 0 then
    child_fork_child o req in_ out err
  else
    pure rv

/-! ## The spawn handlers -/

/-- One `pipe(p[i])` with its check and the two `fcntl_mix_cloexec` calls. -/
def open_pipe (o : Env) (i : Nat) (pi : Int × Int) : Proc (Int × Int) := do
  let r ← sys_pipe (o.pipe_ok i) pi
  c_if (r.1 = -1) sys_abort
  fcntl_mix_cloexec r.2.1
  fcntl_mix_cloexec r.2.2
  pure r.2

/-- The nested loops at the label `err`: close every end that is set. -/
def close_pipes : List (Int × Int) → Proc Unit
  | [] => pure ()
  | pi :: rest => do
    c_if (pi.1 > -1) do
      let _ ← sys_close pi.1
    c_if (pi.2 > -1) do
      let _ ← sys_close pi.2
    close_pipes rest

/-- The code from the label `err` to the end of a spawn handler. -/
def handler_err (p : List (Int × Int)) (fd : Int) : Proc Int := do
  close_pipes p
  c_if (fd > -1) do
    let _ ← sys_close fd
  pure 0

/-- The function `child_handle_interactive`. -/
def child_handle_interactive (o : Env) (fd : Int) (req : msg_request_t) : Proc Int := do
  emit (Sys.enter Handler.interactive)
  -- Initialize so that the error handler can do its job
  let p0 : Int × Int := (-1, -1)
  let p1 : Int × Int := (-1, -1)
  let p1 ← open_pipe o 1 p1
  let r ← sys_openpty o.openpty_ok p0
  c_if (r.1 < 0) sys_abort
  let p0 := r.2
  fcntl_mix_cloexec p0.1
  fcntl_mix_cloexec p0.2
  -- Descriptors to send to client
  let p_ := [p0.1, p1.1]
  let rv ← un_send_fds o fd p_
  if rv = -1 then
    handler_err [p0, p1] fd
  else
    let rv ← child_fork o req p0.2 p0.2 p0.2
    c_assert (decide (rv > 0))
    child_pid_to_fd_add o.dup_ok rv p1.2
    handler_err [p0, p1] fd

/-- The function `child_handle_noninteractive`. -/
def child_handle_noninteractive (o : Env) (fd : Int) (req : msg_request_t) : Proc Int := do
  emit (Sys.enter Handler.noninteractive)
  -- Initialize so that the error handler can do its job
  let p0 ← open_pipe o 0 (-1, -1)
  let p1 ← open_pipe o 1 (-1, -1)
  let p2 ← open_pipe o 2 (-1, -1)
  let p3 ← open_pipe o 3 (-1, -1)
  -- Descriptors to send to client
  let p_ := [p0.2, p1.1, p2.1, p3.1]
  let rv ← un_send_fds o fd p_
  if rv = -1 then
    handler_err [p0, p1, p2, p3] fd
  else
    let rv ← child_fork o req p0.1 p1.2 p2.2
    c_assert (decide (rv > 0))
    child_pid_to_fd_add o.dup_ok rv p3.2
    handler_err [p0, p1, p2, p3] fd

/-! ## The mount injector -/

/-- The macro `CONTAINER_MOUNTS_PATH`. -/
def CONTAINER_MOUNTS_PATH : String := "/tmp/container-shared-mounts"

/-- The function `mkdir_as`: create a directory; chown only if newly
created. -/
def mkdir_as (o : Env) (dir : String) (uid gid : Int) : Proc Int := do
  let rv ← sys_mkdir o dir
  if rv = 0 then
    -- new directory; set ownership
    sys_chown o dir uid gid
  else
    let errno ← (fun s => Outcome.ret s.errno s : Proc Int)
    if errno = EEXIST then
      -- if directory already exists, leave ownership as-is
      pure 0
    else
      -- if any other error, abort
      pure rv

/-- The loop `for(p = tmp + 1; *p; p++)` of `mkdir_p_as` from `p = tmp + i`
on, followed by the creation of the final destination; `fuel` bounds the
number of iterations left. -/
def mkdir_p_as_loop (o : Env) (tmp : List Char) (uid gid : Int) : Nat → Nat → Proc Int
  | 0, _ => mkdir_as o (String.mk tmp) uid gid
  | fuel + 1, i =>
    if i < tmp.length then
      if tmp.getD i ' ' = '/' then do
        -- mkdir with truncated path segment
        let rv ← mkdir_as o (String.mk (tmp.take i)) uid gid
        if rv = -1 then
          pure rv
        else
          mkdir_p_as_loop o tmp uid gid fuel (i + 1)
      else
        mkdir_p_as_loop o tmp uid gid fuel (i + 1)
    else
      -- create final destination
      mkdir_as o (String.mk tmp) uid gid

/-- The function `mkdir_p_as`: recursively mkdir with directories owned by a
given user. For the empty string the C code reads `tmp[-1]`, which has no
defined behaviour. -/
def mkdir_p_as (o : Env) (dir : String) (uid gid : Int) : Proc Int :=
  -- copy the given dir as it'll be mutated
  let tmp := (snprintf PATH_MAX dir).2.data
  let len := tmp.length
  if len = 0 then
    fun _ => Outcome.undefined
  else
    -- strip trailing slash
    let tmp := if tmp.getD (len - 1) ' ' = '/' then tmp.take (len - 1) else tmp
    mkdir_p_as_loop o tmp uid gid tmp.length 1

/-- The function `child_handle_bind_mount`. -/
def child_handle_bind_mount (o : Env) (_fd : Int) (req : msg_request_t) : Proc Int := do
  emit (Sys.enter Handler.bind_mount)
  let w ← get_w
  let r := snprintf PATH_MAX (w.volumes_path ++ "/" ++ req.bind_mount_name)
  c_assert (decide (r.1 ≠ -1))
  let host_volume_path := r.2
  let r := snprintf PATH_MAX (CONTAINER_MOUNTS_PATH ++ "/" ++ req.bind_mount_name)
  c_assert (decide (r.1 ≠ -1))
  let container_volume_path := r.2
  let container_mount_ns ← sys_open_ns o
  c_assert (decide (container_mount_ns ≠ -1))
  let rv ← sys_setns o w.host_mount_ns
  c_assert (decide (rv ≠ -1))
  let rv ← sys_mkdir o host_volume_path
  c_assert (decide (rv ≠ -1))
  let rv ← sys_mount o req.bind_mount_source.path host_volume_path
  c_assert (decide (rv ≠ -1))
  let rv ← sys_setns o container_mount_ns
  c_assert (decide (rv ≠ -1))
  let rv ← mkdir_p_as o req.bind_mount_destination.path 0 0
  c_assert (decide (rv ≠ -1))
  let rv ← sys_mount o container_volume_path req.bind_mount_destination.path
  c_assert (decide (rv ≠ -1))
  pure 0

/-! ## The request dispatcher -/

/-- The function `child_accept`. -/
def child_accept (o : Env) : Proc Int := do
  let w ← get_w
  let rv ← sys_accept o w.fd
  c_if (rv = -1) sys_abort
  let fd := rv
  fcntl_mix_cloexec fd
  let rv ← un_recv_fds o fd
  c_if (rv < 0) (sys_exit 255)
  if rv = 0 then
    let _ ← sys_close fd
    pure 0
  else
    c_assert (decide (rv = o.sizeof_req))
    let req := o.recv_req
    if req.bind_mount_source.path.length ≠ 0 ∧ req.bind_mount_destination.path.length ≠ 0 then
      child_handle_bind_mount o fd req
    else if req.tty ≠ 0 then
      child_handle_interactive o fd req
    else
      child_handle_noninteractive o fd req

/-! ## The command line -/

/-- The function `wshd__usage`: prints the usage on `stderr` (output on
`stderr` is not modelled) and returns `0`. -/
def wshd__usage (_argv : List String) : Proc Int := pure 0

/-- An assignment to the daemon record `w`. -/
def set_w (f : wshd_t → wshd_t) : Proc Unit := fun s => .ret () { s with w := f s.w }

/-- The size `sizeof(w->title)` of the field `char title[32]`. -/
def sizeof_title : Nat := 32

/-- The loop `while (i < argc)` of `wshd__getopt` from the values `i` and `j`
on; `fuel` bounds the number of iterations left. The labels `toolong` and
`invalid` print a message and return `-1`. -/
def wshd__getopt_loop (argv : List String) : Nat → Nat → Int → Proc Int
  | 0, _, _ => pure 0
  | fuel + 1, i, j =>
    if i < argv.length then
      if j ≥ 2 then
        if argv.getD i "" = "--run" then do
          let r := snprintf PATH_MAX (argv.getD (i + 1) "")
          set_w (fun w => { w with run_path := r.2 })
          if r.1 ≥ PATH_MAX then
            pure (-1)
          else
            wshd__getopt_loop argv fuel (i + 2) (j - 2)
        else if argv.getD i "" = "--lib" then do
          let r := snprintf PATH_MAX (argv.getD (i + 1) "")
          set_w (fun w => { w with lib_path := r.2 })
          if r.1 ≥ PATH_MAX then
            pure (-1)
          else
            wshd__getopt_loop argv fuel (i + 2) (j - 2)
        else if argv.getD i "" = "--root" then do
          let r := snprintf PATH_MAX (argv.getD (i + 1) "")
          set_w (fun w => { w with root_path := r.2 })
          if r.1 ≥ PATH_MAX then
            pure (-1)
          else
            wshd__getopt_loop argv fuel (i + 2) (j - 2)
        else if argv.getD i "" = "--volumes" then do
          let r := snprintf PATH_MAX (argv.getD (i + 1) "")
          set_w (fun w => { w with volumes_path := r.2 })
          if r.1 ≥ PATH_MAX then
            pure (-1)
          else
            wshd__getopt_loop argv fuel (i + 2) (j - 2)
        else if argv.getD i "" = "--title" then do
          let r := snprintf sizeof_title (argv.getD (i + 1) "")
          set_w (fun w => { w with title := r.2 })
          if r.1 ≥ sizeof_title then
            pure (-1)
          else
            wshd__getopt_loop argv fuel (i + 2) (j - 2)
        else
          pure (-1)
      else if j = 1 then
        if argv.getD i "" = "-h" ∨ argv.getD i "" = "--help" then do
          let _ ← wshd__usage argv
          pure (-1)
        else
          pure (-1)
      else
        -- assert(NULL);
        sys_abort
    else
      pure 0

/-- The function `wshd__getopt` on the command line `argv` (`argc` is its
length). -/
def wshd__getopt (argv : List String) : Proc Int :=
  wshd__getopt_loop argv argv.length 1 ((argv.length : Int) - 1)

/-! ## Notions used to state the properties -/

/-- The state in which a call ends, when it has one. -/
def Outcome.state {α : Type} : Outcome α → Option World
  | .ret _ s => some s
  | .exit _ s => some s
  | .abort s => some s
  | .exec _ _ s => some s
  | .undefined => none

/-- The ways a call can end, without the state. -/
inductive Ending
  | returned
  | exited (code : Int)
  | aborted
  | replaced
  | undefined
deriving DecidableEq, Repr

/-- The way a call ends. -/
def Outcome.ending {α : Type} : Outcome α → Ending
  | .ret _ _ => Ending.returned
  | .exit code _ => Ending.exited code
  | .abort _ => Ending.aborted
  | .exec _ _ _ => Ending.replaced
  | .undefined => Ending.undefined

/-- The descriptors closed in a trace, in order. -/
def closed_fds : List Sys → List Int
  | [] => []
  | Sys.close fd :: t => fd :: closed_fds t
  | _ :: t => closed_fds t

/-- The descriptors created by `pipe` and `openpty` in a trace, in order. -/
def created_fds : List Sys → List Int
  | [] => []
  | Sys.pipe r w :: t => r :: w :: created_fds t
  | Sys.openpty m sl :: t => m :: sl :: created_fds t
  | _ :: t => created_fds t

/-- The ends of a list of pipes (or pseudo-terminal pairs), in the order in
which the code at the label `err` visits them. -/
def pipe_ends : List (Int × Int) → List Int
  | [] => []
  | pi :: rest => pi.1 :: pi.2 :: pipe_ends rest

/-- The handlers entered in a trace, in order. -/
def entered : List Sys → List Handler
  | [] => []
  | Sys.enter h :: t => h :: entered t
  | _ :: t => entered t

/-- The PIDs of the entries of the map, in order. -/
def map_pids (w : wshd_t) : List Int := w.pid_to_fd.map pid_fd.pid

/-- A call on the PID map. -/
inductive map_op
  | add (pid fd : Int)
  | remove (pid : Int)
deriving DecidableEq, Repr

/-- A sequence of calls of `child_pid_to_fd_add` and `child_pid_to_fd_remove`. -/
def run_ops (dup_ok : Bool) : List map_op → Proc Unit
  | [] => pure ()
  | map_op.add pid fd :: rest => do
    child_pid_to_fd_add dup_ok pid fd
    run_ops dup_ok rest
  | map_op.remove pid :: rest => do
    let _ ← remove_step pid
    run_ops dup_ok rest

/-- Every `add` of the sequence is for a PID that has no entry at that time,
`pids` being the PIDs that have one at the start. -/
def adds_fresh : List map_op → List Int → Bool
  | [], _ => true
  | map_op.add pid _ :: rest, pids => decide (pid ∉ pids) && adds_fresh rest (pids ++ [pid])
  | map_op.remove pid :: rest, pids => adds_fresh rest (pids.erase pid)

/-- Whenever `m` ends in a state, the trace of that state is the trace at the
start followed by events among which no handler is entered. -/
def NoEnter {α : Type} (m : Proc α) : Prop :=
  ∀ s s', (m s).state = some s' → ∃ t, s'.trace = s.trace ++ t ∧ entered t = []

/-- The piece `m` never returns to its caller. -/
def NoRet {α : Type} (m : Proc α) : Prop := ∀ s a s', m s ≠ Outcome.ret a s'

/-- The size of the field an option is stored in; `none` for a word that is
not an option taking a value. -/
def option_size (opt : String) : Option Nat :=
  if opt = "--run" ∨ opt = "--lib" ∨ opt = "--root" ∨ opt = "--volumes" then some PATH_MAX
  else if opt = "--title" then some sizeof_title
  else none

/-- An option with a value that fits the field it is stored in. -/
def fitting_pair (p : String × String) : Bool :=
  match option_size p.1 with
  | some size => decide (p.2.length < size)
  | none => false

/-- The daemon record after the value of an option has been stored. -/
def store_option (w : wshd_t) (p : String × String) : wshd_t :=
  if p.1 = "--run" then { w with run_path := p.2 }
  else if p.1 = "--lib" then { w with lib_path := p.2 }
  else if p.1 = "--root" then { w with root_path := p.2 }
  else if p.1 = "--volumes" then { w with volumes_path := p.2 }
  else if p.1 = "--title" then { w with title := p.2 }
  else w

/-- The words of a list of options with their values. -/
def option_words : List (String × String) → List String
  | [] => []
  | p :: ps => p.1 :: p.2 :: option_words ps

/-- A path with one trailing `'/'` stripped. -/
def strip_slash (path : List Char) : List Char :=
  if path.getLast? = some '/' then path.dropLast else path

/-- The prefixes of a path that end immediately before a `'/'` located at
index 1 or later, in order of increasing length. -/
def slash_prefixes (path : List Char) : List String :=
  ((List.range path.length).filter
      (fun i => decide (1 ≤ i) && decide (path.getD i ' ' = '/'))).map
    (fun i => String.mk (path.take i))

/-- The calls of `mkdir_as` on the directories `ds` in order and finally on
`last`: the first call that returns `-1` ends the sequence with `-1`, and
otherwise the result is the one of the call on `last`. -/
def mkdir_each (o : Env) (uid gid : Int) : List String → String → Proc Int
  | [], last => mkdir_as o last uid gid
  | d :: ds, last => do
    let rv ← mkdir_as o d uid gid
    if rv = -1 then pure (-1) else mkdir_each o uid gid ds last

/-- The directories that exist in the mount namespace the process is in. -/
def World.dirs (s : World) : List String :=
  if s.in_host_ns then s.host_dirs else s.container_dirs

/-- The state after the directory `d` has been created in the mount namespace
the process is in. -/
def World.add_dir (s : World) (d : String) : World :=
  if s.in_host_ns then { s with host_dirs := d :: s.host_dirs }
  else { s with container_dirs := d :: s.container_dirs }

/-! ## Basic facts about sequencing -/

theorem bind_apply {α β : Type} (m : Proc α) (f : α → Proc β) (s : World) :
    (m >>= f) s = Proc.bind m f s := rfl

theorem pure_apply {α : Type} (a : α) (s : World) :
    (pure a : Proc α) s = Outcome.ret a s := rfl

theorem bind_ret {α β : Type} (m : Proc α) (f : α → Proc β) (s s1 : World) (a : α)
    (h : m s = Outcome.ret a s1) : (m >>= f) s = f a s1 := by
  simp [bind_apply, Proc.bind, h]

/-! ## The PID map: removal -/

theorem memmove_realloc_tail (l1 t : List pid_fd) (e : pid_fd) :
    realloc (if l1.length + 1 < l1.length + (t.length + 1)
        then memmove (l1 ++ e :: t) l1.length (l1.length + 1)
          (l1.length + (t.length + 1) - l1.length - 1)
        else l1 ++ e :: t) (l1.length + (t.length + 1) - 1) = l1 ++ t := by
  have h1 : l1.length + (t.length + 1) - l1.length - 1 = t.length := by omega
  have h2 : l1.length + (t.length + 1) - 1 = l1.length + t.length := by omega
  rw [h1, h2]
  cases t with
  | nil => simp [realloc]
  | cons x t =>
    have h3 : l1.length + 1 < l1.length + ((x :: t).length + 1) := by simp
    rw [if_pos h3]
    have h4 : List.drop (l1.length + 1) (l1 ++ e :: x :: t) = x :: t := by
      rw [List.drop_append_eq_append_drop]
      simp
    simp only [memmove, realloc, h4, List.take_left', List.take_length]
    rw [List.append_assoc, ← List.append_assoc l1, List.take_append_eq_append_take]
    simp

theorem remove_loop_eq (pid : Int) (l2 : List pid_fd) :
    ∀ l1 : List pid_fd, (∀ x ∈ l1, x.pid ≠ pid) →
      child_pid_to_fd_remove_loop pid (l1.length + l2.length) l2.length l1.length (l1 ++ l2)
        = (match l2.find? (fun e => decide (e.pid = pid)) with
           | none => (-1, l1 ++ l2)
           | some e => (e.fd, l1 ++ l2.eraseP (fun e => decide (e.pid = pid)))) := by
  induction l2 with
  | nil => intro l1 _; simp [child_pid_to_fd_remove_loop]
  | cons e t ih =>
    intro l1 h1
    have hget : (l1 ++ e :: t).getD l1.length default = e := by
      rw [List.getD_eq_getElem?_getD, List.getElem?_append_right (le_refl _)]
      simp
    simp only [child_pid_to_fd_remove_loop, List.length_cons, hget]
    rw [if_pos (by omega)]
    by_cases hp : e.pid = pid
    · rw [if_pos hp]
      rw [memmove_realloc_tail]
      simp [List.find?_cons, hp, List.eraseP_cons]
    · rw [if_neg hp]
      have := ih (l1 ++ [e]) (by
        intro x hx
        rcases List.mem_append.1 hx with h | h
        · exact h1 x h
        · simp at h; rw [h]; exact hp)
      simp only [List.length_append, List.length_singleton, List.append_assoc,
        List.singleton_append] at this
      have e1 : l1.length + 1 + t.length = l1.length + (t.length + 1) := by omega
      rw [e1] at this
      rw [this]
      simp [List.find?_cons, hp, List.eraseP_cons]

theorem remove_eq_reference (w : wshd_t) (pid : Int) :
    child_pid_to_fd_remove w pid =
      ((remove_reference w.pid_to_fd pid).1,
        { w with pid_to_fd := (remove_reference w.pid_to_fd pid).2 }) := by
  have := remove_loop_eq pid w.pid_to_fd [] (by simp)
  simp only [List.length_nil, Nat.zero_add, List.nil_append] at this
  simp only [child_pid_to_fd_remove, wshd_t.pid_to_fd_len, this, remove_reference]

theorem entered_append (a b : List Sys) : entered (a ++ b) = entered a ++ entered b := by
  induction a with
  | nil => rfl
  | cons e t ih => cases e <;> simp [entered, ih]

theorem noenter_pure {α : Type} (a : α) : NoEnter (pure a : Proc α) := by
  intro s s' h
  simp only [pure_apply, Outcome.state, Option.some.injEq] at h
  exact ⟨[], by simp [← h], rfl⟩

theorem noenter_bind {α β : Type} {m : Proc α} {f : α → Proc β}
    (hm : NoEnter m) (hf : ∀ a, NoEnter (f a)) : NoEnter (m >>= f) := by
  intro s s' h
  rw [bind_apply] at h
  unfold Proc.bind at h
  cases hms : m s with
  | ret a s1 =>
    rw [hms] at h
    obtain ⟨t1, h1, e1⟩ := hm s s1 (by rw [hms]; rfl)
    obtain ⟨t2, h2, e2⟩ := hf a s1 s' h
    exact ⟨t1 ++ t2, by rw [h2, h1, List.append_assoc], by rw [entered_append, e1, e2]; rfl⟩
  | exit c s1 =>
    rw [hms] at h
    exact hm s s' (by rw [hms]; exact h)
  | abort s1 =>
    rw [hms] at h
    exact hm s s' (by rw [hms]; exact h)
  | exec a e s1 =>
    rw [hms] at h
    exact hm s s' (by rw [hms]; exact h)
  | undefined =>
    rw [hms] at h
    simp [Outcome.state] at h

theorem noenter_ite {α : Type} {c : Prop} [Decidable c] {m1 m2 : Proc α}
    (h1 : NoEnter m1) (h2 : NoEnter m2) : NoEnter (if c then m1 else m2) := by
  by_cases hc : c
  · rw [if_pos hc]; exact h1
  · rw [if_neg hc]; exact h2

theorem noenter_same {α : Type} (m : Proc α)
    (h : ∀ s s', (m s).state = some s' → s'.trace = s.trace) : NoEnter m := by
  intro s s' hs
  exact ⟨[], by simp [h s s' hs], rfl⟩

theorem noenter_one {α : Type} (m : Proc α) (e : Sys) (he : entered [e] = [])
    (h : ∀ s s', (m s).state = some s' → s'.trace = s.trace ++ [e]) : NoEnter m := by
  intro s s' hs
  exact ⟨[e], h s s' hs, he⟩

theorem noenter_sys_exit {α : Type} (c : Int) : NoEnter (sys_exit c : Proc α) :=
  noenter_same _ (by intro s s' h; simp only [Wshd.sys_exit, Outcome.state, Option.some.injEq] at h; rw [← h])

theorem noenter_sys_abort {α : Type} : NoEnter (sys_abort : Proc α) :=
  noenter_same _ (by intro s s' h; simp only [Wshd.sys_abort, Outcome.state, Option.some.injEq] at h; rw [← h])

theorem noenter_c_assert (b : Bool) : NoEnter (c_assert b) :=
  noenter_same _ (by
    intro s s' h
    cases b <;> simp only [Wshd.c_assert, Outcome.state, Option.some.injEq, if_true,
      Bool.false_eq_true, if_false] at h <;> rw [← h])

theorem noenter_c_if (c : Prop) [Decidable c] {m : Proc Unit} (h : NoEnter m) :
    NoEnter (c_if c m) := by
  unfold c_if
  exact noenter_ite h (noenter_pure _)

theorem noenter_get_w : NoEnter get_w :=
  noenter_same _ (by intro s s' h; simp only [Wshd.get_w, Outcome.state, Option.some.injEq] at h; rw [← h])

theorem noenter_remove_step (pid : Int) : NoEnter (remove_step pid) :=
  noenter_same _ (by intro s s' h; simp only [Wshd.remove_step, Outcome.state, Option.some.injEq] at h; rw [← h])

theorem noenter_sys_close (fd : Int) : NoEnter (sys_close fd) :=
  noenter_one _ (Sys.close fd) rfl (by
    intro s s' h; simp only [Wshd.sys_close, Outcome.state, Option.some.injEq] at h; rw [← h])

theorem noenter_sys_write (fd : Int) (b : List Nat) : NoEnter (sys_write fd b) :=
  noenter_one _ (Sys.write fd b) rfl (by
    intro s s' h; simp only [Wshd.sys_write, Outcome.state, Option.some.injEq] at h; rw [← h])

theorem noenter_fcntl_mix_cloexec (fd : Int) : NoEnter (fcntl_mix_cloexec fd) :=
  noenter_one _ (Sys.cloexec fd) rfl (by
    intro s s' h
    simp only [Wshd.fcntl_mix_cloexec, emit, Outcome.state, Option.some.injEq] at h; rw [← h])

theorem noenter_sys_dup (ok : Bool) (fd : Int) : NoEnter (sys_dup ok fd) := by
  intro s s' h
  simp only [sys_dup] at h
  try split_ifs at h
  all_goals (simp only [Outcome.state, Option.some.injEq] at h; subst h)
  all_goals first | exact ⟨[_], rfl, rfl⟩ | exact ⟨[], by simp, rfl⟩

theorem noenter_sys_pipe (ok : Bool) (p : Int × Int) : NoEnter (sys_pipe ok p) := by
  intro s s' h
  simp only [sys_pipe] at h
  try split_ifs at h
  all_goals (simp only [Outcome.state, Option.some.injEq] at h; subst h)
  all_goals first | exact ⟨[_], rfl, rfl⟩ | exact ⟨[], by simp, rfl⟩

theorem noenter_sys_chdir (o : Env) (path : String) : NoEnter (sys_chdir o path) := by
  intro s s' h
  simp only [sys_chdir] at h
  try split_ifs at h
  all_goals (simp only [Outcome.state, Option.some.injEq] at h; subst h)
  all_goals first | exact ⟨[_], rfl, rfl⟩ | exact ⟨[], by simp, rfl⟩

theorem noenter_sys_dup2 (a b : Int) : NoEnter (sys_dup2 a b) := by
  intro s s' h
  simp only [sys_dup2] at h
  try split_ifs at h
  all_goals (simp only [Outcome.state, Option.some.injEq] at h; subst h)
  all_goals first | exact ⟨[_], rfl, rfl⟩ | exact ⟨[], by simp, rfl⟩

theorem noenter_sys_setsid (o : Env) : NoEnter (sys_setsid o) := by
  intro s s' h
  simp only [sys_setsid] at h
  try split_ifs at h
  all_goals (simp only [Outcome.state, Option.some.injEq] at h; subst h)
  all_goals first | exact ⟨[_], rfl, rfl⟩ | exact ⟨[], by simp, rfl⟩

theorem noenter_sys_tiocsctty (o : Env) (fd : Int) : NoEnter (sys_tiocsctty o fd) := by
  intro s s' h
  simp only [sys_tiocsctty] at h
  try split_ifs at h
  all_goals (simp only [Outcome.state, Option.some.injEq] at h; subst h)
  all_goals first | exact ⟨[_], rfl, rfl⟩ | exact ⟨[], by simp, rfl⟩

theorem noenter_sys_fork (o : Env) : NoEnter (sys_fork o) := by
  intro s s' h
  simp only [sys_fork] at h
  try split_ifs at h
  all_goals (simp only [Outcome.state, Option.some.injEq] at h; subst h)
  all_goals first | exact ⟨[_], rfl, rfl⟩ | exact ⟨[], by simp, rfl⟩

theorem noenter_sys_execvpe (o : Env) (a e : strv) : NoEnter (sys_execvpe o a e) := by
  intro s s' h
  simp only [sys_execvpe] at h
  try split_ifs at h
  all_goals (simp only [Outcome.state, Option.some.injEq] at h; subst h)
  all_goals first | exact ⟨[_], rfl, rfl⟩ | exact ⟨[], by simp, rfl⟩

theorem noenter_sys_openpty (ok : Bool) (p : Int × Int) : NoEnter (sys_openpty ok p) := by
  intro s s' h
  simp only [sys_openpty] at h
  try split_ifs at h
  all_goals (simp only [Outcome.state, Option.some.injEq] at h; subst h)
  all_goals first | exact ⟨[_], rfl, rfl⟩ | exact ⟨[], by simp, rfl⟩

theorem noenter_sys_accept (o : Env) (l : Int) : NoEnter (sys_accept o l) := by
  intro s s' h
  simp only [sys_accept] at h
  try split_ifs at h
  all_goals (simp only [Outcome.state, Option.some.injEq] at h; subst h)
  all_goals first | exact ⟨[_], rfl, rfl⟩ | exact ⟨[], by simp, rfl⟩

theorem noenter_un_recv_fds (o : Env) (fd : Int) : NoEnter (un_recv_fds o fd) := by
  intro s s' h
  simp only [un_recv_fds] at h
  try split_ifs at h
  all_goals (simp only [Outcome.state, Option.some.injEq] at h; subst h)
  all_goals first | exact ⟨[_], rfl, rfl⟩ | exact ⟨[], by simp, rfl⟩

theorem noenter_un_send_fds (o : Env) (fd : Int) (fds : List Int) : NoEnter (un_send_fds o fd fds) := by
  intro s s' h
  simp only [un_send_fds] at h
  try split_ifs at h
  all_goals (simp only [Outcome.state, Option.some.injEq] at h; subst h)
  all_goals first | exact ⟨[_], rfl, rfl⟩ | exact ⟨[], by simp, rfl⟩

theorem noenter_sys_open_ns (o : Env) : NoEnter (sys_open_ns o) := by
  intro s s' h
  simp only [sys_open_ns] at h
  try split_ifs at h
  all_goals (simp only [Outcome.state, Option.some.injEq] at h; subst h)
  all_goals first | exact ⟨[_], rfl, rfl⟩ | exact ⟨[], by simp, rfl⟩

theorem noenter_sys_setns (o : Env) (fd : Int) : NoEnter (sys_setns o fd) := by
  intro s s' h
  simp only [sys_setns] at h
  try split_ifs at h
  all_goals (simp only [Outcome.state, Option.some.injEq] at h; subst h)
  all_goals first | exact ⟨[_], rfl, rfl⟩ | exact ⟨[], by simp, rfl⟩

theorem noenter_sys_mkdir (o : Env) (path : String) : NoEnter (sys_mkdir o path) := by
  intro s s' h
  simp only [sys_mkdir] at h
  try split_ifs at h
  all_goals (simp only [Outcome.state, Option.some.injEq] at h; subst h)
  all_goals first | exact ⟨[_], rfl, rfl⟩ | exact ⟨[], by simp, rfl⟩

theorem noenter_sys_chown (o : Env) (path : String) (u g : Int) : NoEnter (sys_chown o path u g) := by
  intro s s' h
  simp only [sys_chown] at h
  try split_ifs at h
  all_goals (simp only [Outcome.state, Option.some.injEq] at h; subst h)
  all_goals first | exact ⟨[_], rfl, rfl⟩ | exact ⟨[], by simp, rfl⟩

theorem noenter_sys_mount (o : Env) (a b : String) : NoEnter (sys_mount o a b) := by
  intro s s' h
  simp only [sys_mount] at h
  try split_ifs at h
  all_goals (simp only [Outcome.state, Option.some.injEq] at h; subst h)
  all_goals first | exact ⟨[_], rfl, rfl⟩ | exact ⟨[], by simp, rfl⟩

theorem noenter_child_pid_to_fd_add (ok : Bool) (pid fd : Int) :
    NoEnter (child_pid_to_fd_add ok pid fd) := by
  unfold child_pid_to_fd_add
  repeat' (first
    | with_reducible (first
        | refine noenter_bind ?_ (fun _ => ?_)
        | refine noenter_ite ?_ ?_
        | refine noenter_c_if _ ?_
        | exact noenter_sys_dup _ _
        | exact noenter_sys_pipe _ _
        | exact noenter_sys_chdir _ _
        | exact noenter_sys_dup2 _ _
        | exact noenter_sys_setsid _
        | exact noenter_sys_tiocsctty _ _
        | exact noenter_sys_fork _
        | exact noenter_sys_execvpe _ _ _
        | exact noenter_sys_openpty _ _
        | exact noenter_sys_accept _ _
        | exact noenter_un_recv_fds _ _
        | exact noenter_un_send_fds _ _ _
        | exact noenter_sys_open_ns _
        | exact noenter_sys_setns _ _
        | exact noenter_sys_mkdir _ _
        | exact noenter_sys_chown _ _ _ _
        | exact noenter_sys_mount _ _ _
        | exact noenter_sys_close _
        | exact noenter_sys_write _ _
        | exact noenter_fcntl_mix_cloexec _
        | exact noenter_sys_exit _
        | exact noenter_sys_abort
        | exact noenter_c_assert _
        | exact noenter_get_w
        | exact noenter_remove_step _
        | exact noenter_pure _)
    | (refine noenter_same _ ?_; intro s s' h; simp only [Outcome.state, Option.some.injEq] at h; rw [← h])
    | dsimp only
    | split)

theorem noenter_child_setup_environment (o : Env) (pw : passwd) (x : Option strv) :
    NoEnter (child_setup_environment o pw x) := by
  unfold child_setup_environment
  repeat' (first
    | with_reducible (first
        | refine noenter_bind ?_ (fun _ => ?_)
        | refine noenter_ite ?_ ?_
        | refine noenter_c_if _ ?_
        | exact noenter_sys_dup _ _
        | exact noenter_sys_pipe _ _
        | exact noenter_sys_chdir _ _
        | exact noenter_sys_dup2 _ _
        | exact noenter_sys_setsid _
        | exact noenter_sys_tiocsctty _ _
        | exact noenter_sys_fork _
        | exact noenter_sys_execvpe _ _ _
        | exact noenter_sys_openpty _ _
        | exact noenter_sys_accept _ _
        | exact noenter_un_recv_fds _ _
        | exact noenter_un_send_fds _ _ _
        | exact noenter_sys_open_ns _
        | exact noenter_sys_setns _ _
        | exact noenter_sys_mkdir _ _
        | exact noenter_sys_chown _ _ _ _
        | exact noenter_sys_mount _ _ _
        | exact noenter_sys_close _
        | exact noenter_sys_write _ _
        | exact noenter_fcntl_mix_cloexec _
        | exact noenter_sys_exit _
        | exact noenter_sys_abort
        | exact noenter_c_assert _
        | exact noenter_get_w
        | exact noenter_remove_step _
        | exact noenter_pure _)
    | (refine noenter_same _ ?_; intro s s' h; simp only [Outcome.state, Option.some.injEq] at h; rw [← h])
    | dsimp only
    | split)

theorem noenter_child_fork_exec (o : Env) (req : msg_request_t) (a : Int) :
    NoEnter (child_fork_exec o req a) := by
  unfold child_fork_exec
  repeat' (first
    | with_reducible (first
        | refine noenter_bind ?_ (fun _ => ?_)
        | refine noenter_ite ?_ ?_
        | refine noenter_c_if _ ?_
        | exact noenter_child_setup_environment _ _ _
        | exact noenter_sys_dup _ _
        | exact noenter_sys_pipe _ _
        | exact noenter_sys_chdir _ _
        | exact noenter_sys_dup2 _ _
        | exact noenter_sys_setsid _
        | exact noenter_sys_tiocsctty _ _
        | exact noenter_sys_fork _
        | exact noenter_sys_execvpe _ _ _
        | exact noenter_sys_openpty _ _
        | exact noenter_sys_accept _ _
        | exact noenter_un_recv_fds _ _
        | exact noenter_un_send_fds _ _ _
        | exact noenter_sys_open_ns _
        | exact noenter_sys_setns _ _
        | exact noenter_sys_mkdir _ _
        | exact noenter_sys_chown _ _ _ _
        | exact noenter_sys_mount _ _ _
        | exact noenter_sys_close _
        | exact noenter_sys_write _ _
        | exact noenter_fcntl_mix_cloexec _
        | exact noenter_sys_exit _
        | exact noenter_sys_abort
        | exact noenter_c_assert _
        | exact noenter_get_w
        | exact noenter_remove_step _
        | exact noenter_pure _)
    | (refine noenter_same _ ?_; intro s s' h; simp only [Outcome.state, Option.some.injEq] at h; rw [← h])
    | dsimp only
    | split)

theorem noenter_child_fork_child (o : Env) (req : msg_request_t) (a b c : Int) :
    NoEnter (child_fork_child o req a b c) := by
  unfold child_fork_child
  repeat' (first
    | with_reducible (first
        | refine noenter_bind ?_ (fun _ => ?_)
        | refine noenter_ite ?_ ?_
        | refine noenter_c_if _ ?_
        | exact noenter_child_fork_exec _ _ _
        | exact noenter_sys_dup _ _
        | exact noenter_sys_pipe _ _
        | exact noenter_sys_chdir _ _
        | exact noenter_sys_dup2 _ _
        | exact noenter_sys_setsid _
        | exact noenter_sys_tiocsctty _ _
        | exact noenter_sys_fork _
        | exact noenter_sys_execvpe _ _ _
        | exact noenter_sys_openpty _ _
        | exact noenter_sys_accept _ _
        | exact noenter_un_recv_fds _ _
        | exact noenter_un_send_fds _ _ _
        | exact noenter_sys_open_ns _
        | exact noenter_sys_setns _ _
        | exact noenter_sys_mkdir _ _
        | exact noenter_sys_chown _ _ _ _
        | exact noenter_sys_mount _ _ _
        | exact noenter_sys_close _
        | exact noenter_sys_write _ _
        | exact noenter_fcntl_mix_cloexec _
        | exact noenter_sys_exit _
        | exact noenter_sys_abort
        | exact noenter_c_assert _
        | exact noenter_get_w
        | exact noenter_remove_step _
        | exact noenter_pure _)
    | (refine noenter_same _ ?_; intro s s' h; simp only [Outcome.state, Option.some.injEq] at h; rw [← h])
    | dsimp only
    | split)

theorem noenter_child_fork (o : Env) (req : msg_request_t) (a b c : Int) :
    NoEnter (child_fork o req a b c) := by
  unfold child_fork
  repeat' (first
    | with_reducible (first
        | refine noenter_bind ?_ (fun _ => ?_)
        | refine noenter_ite ?_ ?_
        | refine noenter_c_if _ ?_
        | exact noenter_child_fork_child _ _ _ _ _
        | exact noenter_sys_dup _ _
        | exact noenter_sys_pipe _ _
        | exact noenter_sys_chdir _ _
        | exact noenter_sys_dup2 _ _
        | exact noenter_sys_setsid _
        | exact noenter_sys_tiocsctty _ _
        | exact noenter_sys_fork _
        | exact noenter_sys_execvpe _ _ _
        | exact noenter_sys_openpty _ _
        | exact noenter_sys_accept _ _
        | exact noenter_un_recv_fds _ _
        | exact noenter_un_send_fds _ _ _
        | exact noenter_sys_open_ns _
        | exact noenter_sys_setns _ _
        | exact noenter_sys_mkdir _ _
        | exact noenter_sys_chown _ _ _ _
        | exact noenter_sys_mount _ _ _
        | exact noenter_sys_close _
        | exact noenter_sys_write _ _
        | exact noenter_fcntl_mix_cloexec _
        | exact noenter_sys_exit _
        | exact noenter_sys_abort
        | exact noenter_c_assert _
        | exact noenter_get_w
        | exact noenter_remove_step _
        | exact noenter_pure _)
    | (refine noenter_same _ ?_; intro s s' h; simp only [Outcome.state, Option.some.injEq] at h; rw [← h])
    | dsimp only
    | split)

theorem noenter_open_pipe (o : Env) (i : Nat) (p : Int × Int) : NoEnter (open_pipe o i p) := by
  unfold open_pipe
  repeat' (first
    | with_reducible (first
        | refine noenter_bind ?_ (fun _ => ?_)
        | refine noenter_ite ?_ ?_
        | refine noenter_c_if _ ?_
        | exact noenter_sys_dup _ _
        | exact noenter_sys_pipe _ _
        | exact noenter_sys_chdir _ _
        | exact noenter_sys_dup2 _ _
        | exact noenter_sys_setsid _
        | exact noenter_sys_tiocsctty _ _
        | exact noenter_sys_fork _
        | exact noenter_sys_execvpe _ _ _
        | exact noenter_sys_openpty _ _
        | exact noenter_sys_accept _ _
        | exact noenter_un_recv_fds _ _
        | exact noenter_un_send_fds _ _ _
        | exact noenter_sys_open_ns _
        | exact noenter_sys_setns _ _
        | exact noenter_sys_mkdir _ _
        | exact noenter_sys_chown _ _ _ _
        | exact noenter_sys_mount _ _ _
        | exact noenter_sys_close _
        | exact noenter_sys_write _ _
        | exact noenter_fcntl_mix_cloexec _
        | exact noenter_sys_exit _
        | exact noenter_sys_abort
        | exact noenter_c_assert _
        | exact noenter_get_w
        | exact noenter_remove_step _
        | exact noenter_pure _)
    | (refine noenter_same _ ?_; intro s s' h; simp only [Outcome.state, Option.some.injEq] at h; rw [← h])
    | dsimp only
    | split)

theorem noenter_close_pipes (p : List (Int × Int)) : NoEnter (close_pipes p) := by
  induction p with
  | nil => exact noenter_pure _
  | cons x t ih =>
    unfold close_pipes
    repeat' (first
      | with_reducible (first
          | refine noenter_bind ?_ (fun _ => ?_)
          | refine noenter_ite ?_ ?_
          | refine noenter_c_if _ ?_
          | exact ih
          | exact noenter_sys_dup _ _
          | exact noenter_sys_pipe _ _
          | exact noenter_sys_chdir _ _
          | exact noenter_sys_dup2 _ _
          | exact noenter_sys_setsid _
          | exact noenter_sys_tiocsctty _ _
          | exact noenter_sys_fork _
          | exact noenter_sys_execvpe _ _ _
          | exact noenter_sys_openpty _ _
          | exact noenter_sys_accept _ _
          | exact noenter_un_recv_fds _ _
          | exact noenter_un_send_fds _ _ _
          | exact noenter_sys_open_ns _
          | exact noenter_sys_setns _ _
          | exact noenter_sys_mkdir _ _
          | exact noenter_sys_chown _ _ _ _
          | exact noenter_sys_mount _ _ _
          | exact noenter_sys_close _
          | exact noenter_sys_write _ _
          | exact noenter_fcntl_mix_cloexec _
          | exact noenter_sys_exit _
          | exact noenter_sys_abort
          | exact noenter_c_assert _
          | exact noenter_get_w
          | exact noenter_remove_step _
          | exact noenter_pure _)
      | (refine noenter_same _ ?_; intro s s' h; simp only [Outcome.state, Option.some.injEq] at h; rw [← h])
      | dsimp only
      | split)

theorem noenter_handler_err (p : List (Int × Int)) (fd : Int) : NoEnter (handler_err p fd) := by
  unfold handler_err
  repeat' (first
    | with_reducible (first
        | refine noenter_bind ?_ (fun _ => ?_)
        | refine noenter_ite ?_ ?_
        | refine noenter_c_if _ ?_
        | exact noenter_close_pipes _
        | exact noenter_sys_dup _ _
        | exact noenter_sys_pipe _ _
        | exact noenter_sys_chdir _ _
        | exact noenter_sys_dup2 _ _
        | exact noenter_sys_setsid _
        | exact noenter_sys_tiocsctty _ _
        | exact noenter_sys_fork _
        | exact noenter_sys_execvpe _ _ _
        | exact noenter_sys_openpty _ _
        | exact noenter_sys_accept _ _
        | exact noenter_un_recv_fds _ _
        | exact noenter_un_send_fds _ _ _
        | exact noenter_sys_open_ns _
        | exact noenter_sys_setns _ _
        | exact noenter_sys_mkdir _ _
        | exact noenter_sys_chown _ _ _ _
        | exact noenter_sys_mount _ _ _
        | exact noenter_sys_close _
        | exact noenter_sys_write _ _
        | exact noenter_fcntl_mix_cloexec _
        | exact noenter_sys_exit _
        | exact noenter_sys_abort
        | exact noenter_c_assert _
        | exact noenter_get_w
        | exact noenter_remove_step _
        | exact noenter_pure _)
    | (refine noenter_same _ ?_; intro s s' h; simp only [Outcome.state, Option.some.injEq] at h; rw [← h])
    | dsimp only
    | split)

theorem noenter_mkdir_as (o : Env) (dir : String) (u g : Int) : NoEnter (mkdir_as o dir u g) := by
  unfold mkdir_as
  repeat' (first
    | with_reducible (first
        | refine noenter_bind ?_ (fun _ => ?_)
        | refine noenter_ite ?_ ?_
        | refine noenter_c_if _ ?_
        | exact noenter_sys_dup _ _
        | exact noenter_sys_pipe _ _
        | exact noenter_sys_chdir _ _
        | exact noenter_sys_dup2 _ _
        | exact noenter_sys_setsid _
        | exact noenter_sys_tiocsctty _ _
        | exact noenter_sys_fork _
        | exact noenter_sys_execvpe _ _ _
        | exact noenter_sys_openpty _ _
        | exact noenter_sys_accept _ _
        | exact noenter_un_recv_fds _ _
        | exact noenter_un_send_fds _ _ _
        | exact noenter_sys_open_ns _
        | exact noenter_sys_setns _ _
        | exact noenter_sys_mkdir _ _
        | exact noenter_sys_chown _ _ _ _
        | exact noenter_sys_mount _ _ _
        | exact noenter_sys_close _
        | exact noenter_sys_write _ _
        | exact noenter_fcntl_mix_cloexec _
        | exact noenter_sys_exit _
        | exact noenter_sys_abort
        | exact noenter_c_assert _
        | exact noenter_get_w
        | exact noenter_remove_step _
        | exact noenter_pure _)
    | (refine noenter_same _ ?_; intro s s' h; simp only [Outcome.state, Option.some.injEq] at h; rw [← h])
    | dsimp only
    | split)

theorem noenter_mkdir_p_as_loop (o : Env) (tmp : List Char) (u g : Int) (fuel : Nat) :
    ∀ i, NoEnter (mkdir_p_as_loop o tmp u g fuel i) := by
  induction fuel with
  | zero => intro i; unfold mkdir_p_as_loop; exact noenter_mkdir_as _ _ _ _
  | succ n ih =>
    intro i
    unfold mkdir_p_as_loop
    repeat' (first
      | with_reducible (first
          | refine noenter_bind ?_ (fun _ => ?_)
          | refine noenter_ite ?_ ?_
          | refine noenter_c_if _ ?_
          | exact ih _
          | exact noenter_mkdir_as _ _ _ _
          | exact noenter_sys_dup _ _
          | exact noenter_sys_pipe _ _
          | exact noenter_sys_chdir _ _
          | exact noenter_sys_dup2 _ _
          | exact noenter_sys_setsid _
          | exact noenter_sys_tiocsctty _ _
          | exact noenter_sys_fork _
          | exact noenter_sys_execvpe _ _ _
          | exact noenter_sys_openpty _ _
          | exact noenter_sys_accept _ _
          | exact noenter_un_recv_fds _ _
          | exact noenter_un_send_fds _ _ _
          | exact noenter_sys_open_ns _
          | exact noenter_sys_setns _ _
          | exact noenter_sys_mkdir _ _
          | exact noenter_sys_chown _ _ _ _
          | exact noenter_sys_mount _ _ _
          | exact noenter_sys_close _
          | exact noenter_sys_write _ _
          | exact noenter_fcntl_mix_cloexec _
          | exact noenter_sys_exit _
          | exact noenter_sys_abort
          | exact noenter_c_assert _
          | exact noenter_get_w
          | exact noenter_remove_step _
          | exact noenter_pure _)
      | (refine noenter_same _ ?_; intro s s' h; simp only [Outcome.state, Option.some.injEq] at h; rw [← h])
      | dsimp only
      | split)

theorem noenter_mkdir_p_as (o : Env) (dir : String) (u g : Int) :
    NoEnter (mkdir_p_as o dir u g) := by
  unfold mkdir_p_as
  dsimp only
  split_ifs
  · intro s s' h; simp [Outcome.state] at h
  · exact noenter_mkdir_p_as_loop _ _ _ _ _ _
  · exact noenter_mkdir_p_as_loop _ _ _ _ _ _

/-! ## Descriptor numbers given by the kernel -/

theorem lowest_free_spec (l : List Int) :
    ∃ n : Nat, lowest_free l = (n : Int) ∧ (n : Int) ∉ l := by
  unfold lowest_free
  cases h : (List.range (l.length + 1)).find? (fun n : Nat => decide ((n : Int) ∉ l)) with
  | some n =>
    refine ⟨n, rfl, ?_⟩
    have := List.find?_some h
    simpa using this
  | none =>
    exfalso
    rw [List.find?_eq_none] at h
    have hall : ∀ n ∈ List.range (l.length + 1), (n : Int) ∈ l := by
      intro n hn
      have := h n hn
      simpa using this
    have hsub : (List.range (l.length + 1)).map (fun n : Nat => (n : Int)) ⊆ l := by
      intro x hx
      obtain ⟨n, hn, rfl⟩ := List.mem_map.1 hx
      exact hall n hn
    have hnd : ((List.range (l.length + 1)).map (fun n : Nat => (n : Int))).Nodup :=
      (List.nodup_range _).map (fun a b hab => by exact_mod_cast hab)
    have hle := (hnd.subperm hsub).length_le
    simp at hle

theorem lowest_free_not_mem (l : List Int) : lowest_free l ∉ l := by
  obtain ⟨n, h1, h2⟩ := lowest_free_spec l
  rw [h1]; exact h2

theorem lowest_free_nonneg (l : List Int) : 0 ≤ lowest_free l := by
  obtain ⟨n, h1, _⟩ := lowest_free_spec l
  rw [h1]; exact Int.ofNat_nonneg n

theorem string_length_ne_zero (p : String) : p.length ≠ 0 ↔ p ≠ "" := by
  cases p with
  | mk l =>
    cases l with
    | nil => simp [String.length]
    | cons a t =>
      simp only [String.length, List.length_cons, ne_eq, Nat.add_one_ne_zero, not_false_eq_true,
        true_iff]
      intro h
      exact absurd (congrArg String.data h) (by simp)

/-! ## The request dispatcher -/

theorem enters_once {α : Type} (h : Handler) {m : Proc α} (hm : NoEnter m) :
    ∀ s s', ((emit (Sys.enter h) >>= fun _ => m) s).state = some s' →
      ∃ t, s'.trace = s.trace ++ t ∧ entered t = [h] := by
  intro s s' hs
  rw [bind_ret _ _ s { s with trace := s.trace ++ [Sys.enter h] } () rfl] at hs
  obtain ⟨t, h1, h2⟩ := hm _ _ hs
  refine ⟨Sys.enter h :: t, ?_, ?_⟩
  · rw [h1]; simp
  · simp [entered, h2]

theorem enters_interactive (o : Env) (fd : Int) (req : msg_request_t) :
    ∀ s s', (child_handle_interactive o fd req s).state = some s' →
      ∃ t, s'.trace = s.trace ++ t ∧ entered t = [Handler.interactive] := by
  unfold child_handle_interactive
  refine enters_once _ ?_
  repeat' (first
    | with_reducible (first
        | refine noenter_bind ?_ (fun _ => ?_)
        | refine noenter_ite ?_ ?_
        | refine noenter_c_if _ ?_
        | exact noenter_open_pipe _ _ _
        | exact noenter_child_fork _ _ _ _ _
        | exact noenter_child_pid_to_fd_add _ _ _
        | exact noenter_handler_err _ _
        | exact noenter_mkdir_p_as _ _ _ _
        | exact noenter_sys_dup _ _
        | exact noenter_sys_pipe _ _
        | exact noenter_sys_chdir _ _
        | exact noenter_sys_dup2 _ _
        | exact noenter_sys_setsid _
        | exact noenter_sys_tiocsctty _ _
        | exact noenter_sys_fork _
        | exact noenter_sys_execvpe _ _ _
        | exact noenter_sys_openpty _ _
        | exact noenter_sys_accept _ _
        | exact noenter_un_recv_fds _ _
        | exact noenter_un_send_fds _ _ _
        | exact noenter_sys_open_ns _
        | exact noenter_sys_setns _ _
        | exact noenter_sys_mkdir _ _
        | exact noenter_sys_chown _ _ _ _
        | exact noenter_sys_mount _ _ _
        | exact noenter_sys_close _
        | exact noenter_sys_write _ _
        | exact noenter_fcntl_mix_cloexec _
        | exact noenter_sys_exit _
        | exact noenter_sys_abort
        | exact noenter_c_assert _
        | exact noenter_get_w
        | exact noenter_remove_step _
        | exact noenter_pure _)
    | (refine noenter_same _ ?_; intro s s' h; simp only [Outcome.state, Option.some.injEq] at h; rw [← h])
    | dsimp only
    | split)

theorem enters_noninteractive (o : Env) (fd : Int) (req : msg_request_t) :
    ∀ s s', (child_handle_noninteractive o fd req s).state = some s' →
      ∃ t, s'.trace = s.trace ++ t ∧ entered t = [Handler.noninteractive] := by
  unfold child_handle_noninteractive
  refine enters_once _ ?_
  repeat' (first
    | with_reducible (first
        | refine noenter_bind ?_ (fun _ => ?_)
        | refine noenter_ite ?_ ?_
        | refine noenter_c_if _ ?_
        | exact noenter_open_pipe _ _ _
        | exact noenter_child_fork _ _ _ _ _
        | exact noenter_child_pid_to_fd_add _ _ _
        | exact noenter_handler_err _ _
        | exact noenter_mkdir_p_as _ _ _ _
        | exact noenter_sys_dup _ _
        | exact noenter_sys_pipe _ _
        | exact noenter_sys_chdir _ _
        | exact noenter_sys_dup2 _ _
        | exact noenter_sys_setsid _
        | exact noenter_sys_tiocsctty _ _
        | exact noenter_sys_fork _
        | exact noenter_sys_execvpe _ _ _
        | exact noenter_sys_openpty _ _
        | exact noenter_sys_accept _ _
        | exact noenter_un_recv_fds _ _
        | exact noenter_un_send_fds _ _ _
        | exact noenter_sys_open_ns _
        | exact noenter_sys_setns _ _
        | exact noenter_sys_mkdir _ _
        | exact noenter_sys_chown _ _ _ _
        | exact noenter_sys_mount _ _ _
        | exact noenter_sys_close _
        | exact noenter_sys_write _ _
        | exact noenter_fcntl_mix_cloexec _
        | exact noenter_sys_exit _
        | exact noenter_sys_abort
        | exact noenter_c_assert _
        | exact noenter_get_w
        | exact noenter_remove_step _
        | exact noenter_pure _)
    | (refine noenter_same _ ?_; intro s s' h; simp only [Outcome.state, Option.some.injEq] at h; rw [← h])
    | dsimp only
    | split)

theorem enters_bind_mount (o : Env) (fd : Int) (req : msg_request_t) :
    ∀ s s', (child_handle_bind_mount o fd req s).state = some s' →
      ∃ t, s'.trace = s.trace ++ t ∧ entered t = [Handler.bind_mount] := by
  unfold child_handle_bind_mount
  refine enters_once _ ?_
  repeat' (first
    | with_reducible (first
        | refine noenter_bind ?_ (fun _ => ?_)
        | refine noenter_ite ?_ ?_
        | refine noenter_c_if _ ?_
        | exact noenter_open_pipe _ _ _
        | exact noenter_child_fork _ _ _ _ _
        | exact noenter_child_pid_to_fd_add _ _ _
        | exact noenter_handler_err _ _
        | exact noenter_mkdir_p_as _ _ _ _
        | exact noenter_sys_dup _ _
        | exact noenter_sys_pipe _ _
        | exact noenter_sys_chdir _ _
        | exact noenter_sys_dup2 _ _
        | exact noenter_sys_setsid _
        | exact noenter_sys_tiocsctty _ _
        | exact noenter_sys_fork _
        | exact noenter_sys_execvpe _ _ _
        | exact noenter_sys_openpty _ _
        | exact noenter_sys_accept _ _
        | exact noenter_un_recv_fds _ _
        | exact noenter_un_send_fds _ _ _
        | exact noenter_sys_open_ns _
        | exact noenter_sys_setns _ _
        | exact noenter_sys_mkdir _ _
        | exact noenter_sys_chown _ _ _ _
        | exact noenter_sys_mount _ _ _
        | exact noenter_sys_close _
        | exact noenter_sys_write _ _
        | exact noenter_fcntl_mix_cloexec _
        | exact noenter_sys_exit _
        | exact noenter_sys_abort
        | exact noenter_c_assert _
        | exact noenter_get_w
        | exact noenter_remove_step _
        | exact noenter_pure _)
    | (refine noenter_same _ ?_; intro s s' h; simp only [Outcome.state, Option.some.injEq] at h; rw [← h])
    | dsimp only
    | split)

theorem child_accept_received (o : Env) (s : World)
    (hacc : o.accept_ok = true) (hrv : o.recv_rv = o.sizeof_req) (hpos : 0 < o.recv_rv) :
    child_accept o s =
      (if o.recv_req.bind_mount_source.path.length ≠ 0 ∧
          o.recv_req.bind_mount_destination.path.length ≠ 0 then
        child_handle_bind_mount o (lowest_free s.open_fds) o.recv_req
      else if o.recv_req.tty ≠ 0 then
        child_handle_interactive o (lowest_free s.open_fds) o.recv_req
      else
        child_handle_noninteractive o (lowest_free s.open_fds) o.recv_req)
      { s with open_fds := lowest_free s.open_fds :: s.open_fds,
               trace := s.trace ++ [Sys.accept (lowest_free s.open_fds),
                 Sys.cloexec (lowest_free s.open_fds),
                 Sys.recv_fds (lowest_free s.open_fds) o.recv_rv] } := by
  have h0 := lowest_free_nonneg s.open_fds
  have h1 : ¬ lowest_free s.open_fds = -1 := by omega
  have h2 : ¬ o.recv_rv < 0 := by omega
  have h3 : ¬ o.recv_rv = 0 := by omega
  have h4 : ¬ o.sizeof_req < 0 := by omega
  have h5 : ¬ o.sizeof_req = 0 := by omega
  unfold child_accept
  simp only [bind_apply, Proc.bind, get_w, sys_accept, hacc, if_true, c_if, h1, if_false,
    pure_apply, fcntl_mix_cloexec, emit, un_recv_fds, h2, h3, h4, h5, c_assert, hrv, decide_True,
    List.append_assoc, List.singleton_append, List.cons_append, List.nil_append]

/-- C3: for every fully received request record, `child_accept` runs the
bind-mount handler when both `bind_mount_source.path` and
`bind_mount_destination.path` are non-empty, whatever `bind_mount_name` and
`tty` are; otherwise the interactive handler when `tty` is non-zero and the
non-interactive handler when `tty` is zero. In each case exactly one handler
is entered during the call, so the bind-mount handler is entered if and only
if both paths are non-empty. -/
theorem child_accept_dispatch (o : Env) (s : World)
    (hacc : o.accept_ok = true) (hrv : o.recv_rv = o.sizeof_req) (hpos : 0 < o.recv_rv) :
    ((o.recv_req.bind_mount_source.path ≠ "" ∧ o.recv_req.bind_mount_destination.path ≠ "") →
      child_accept o s =
        child_handle_bind_mount o (lowest_free s.open_fds) o.recv_req
          { s with open_fds := lowest_free s.open_fds :: s.open_fds,
                   trace := s.trace ++ [Sys.accept (lowest_free s.open_fds),
                     Sys.cloexec (lowest_free s.open_fds),
                     Sys.recv_fds (lowest_free s.open_fds) o.recv_rv] } ∧
      ∀ s', (child_accept o s).state = some s' →
        ∃ t, s'.trace = s.trace ++ t ∧ entered t = [Handler.bind_mount]) ∧
    (¬ (o.recv_req.bind_mount_source.path ≠ "" ∧ o.recv_req.bind_mount_destination.path ≠ "") →
      o.recv_req.tty ≠ 0 →
      child_accept o s =
        child_handle_interactive o (lowest_free s.open_fds) o.recv_req
          { s with open_fds := lowest_free s.open_fds :: s.open_fds,
                   trace := s.trace ++ [Sys.accept (lowest_free s.open_fds),
                     Sys.cloexec (lowest_free s.open_fds),
                     Sys.recv_fds (lowest_free s.open_fds) o.recv_rv] } ∧
      ∀ s', (child_accept o s).state = some s' →
        ∃ t, s'.trace = s.trace ++ t ∧ entered t = [Handler.interactive]) ∧
    (¬ (o.recv_req.bind_mount_source.path ≠ "" ∧ o.recv_req.bind_mount_destination.path ≠ "") →
      o.recv_req.tty = 0 →
      child_accept o s =
        child_handle_noninteractive o (lowest_free s.open_fds) o.recv_req
          { s with open_fds := lowest_free s.open_fds :: s.open_fds,
                   trace := s.trace ++ [Sys.accept (lowest_free s.open_fds),
                     Sys.cloexec (lowest_free s.open_fds),
                     Sys.recv_fds (lowest_free s.open_fds) o.recv_rv] } ∧
      ∀ s', (child_accept o s).state = some s' →
        ∃ t, s'.trace = s.trace ++ t ∧ entered t = [Handler.noninteractive]) := by
  have key := child_accept_received o s hacc hrv hpos
  have pre : ∀ (h : Handler) (m : Proc Int),
      (∀ s1 s', (m s1).state = some s' → ∃ t, s'.trace = s1.trace ++ t ∧ entered t = [h]) →
      ∀ s', (m { s with open_fds := lowest_free s.open_fds :: s.open_fds,
                        trace := s.trace ++ [Sys.accept (lowest_free s.open_fds),
                          Sys.cloexec (lowest_free s.open_fds),
                          Sys.recv_fds (lowest_free s.open_fds) o.recv_rv] }).state = some s' →
        ∃ t, s'.trace = s.trace ++ t ∧ entered t = [h] := by
    intro h m hm s' hs'
    obtain ⟨t, h1, h2⟩ := hm _ _ hs'
    refine ⟨[Sys.accept (lowest_free s.open_fds), Sys.cloexec (lowest_free s.open_fds),
      Sys.recv_fds (lowest_free s.open_fds) o.recv_rv] ++ t, by rw [h1, List.append_assoc], ?_⟩
    rw [entered_append, h2]
    rfl
  refine ⟨?_, ?_, ?_⟩
  · intro hb
    have hb' : o.recv_req.bind_mount_source.path.length ≠ 0 ∧
        o.recv_req.bind_mount_destination.path.length ≠ 0 :=
      ⟨(string_length_ne_zero _).2 hb.1, (string_length_ne_zero _).2 hb.2⟩
    rw [if_pos hb'] at key
    refine ⟨key, ?_⟩
    rw [key]
    exact pre _ _ (enters_bind_mount o _ _)
  · intro hb ht
    have hb' : ¬ (o.recv_req.bind_mount_source.path.length ≠ 0 ∧
        o.recv_req.bind_mount_destination.path.length ≠ 0) := by
      rw [string_length_ne_zero, string_length_ne_zero]; exact hb
    rw [if_neg hb', if_pos ht] at key
    refine ⟨key, ?_⟩
    rw [key]
    exact pre _ _ (enters_interactive o _ _)
  · intro hb ht
    have hb' : ¬ (o.recv_req.bind_mount_source.path.length ≠ 0 ∧
        o.recv_req.bind_mount_destination.path.length ≠ 0) := by
      rw [string_length_ne_zero, string_length_ne_zero]; exact hb
    have ht' : ¬ o.recv_req.tty ≠ 0 := by simpa using ht
    rw [if_neg hb', if_neg ht'] at key
    refine ⟨key, ?_⟩
    rw [key]
    exact pre _ _ (enters_noninteractive o _ _)

/-- A bind-mount request that also sets `tty`. -/
theorem child_accept_dispatch_witness :
    (child_accept { recv_req := ⟨1, {}, {}, {}, {}, "x", ⟨"/data/x"⟩, ⟨"/mnt/x"⟩⟩ }
        { open_fds := [0] }
      = child_handle_bind_mount { recv_req := ⟨1, {}, {}, {}, {}, "x", ⟨"/data/x"⟩, ⟨"/mnt/x"⟩⟩ }
          1 ⟨1, {}, {}, {}, {}, "x", ⟨"/data/x"⟩, ⟨"/mnt/x"⟩⟩
          { open_fds := [1, 0], trace := [Sys.accept 1, Sys.cloexec 1, Sys.recv_fds 1 1] }) ∧
    (child_accept { recv_req := ⟨1, {}, {}, {}, {}, "x", ⟨"/data/x"⟩, ⟨""⟩⟩ } { open_fds := [0] }
      = child_handle_interactive { recv_req := ⟨1, {}, {}, {}, {}, "x", ⟨"/data/x"⟩, ⟨""⟩⟩ }
          1 ⟨1, {}, {}, {}, {}, "x", ⟨"/data/x"⟩, ⟨""⟩⟩
          { open_fds := [1, 0], trace := [Sys.accept 1, Sys.cloexec 1, Sys.recv_fds 1 1] }) ∧
    (child_accept { recv_req := ⟨0, {}, {}, {}, {}, "x", ⟨""⟩, ⟨"/mnt/x"⟩⟩ } { open_fds := [0] }
      = child_handle_noninteractive { recv_req := ⟨0, {}, {}, {}, {}, "x", ⟨""⟩, ⟨"/mnt/x"⟩⟩ }
          1 ⟨0, {}, {}, {}, {}, "x", ⟨""⟩, ⟨"/mnt/x"⟩⟩
          { open_fds := [1, 0], trace := [Sys.accept 1, Sys.cloexec 1, Sys.recv_fds 1 1] }) :=
  ⟨((child_accept_dispatch { recv_req := ⟨1, {}, {}, {}, {}, "x", ⟨"/data/x"⟩, ⟨"/mnt/x"⟩⟩ }
      { open_fds := [0] } rfl rfl (by decide)).1 (by decide)).1,
   ((child_accept_dispatch { recv_req := ⟨1, {}, {}, {}, {}, "x", ⟨"/data/x"⟩, ⟨""⟩⟩ }
      { open_fds := [0] } rfl rfl (by decide)).2.1 (by decide) (by decide)).1,
   ((child_accept_dispatch { recv_req := ⟨0, {}, {}, {}, {}, "x", ⟨""⟩, ⟨"/mnt/x"⟩⟩ }
      { open_fds := [0] } rfl rfl (by decide)).2.2 (by decide) (by decide)).1⟩

/-! ## The PID map: insertion and the one-entry-per-PID invariant -/

theorem realloc_set_length {α : Type} [Inhabited α] (a : List α) (x : α) :
    (realloc a (a.length + 1)).set a.length x = a ++ [x] := by
  have h : realloc a (a.length + 1) = a ++ [default] := by
    simp [realloc, List.take_of_length_le]
  rw [h]
  simp

theorem add_returns (ok : Bool) (pid fd : Int) (s s' : World)
    (h : child_pid_to_fd_add ok pid fd s = Outcome.ret () s') :
    s' = { s with w := { s.w with pid_to_fd :=
                          s.w.pid_to_fd ++ [{ pid := pid, fd := lowest_free s.open_fds }] },
                  open_fds := lowest_free s.open_fds :: s.open_fds,
                  trace := s.trace ++ [Sys.dup fd (lowest_free s.open_fds)] } ∧
    ok = true ∧ fd ∈ s.open_fds := by
  have hn : ¬ lowest_free s.open_fds = -1 := by
    have := lowest_free_nonneg s.open_fds; omega
  unfold child_pid_to_fd_add at h
  by_cases hc : (ok && decide (fd ∈ s.open_fds)) = true
  · simp only [bind_apply, Proc.bind, sys_dup, hc, if_true, c_if, hn, if_false, pure_apply,
      wshd_t.pid_to_fd_len, realloc_set_length, Outcome.ret.injEq, true_and] at h
    simp only [Bool.and_eq_true, decide_eq_true_eq] at hc
    exact ⟨h.symm, hc.1, hc.2⟩
  · simp [bind_apply, Proc.bind, sys_dup, hc, c_if, sys_abort] at h

theorem add_ok (pid fd : Int) (s : World) (hfd : fd ∈ s.open_fds) :
    child_pid_to_fd_add true pid fd s =
      Outcome.ret ()
        { s with w := { s.w with pid_to_fd :=
                          s.w.pid_to_fd ++ [{ pid := pid, fd := lowest_free s.open_fds }] },
                 open_fds := lowest_free s.open_fds :: s.open_fds,
                 trace := s.trace ++ [Sys.dup fd (lowest_free s.open_fds)] } := by
  have hn : ¬ lowest_free s.open_fds = -1 := by
    have := lowest_free_nonneg s.open_fds; omega
  unfold child_pid_to_fd_add
  simp only [bind_apply, Proc.bind, sys_dup, hfd, decide_True, Bool.and_self, if_true, c_if, hn,
    if_false, pure_apply, wshd_t.pid_to_fd_len, realloc_set_length]

theorem map_eraseP_pid (m : List pid_fd) (pid : Int) :
    (m.eraseP (fun e => decide (e.pid = pid))).map pid_fd.pid = (m.map pid_fd.pid).erase pid := by
  induction m with
  | nil => rfl
  | cons e t ih =>
    by_cases h : e.pid = pid
    · simp [List.eraseP_cons, h]
    · simp [List.eraseP_cons, h, ih, List.erase_cons_tail]

theorem remove_map_pids (w : wshd_t) (pid : Int) :
    map_pids (child_pid_to_fd_remove w pid).2 = (map_pids w).erase pid := by
  rw [remove_eq_reference]
  simp only [map_pids, remove_reference]
  cases h : w.pid_to_fd.find? (fun e => decide (e.pid = pid)) with
  | none =>
    simp only
    rw [List.find?_eq_none] at h
    rw [List.erase_of_not_mem]
    intro hmem
    obtain ⟨e, he, hp⟩ := List.mem_map.1 hmem
    have := h e he
    simp [hp] at this
  | some e =>
    simp only
    exact map_eraseP_pid _ _

theorem run_ops_nodup (ok : Bool) (ops : List map_op) :
    ∀ (s s' : World), (map_pids s.w).Nodup → adds_fresh ops (map_pids s.w) = true →
      run_ops ok ops s = Outcome.ret () s' → (map_pids s'.w).Nodup := by
  induction ops with
  | nil =>
    intro s s' hnd _ hrun
    simp only [run_ops, pure_apply, Outcome.ret.injEq, true_and] at hrun
    rw [← hrun]; exact hnd
  | cons op rest ih =>
    intro s s' hnd hfresh hrun
    cases op with
    | add pid fd =>
      simp only [adds_fresh, Bool.and_eq_true, decide_eq_true_eq] at hfresh
      rw [run_ops, bind_apply] at hrun
      unfold Proc.bind at hrun
      cases hadd : child_pid_to_fd_add ok pid fd s with
      | ret a s1 =>
        rw [hadd] at hrun
        obtain ⟨hs1, -, -⟩ := add_returns ok pid fd s s1 hadd
        have hp : map_pids s1.w = map_pids s.w ++ [pid] := by
          rw [hs1]; simp [map_pids]
        apply ih s1 s' _ _ hrun
        · rw [hp]
          exact List.Nodup.append hnd (List.nodup_singleton pid)
            (by
              intro x hx hx'
              rw [List.mem_singleton] at hx'
              rw [hx'] at hx
              exact hfresh.1 hx)
        · rw [hp]; exact hfresh.2
      | exit c s1 => rw [hadd] at hrun; simp at hrun
      | abort s1 => rw [hadd] at hrun; simp at hrun
      | exec a e s1 => rw [hadd] at hrun; simp at hrun
      | undefined => rw [hadd] at hrun; simp at hrun
    | remove pid =>
      simp only [adds_fresh] at hfresh
      rw [run_ops, bind_ret _ _ s
        { s with w := (child_pid_to_fd_remove s.w pid).2 } (child_pid_to_fd_remove s.w pid).1 rfl]
        at hrun
      apply ih _ s' _ _ hrun
      · rw [remove_map_pids]; exact hnd.erase pid
      · rw [remove_map_pids]; exact hfresh

/-- C5, counterexample: two calls of `child_pid_to_fd_add` for PID 5, starting
from the empty map, leave two entries for PID 5 in the map. -/
theorem map_two_entries_one_pid :
    run_ops true [map_op.add 5 3, map_op.add 5 3] { open_fds := [3] }
      = Outcome.ret () { w := { pid_to_fd := [⟨5, 0⟩, ⟨5, 1⟩] }, open_fds := [1, 0, 3],
                         trace := [Sys.dup 3 0, Sys.dup 3 1] } ∧
    ¬ (map_pids { pid_to_fd := [⟨5, 0⟩, ⟨5, 1⟩] }).Nodup := by
  decide

/-- C5, amended: for every sequence of `child_pid_to_fd_add` and
`child_pid_to_fd_remove` calls starting from the empty map in which every add
is for a PID that has no entry in the map at that time, the PID map contains
at most one entry per PID. -/
theorem map_one_entry_per_pid (ok : Bool) (ops : List map_op) (s s' : World)
    (hempty : s.w.pid_to_fd = []) (hfresh : adds_fresh ops [] = true)
    (hrun : run_ops ok ops s = Outcome.ret () s') : (map_pids s'.w).Nodup := by
  have h0 : map_pids s.w = [] := by simp [map_pids, hempty]
  exact run_ops_nodup ok ops s s' (by rw [h0]; exact List.nodup_nil) (by rw [h0]; exact hfresh) hrun

theorem map_one_entry_per_pid_witness :
    (map_pids ({ w := { pid_to_fd := [⟨6, 1⟩, ⟨5, 2⟩] }, open_fds := [2, 1, 0, 3],
                 trace := [Sys.dup 3 0, Sys.dup 3 1, Sys.dup 3 2] } : World).w).Nodup :=
  map_one_entry_per_pid true
    [map_op.add 5 3, map_op.add 6 3, map_op.remove 5, map_op.add 5 3, map_op.remove 7]
    { open_fds := [3] }
    { w := { pid_to_fd := [⟨6, 1⟩, ⟨5, 2⟩] }, open_fds := [2, 1, 0, 3],
      trace := [Sys.dup 3 0, Sys.dup 3 1, Sys.dup 3 2] }
    rfl (by decide) (by decide!)

/-! ## The environment of a spawned process -/

theorem env_scan_c_array (E : List String) : ∀ n, env_scan (c_array E) n = n + E.length + 1 := by
  induction E with
  | nil => intro n; simp [c_array, env_scan]
  | cons e t ih =>
    intro n
    have := ih (n + 1)
    have e1 : c_array (e :: t) = some e :: c_array t := rfl
    rw [e1, env_scan, this, List.length_cons]; omega

theorem snprintf_fits (size : Nat) (str : String) (h : str.length < size) :
    (snprintf size str).2 = str := by
  simp only [snprintf]
  rw [List.take_of_length_le (by
    have : str.data.length = str.length := rfl
    omega)]

theorem env_buf (key value : String) :
    (snprintf (key.length + 1 + value.length + 1) (key ++ "=" ++ value)).2
      = key ++ "=" ++ value := by
  apply snprintf_fits
  simp only [String.length_append]
  have : "=".length = 1 := by decide
  omega

theorem env__add_null (key value : String) :
    env__add none key value = c_array [key ++ "=" ++ value] := by
  simp only [env__add, env_buf]
  rfl

theorem env__add_array (E : List String) (key value : String) :
    env__add (some (c_array E)) key value = c_array (E ++ [key ++ "=" ++ value]) := by
  simp only [env__add, env_buf, env_scan_c_array, Option.getD_some]
  have h1 : realloc (c_array E) (0 + E.length + 1 + 1) = E.map some ++ [none, none] := by
    simp only [realloc, c_array]
    rw [List.take_of_length_le (by simp)]
    simp only [List.length_append, List.length_map, List.length_singleton]
    have : 0 + E.length + 1 + 1 - (E.length + 1) = 1 := by omega
    rw [this]
    simp only [List.replicate, List.append_assoc, List.singleton_append]
    rfl
  rw [h1]
  have h2 : 0 + E.length + 1 - 1 = (E.map some).length := by simp
  rw [h2, List.set_append_right _ _ (le_refl _)]
  simp only [Nat.sub_self, List.set_cons_zero]
  have h3 : 0 + E.length + 1 = (E.map some).length + 1 := by simp
  rw [h3, List.set_append_right _ _ (by omega)]
  simp [c_array]

/-- C8: for every account record and every environment overlay `E` (absent,
that is `NULL`, when empty, or given as a `NULL`-terminated array), when the
chdir to the home directory succeeds `child_setup_environment` returns the
array holding the entries of `E` unchanged and in order, followed by
`HOME=<home>`, `USER=<name>` and `PATH=<p>`, where `p` is
`/usr/local/sbin:/usr/local/bin:/usr/sbin:/usr/bin:/sbin:/bin` when the uid is
`0` and `/usr/local/bin:/usr/bin:/bin` otherwise; it has `|E| + 3` entries. -/
theorem child_setup_environment_vector (o : Env) (pw : passwd) (E : List String)
    (extra_env_vars : Option strv) (s : World)
    (hE : (extra_env_vars = none ∧ E = []) ∨ extra_env_vars = some (c_array E))
    (hchdir : o.chdir_ok pw.pw_dir = true) :
    child_setup_environment o pw extra_env_vars s =
      Outcome.ret
        (some (c_array (E ++ ["HOME=" ++ pw.pw_dir, "USER=" ++ pw.pw_name,
          "PATH=" ++ (if pw.pw_uid = 0
            then "/usr/local/sbin:/usr/local/bin:/usr/sbin:/usr/bin:/sbin:/bin"
            else "/usr/local/bin:/usr/bin:/bin")])))
        { s with cwd := pw.pw_dir, trace := s.trace ++ [Sys.chdir pw.pw_dir 0] } ∧
    (E ++ ["HOME=" ++ pw.pw_dir, "USER=" ++ pw.pw_name,
          "PATH=" ++ (if pw.pw_uid = 0
            then "/usr/local/sbin:/usr/local/bin:/usr/sbin:/usr/bin:/sbin:/bin"
            else "/usr/local/bin:/usr/bin:/bin")]).length = E.length + 3 := by
  refine ⟨?_, by simp⟩
  have hH : ∀ x : String, "HOME" ++ "=" ++ x = "HOME=" ++ x := by
    intro x; rw [String.append_assoc]; rfl
  have hU : ∀ x : String, "USER" ++ "=" ++ x = "USER=" ++ x := by
    intro x; rw [String.append_assoc]; rfl
  have hP : ∀ x : String, "PATH" ++ "=" ++ x = "PATH=" ++ x := by
    intro x; rw [String.append_assoc]; rfl
  have hfirst : env__add extra_env_vars "HOME" pw.pw_dir = c_array (E ++ ["HOME=" ++ pw.pw_dir]) := by
    rcases hE with ⟨h1, h2⟩ | h
    · rw [h1, h2, env__add_null, hH]; rfl
    · rw [h, env__add_array, hH]
  unfold child_setup_environment
  simp only [bind_apply, Proc.bind, sys_chdir, hchdir, if_true, pure_apply, hfirst,
    env__add_array, hU, hP, List.append_assoc, List.singleton_append]
  by_cases hu : pw.pw_uid = 0
  · simp [hu, pure_apply]
  · simp [hu, pure_apply]

theorem child_setup_environment_vector_witness :
    (child_setup_environment {} { pw_name := "vcap", pw_dir := "/home/vcap", pw_uid := 1000 }
        (some [some "A=1", some "B=2", none]) {}
      = Outcome.ret (some [some "A=1", some "B=2", some "HOME=/home/vcap", some "USER=vcap",
                           some "PATH=/usr/local/bin:/usr/bin:/bin", none])
          { cwd := "/home/vcap", trace := [Sys.chdir "/home/vcap" 0] }) ∧
    (child_setup_environment {} {} none {}
      = Outcome.ret (some [some "HOME=/root", some "USER=root",
          some "PATH=/usr/local/sbin:/usr/local/bin:/usr/sbin:/usr/bin:/sbin:/bin", none])
          { cwd := "/root", trace := [Sys.chdir "/root" 0] }) :=
  ⟨(child_setup_environment_vector {}
      { pw_name := "vcap", pw_dir := "/home/vcap", pw_uid := 1000 } ["A=1", "B=2"]
      (some [some "A=1", some "B=2", none]) {} (Or.inr rfl) rfl).1,
   (child_setup_environment_vector {} {} [] none {} (Or.inl ⟨rfl, rfl⟩) rfl).1⟩

/-! ## The forked child -/

theorem dup2_open (a b : Int) (s : World) (h : a ∈ s.open_fds) :
    sys_dup2 a b s = Outcome.ret b
      { s with open_fds := fd_insert b s.open_fds, trace := s.trace ++ [Sys.dup2 a b] } := by
  simp [sys_dup2, h]

theorem mem_fd_insert (x b : Int) (l : List Int) (h : x ∈ l) : x ∈ fd_insert b l := by
  unfold fd_insert
  split_ifs
  · exact h
  · exact List.mem_cons_of_mem _ h

theorem child_fork_child_eq (o : Env) (req : msg_request_t) (a b c : Int) (s : World)
    (ha : a ∈ s.open_fds) (hb : b ∈ s.open_fds) (hc : c ∈ s.open_fds)
    (hsid : o.setsid_rv ≠ -1) :
    child_fork_child o req a b c s =
      child_fork_exec o req a
        { s with open_fds := fd_insert 2 (fd_insert 1 (fd_insert 0 s.open_fds)),
                 trace := s.trace ++
                   [Sys.dup2 a 0, Sys.dup2 b 1, Sys.dup2 c 2, Sys.setsid] } := by
  have hb1 := mem_fd_insert b 0 _ hb
  have hc1 := mem_fd_insert c 1 _ (mem_fd_insert c 0 _ hc)
  unfold child_fork_child
  rw [bind_ret _ _ _ _ _ (dup2_open a 0 s ha)]
  rw [bind_ret _ _ _ _ () (by simp only [c_assert]; rfl)]
  rw [bind_ret _ _ _ _ _ (dup2_open b 1 _ hb1)]
  rw [bind_ret _ _ _ _ () (by simp only [c_assert]; rfl)]
  rw [bind_ret _ _ _ _ _ (dup2_open c 2 _ hc1)]
  rw [bind_ret _ _ _ _ () (by simp only [c_assert]; rfl)]
  rw [bind_ret _ _ _ _ o.setsid_rv (by simp only [sys_setsid]; rfl)]
  rw [bind_ret _ _ _ _ ()
    (by simp only [c_assert, hsid, ne_eq, not_false_eq_true, decide_True, if_true]; rfl)]
  simp only [List.append_assoc, List.singleton_append, List.cons_append, List.nil_append]

theorem child_fork_in_child (o : Env) (req : msg_request_t) (a b c : Int) (s : World)
    (hfork : o.fork_rv = 0) :
    child_fork o req a b c s =
      child_fork_child o req a b c { s with trace := s.trace ++ [Sys.fork 0] } := by
  unfold child_fork
  simp [bind_apply, Proc.bind, sys_fork, hfork, c_if, pure_apply]

theorem child_setup_environment_home_fails (o : Env) (pw : passwd) (x : Option strv)
    (s : World) (h : o.chdir_ok pw.pw_dir = false) :
    child_setup_environment o pw x s =
      Outcome.ret none { s with trace := s.trace ++ [Sys.chdir pw.pw_dir (-1)] } := by
  unfold child_setup_environment
  simp [bind_apply, Proc.bind, sys_chdir, h, pure_apply]

theorem child_setup_environment_home_ok (o : Env) (pw : passwd) (x : Option strv)
    (s : World) (h : o.chdir_ok pw.pw_dir = true) :
    ∃ e : strv, child_setup_environment o pw x s =
      Outcome.ret (some e)
        { s with cwd := pw.pw_dir, trace := s.trace ++ [Sys.chdir pw.pw_dir 0] } := by
  unfold child_setup_environment
  simp only [bind_apply, Proc.bind, sys_chdir, h, if_true, pure_apply]
  exact ⟨_, rfl⟩

/-- C6: in the forked child (`fork` returned `0`, the three descriptors are
open and `setsid`, the terminal `ioctl` and the argument and environment
exports succeed), a failure to resolve the user, to apply the resource limits,
to apply the identity, to change to the requested working directory or to
exec ends the child with `exit(255)`; a failure of the chdir to the account's
home directory ends it with an abort (failed `assert(envp != NULL)`), not with
`exit(255)`. -/
theorem child_fork_setup_failures (o : Env) (req : msg_request_t) (a b c : Int) (s : World)
    (hfork : o.fork_rv = 0)
    (ha : a ∈ s.open_fds) (hb : b ∈ s.open_fds) (hc : c ∈ s.open_fds)
    (hsid : o.setsid_rv ≠ -1) (htty : o.isatty a = true → o.ioctl_rv ≠ -1)
    (harg : req.arg.count ≠ 0 → (o.msg_array_export req.arg).isSome = true)
    (henv : req.env.count ≠ 0 → (o.msg_array_export req.env).isSome = true) :
    (o.getpwnam (if req.user.name.length = 0 then "root" else req.user.name) = none →
      (child_fork o req a b c s).ending = Ending.exited 255) ∧
    (∀ pw, o.getpwnam (if req.user.name.length = 0 then "root" else req.user.name) = some pw →
      (o.msg_rlimit_export_rv = -1 → (child_fork o req a b c s).ending = Ending.exited 255) ∧
      (o.msg_rlimit_export_rv ≠ -1 → o.msg_user_export_rv = -1 →
        (child_fork o req a b c s).ending = Ending.exited 255) ∧
      (o.msg_rlimit_export_rv ≠ -1 → o.msg_user_export_rv ≠ -1 →
        o.chdir_ok pw.pw_dir = false →
        (child_fork o req a b c s).ending = Ending.aborted) ∧
      (o.msg_rlimit_export_rv ≠ -1 → o.msg_user_export_rv ≠ -1 →
        o.chdir_ok pw.pw_dir = true → req.dir.path ≠ "" → o.chdir_ok req.dir.path = false →
        (child_fork o req a b c s).ending = Ending.exited 255) ∧
      (o.msg_rlimit_export_rv ≠ -1 → o.msg_user_export_rv ≠ -1 →
        o.chdir_ok pw.pw_dir = true → (req.dir.path ≠ "" → o.chdir_ok req.dir.path = true) →
        o.execvpe_ok = false →
        (child_fork o req a b c s).ending = Ending.exited 255)) := by
  rw [child_fork_in_child o req a b c s hfork,
    child_fork_child_eq o req a b c { s with trace := s.trace ++ [Sys.fork 0] } ha hb hc hsid]
  unfold child_fork_exec
  refine ⟨?_, ?_⟩
  · intro hpw
    simp only [hpw, sys_exit, Outcome.ending]
  · intro pw hpw
    simp only [hpw]
    have hd : req.dir.path.length ≠ 0 ↔ req.dir.path ≠ "" := string_length_ne_zero _
    refine ⟨?_, ?_, ?_, ?_, ?_⟩
    · intro h1
      by_cases ht : o.isatty a = true <;> by_cases hac : req.arg.count ≠ 0 <;>
        simp [bind_apply, Proc.bind, c_if, ht, htty, hac, harg, sys_tiocsctty, c_assert,
          pure_apply, h1, sys_exit, Outcome.ending]
    · intro h1 h2
      by_cases ht : o.isatty a = true <;> by_cases hac : req.arg.count ≠ 0 <;>
        simp [bind_apply, Proc.bind, c_if, ht, htty, hac, harg, sys_tiocsctty, c_assert,
          pure_apply, h1, h2, sys_exit, Outcome.ending]
    · intro h1 h2 h3
      by_cases ht : o.isatty a = true <;> by_cases hac : req.arg.count ≠ 0 <;>
        by_cases hec : req.env.count ≠ 0 <;>
        simp [bind_apply, Proc.bind, c_if, ht, htty, hac, harg, hec, henv, sys_tiocsctty,
          c_assert, pure_apply, h1, h2, h3, child_setup_environment_home_fails, Outcome.ending]
    · intro h1 h2 h3 h4 h5
      have h4' := hd.2 h4
      have hcse := fun x s => child_setup_environment_home_ok o pw x s h3
      by_cases ht : o.isatty a = true <;> by_cases hac : req.arg.count ≠ 0 <;>
        by_cases hec : req.env.count ≠ 0 <;>
        simp only [bind_apply, Proc.bind, c_if, ht, htty, hac, harg, hec, henv, sys_tiocsctty,
          c_assert, pure_apply, h1, h2, if_true, if_false, ne_eq, not_false_eq_true,
          decide_True, not_true_eq_false, decide_False, Bool.false_eq_true] <;>
        (obtain ⟨e, he⟩ := hcse _ _
         rw [he]
         simp [h4', h5, sys_chdir, sys_exit, bind_apply, Proc.bind, c_if, Outcome.ending])
    · intro h1 h2 h3 h4 h5
      have hcse := fun x s => child_setup_environment_home_ok o pw x s h3
      by_cases ht : o.isatty a = true <;> by_cases hac : req.arg.count ≠ 0 <;>
        by_cases hec : req.env.count ≠ 0 <;>
        simp only [bind_apply, Proc.bind, c_if, ht, htty, hac, harg, hec, henv, sys_tiocsctty,
          c_assert, pure_apply, h1, h2, if_true, if_false, ne_eq, not_false_eq_true,
          decide_True, not_true_eq_false, decide_False, Bool.false_eq_true] <;>
        (obtain ⟨e, he⟩ := hcse _ _
         rw [he]
         by_cases hdir : req.dir.path.length ≠ 0
         · have h4' := h4 (hd.1 hdir)
           simp [hdir, h4', h5, sys_chdir, sys_exit, bind_apply, Proc.bind, c_if, sys_execvpe,
             pure_apply, Outcome.ending]
         · simp [hdir, h5, sys_chdir, sys_exit, bind_apply, Proc.bind, c_if, sys_execvpe,
             pure_apply, Outcome.ending])

/-- A request for the default account whose home directory cannot be entered:
the forked child ends by the abort of a failed assertion. -/
theorem child_fork_setup_failures_witness :
    (child_fork { fork_rv := 0, chdir_ok := fun p => decide (p ≠ "/root") } {} 3 4 5
        { open_fds := [3, 4, 5] }).ending = Ending.aborted :=
  ((child_fork_setup_failures { fork_rv := 0, chdir_ok := fun p => decide (p ≠ "/root") } {}
      3 4 5 { open_fds := [3, 4, 5] } rfl (by decide) (by decide) (by decide) (by decide)
      (by decide) (by decide) (by decide)).2 {} rfl).2.2.1 (by decide) (by decide) (by decide)

/-! ## The spawn handlers -/

theorem open_pipe_ok (o : Env) (i : Nat) (p : Int × Int) (s : World)
    (h : o.pipe_ok i = true) :
    ∃ r w : Int, 0 ≤ r ∧ 0 ≤ w ∧ r ∉ s.open_fds ∧ w ∉ r :: s.open_fds ∧
      open_pipe o i p s = Outcome.ret (r, w)
        { s with open_fds := w :: r :: s.open_fds,
                 trace := s.trace ++ [Sys.pipe r w, Sys.cloexec r, Sys.cloexec w] } := by
  refine ⟨lowest_free s.open_fds, lowest_free (lowest_free s.open_fds :: s.open_fds),
    lowest_free_nonneg _, lowest_free_nonneg _, lowest_free_not_mem _, lowest_free_not_mem _, ?_⟩
  have h1 : ¬ (0 : Int) = -1 := by decide
  unfold open_pipe
  simp only [bind_apply, Proc.bind, sys_pipe, h, if_true, c_if, h1, if_false, pure_apply,
    fcntl_mix_cloexec, emit, List.append_assoc, List.singleton_append, List.cons_append,
    List.nil_append]

theorem open_pipe_fails (o : Env) (i : Nat) (p : Int × Int) (s : World)
    (h : o.pipe_ok i = false) :
    open_pipe o i p s = Outcome.abort { s with errno := EMFILE } := by
  unfold open_pipe
  simp [bind_apply, Proc.bind, sys_pipe, h, c_if, sys_abort]

theorem openpty_ok (p : Int × Int) (s : World) :
    ∃ m sl : Int, 0 ≤ m ∧ 0 ≤ sl ∧ m ∉ s.open_fds ∧ sl ∉ m :: s.open_fds ∧
      sys_openpty true p s = Outcome.ret (0, (m, sl))
        { s with open_fds := sl :: m :: s.open_fds,
                 trace := s.trace ++ [Sys.openpty m sl] } := by
  refine ⟨lowest_free s.open_fds, lowest_free (lowest_free s.open_fds :: s.open_fds),
    lowest_free_nonneg _, lowest_free_nonneg _, lowest_free_not_mem _, lowest_free_not_mem _, ?_⟩
  simp [sys_openpty]

theorem noninteractive_after_send (o : Env) (fd : Int) (req : msg_request_t) (s : World)
    (hp : ∀ i, i < 4 → o.pipe_ok i = true) :
    ∃ r0 w0 r1 w1 r2 w2 r3 w3 : Int,
      (0 ≤ r0 ∧ 0 ≤ w0 ∧ 0 ≤ r1 ∧ 0 ≤ w1 ∧ 0 ≤ r2 ∧ 0 ≤ w2 ∧ 0 ≤ r3 ∧ 0 ≤ w3) ∧
      (r0 ∉ s.open_fds ∧ w0 ∉ r0 :: s.open_fds ∧ r1 ∉ w0 :: r0 :: s.open_fds ∧
        w1 ∉ r1 :: w0 :: r0 :: s.open_fds ∧ r2 ∉ w1 :: r1 :: w0 :: r0 :: s.open_fds ∧
        w2 ∉ r2 :: w1 :: r1 :: w0 :: r0 :: s.open_fds ∧
        r3 ∉ w2 :: r2 :: w1 :: r1 :: w0 :: r0 :: s.open_fds ∧
        w3 ∉ r3 :: w2 :: r2 :: w1 :: r1 :: w0 :: r0 :: s.open_fds) ∧
      child_handle_noninteractive o fd req s =
        (if o.send_rv = -1 then
          handler_err [(r0, w0), (r1, w1), (r2, w2), (r3, w3)] fd
        else do
          let rv ← child_fork o req r0 w1 w2
          c_assert (decide (rv > 0))
          child_pid_to_fd_add o.dup_ok rv w3
          handler_err [(r0, w0), (r1, w1), (r2, w2), (r3, w3)] fd)
        { s with open_fds := w3 :: r3 :: w2 :: r2 :: w1 :: r1 :: w0 :: r0 :: s.open_fds,
                 trace := s.trace ++ [Sys.enter Handler.noninteractive,
                   Sys.pipe r0 w0, Sys.cloexec r0, Sys.cloexec w0,
                   Sys.pipe r1 w1, Sys.cloexec r1, Sys.cloexec w1,
                   Sys.pipe r2 w2, Sys.cloexec r2, Sys.cloexec w2,
                   Sys.pipe r3 w3, Sys.cloexec r3, Sys.cloexec w3,
                   Sys.send_fds fd [w0, r1, r2, r3] o.send_rv] } := by
  obtain ⟨r0, w0, a0, b0, c0, d0, e0⟩ := open_pipe_ok o 0 (-1, -1)
    { s with trace := s.trace ++ [Sys.enter Handler.noninteractive] } (hp 0 (by omega))
  obtain ⟨r1, w1, a1, b1, c1, d1, e1⟩ := open_pipe_ok o 1 (-1, -1)
    { s with open_fds := w0 :: r0 :: s.open_fds,
             trace := s.trace ++ [Sys.enter Handler.noninteractive] ++
               [Sys.pipe r0 w0, Sys.cloexec r0, Sys.cloexec w0] } (hp 1 (by omega))
  obtain ⟨r2, w2, a2, b2, c2, d2, e2⟩ := open_pipe_ok o 2 (-1, -1)
    { s with open_fds := w1 :: r1 :: w0 :: r0 :: s.open_fds,
             trace := s.trace ++ [Sys.enter Handler.noninteractive] ++
               [Sys.pipe r0 w0, Sys.cloexec r0, Sys.cloexec w0] ++
               [Sys.pipe r1 w1, Sys.cloexec r1, Sys.cloexec w1] } (hp 2 (by omega))
  obtain ⟨r3, w3, a3, b3, c3, d3, e3⟩ := open_pipe_ok o 3 (-1, -1)
    { s with open_fds := w2 :: r2 :: w1 :: r1 :: w0 :: r0 :: s.open_fds,
             trace := s.trace ++ [Sys.enter Handler.noninteractive] ++
               [Sys.pipe r0 w0, Sys.cloexec r0, Sys.cloexec w0] ++
               [Sys.pipe r1 w1, Sys.cloexec r1, Sys.cloexec w1] ++
               [Sys.pipe r2 w2, Sys.cloexec r2, Sys.cloexec w2] } (hp 3 (by omega))
  refine ⟨r0, w0, r1, w1, r2, w2, r3, w3, ⟨a0, b0, a1, b1, a2, b2, a3, b3⟩,
    ⟨c0, d0, c1, d1, c2, d2, c3, d3⟩, ?_⟩
  unfold child_handle_noninteractive
  rw [bind_ret _ _ _ _ () (show emit _ s = Outcome.ret () _ from rfl)]
  rw [bind_ret _ _ _ _ _ e0, bind_ret _ _ _ _ _ e1, bind_ret _ _ _ _ _ e2,
    bind_ret _ _ _ _ _ e3]
  rw [bind_ret _ _ _ _ o.send_rv (show un_send_fds o fd _ _ = Outcome.ret _ _ from rfl)]
  simp only [List.append_assoc, List.singleton_append, List.cons_append, List.nil_append]

theorem filter_filter_not_mem (l : List Int) (a : Int) (fds : List Int) :
    (l.filter (fun x => decide (x ≠ a))).filter (fun x => decide (x ∉ fds))
      = l.filter (fun x => decide (x ∉ a :: fds)) := by
  rw [List.filter_filter]
  congr 1
  funext x
  simp [Bool.and_comm]

theorem close_pipes_eval (p : List (Int × Int)) :
    ∀ s : World, (∀ x ∈ pipe_ends p, 0 ≤ x) →
      close_pipes p s = Outcome.ret ()
        { s with open_fds := s.open_fds.filter (fun x => decide (x ∉ pipe_ends p)),
                 trace := s.trace ++ (pipe_ends p).map Sys.close } := by
  induction p with
  | nil =>
    intro s _
    simp [close_pipes, pipe_ends, pure_apply]
  | cons pi rest ih =>
    intro s h
    have h1 : pi.1 > -1 := by
      have := h pi.1 (by simp [pipe_ends]); omega
    have h2 : pi.2 > -1 := by
      have := h pi.2 (by simp [pipe_ends]); omega
    have hrest : ∀ x ∈ pipe_ends rest, 0 ≤ x := by
      intro x hx; exact h x (by simp [pipe_ends, hx])
    unfold close_pipes
    simp only [bind_apply, Proc.bind, c_if, h1, h2, if_true, sys_close, pure_apply]
    rw [ih _ hrest]
    simp only [filter_filter_not_mem, pipe_ends, List.map_cons, List.append_assoc,
      List.singleton_append, List.cons_append, List.nil_append]

theorem handler_err_eval (p : List (Int × Int)) (fd : Int) (s : World)
    (h : ∀ x ∈ pipe_ends p, 0 ≤ x) (hfd : 0 ≤ fd) :
    handler_err p fd s = Outcome.ret 0
      { s with open_fds := s.open_fds.filter (fun x => decide (x ∉ fd :: pipe_ends p)),
               trace := s.trace ++ (pipe_ends p).map Sys.close ++ [Sys.close fd] } := by
  have h1 : fd > -1 := by omega
  unfold handler_err
  rw [bind_ret _ _ _ _ () (close_pipes_eval p s h)]
  simp only [bind_apply, Proc.bind, c_if, h1, if_true, sys_close, pure_apply,
    List.filter_filter]
  congr 2
  apply List.filter_congr
  intro x _
  simp [Bool.and_comm]

/-! ### Pieces of the program that never return -/

theorem noret_bind_right {α β : Type} (m : Proc α) {f : α → Proc β}
    (hf : ∀ a, NoRet (f a)) : NoRet (m >>= f) := by
  intro s b s' h
  rw [bind_apply] at h
  unfold Proc.bind at h
  cases hm : m s with
  | ret a s1 => rw [hm] at h; exact hf a s1 b s' h
  | exit c s1 => rw [hm] at h; simp at h
  | abort s1 => rw [hm] at h; simp at h
  | exec a e s1 => rw [hm] at h; simp at h
  | undefined => rw [hm] at h; simp at h

theorem noret_sys_exit {α : Type} (c : Int) : NoRet (sys_exit c : Proc α) := by
  intro s a s' h
  simp [sys_exit] at h

theorem noret_child_fork_exec (o : Env) (req : msg_request_t) (a : Int) :
    NoRet (child_fork_exec o req a) := by
  unfold child_fork_exec
  repeat' (first
    | with_reducible refine noret_bind_right _ (fun _ => ?_)
    | with_reducible exact noret_sys_exit _
    | dsimp only
    | split)

theorem noret_child_fork_child (o : Env) (req : msg_request_t) (a b c : Int) :
    NoRet (child_fork_child o req a b c) := by
  unfold child_fork_child
  repeat' (first
    | with_reducible refine noret_bind_right _ (fun _ => ?_)
    | with_reducible exact noret_child_fork_exec _ _ _)

theorem child_fork_returns (o : Env) (req : msg_request_t) (a b c : Int) (s s' : World)
    (v : Int) (h : child_fork o req a b c s = Outcome.ret v s') :
    v = o.fork_rv ∧ o.fork_rv ≠ -1 ∧ o.fork_rv ≠ 0 ∧
      s' = { s with trace := s.trace ++ [Sys.fork o.fork_rv] } := by
  unfold child_fork at h
  rw [bind_ret _ _ _ _ o.fork_rv (show sys_fork o s = Outcome.ret _ _ from rfl)] at h
  by_cases h1 : o.fork_rv = -1
  · simp [bind_apply, Proc.bind, c_if, h1, sys_exit] at h
  · rw [bind_ret _ _ _ _ () (by simp only [c_if, h1, if_false]; rfl)] at h
    by_cases h0 : o.fork_rv = 0
    · rw [if_pos h0] at h
      exact absurd h (noret_child_fork_child o req a b c _ _ _)
    · rw [if_neg h0] at h
      simp only [pure_apply, Outcome.ret.injEq] at h
      exact ⟨h.1.symm, h1, h0, h.2.symm⟩

theorem child_fork_parent (o : Env) (req : msg_request_t) (a b c : Int) (s : World)
    (h : 0 < o.fork_rv) :
    child_fork o req a b c s =
      Outcome.ret o.fork_rv { s with trace := s.trace ++ [Sys.fork o.fork_rv] } := by
  have h1 : ¬ o.fork_rv = -1 := by omega
  have h0 : ¬ o.fork_rv = 0 := by omega
  unfold child_fork
  simp [bind_apply, Proc.bind, sys_fork, c_if, h1, h0, pure_apply]

theorem child_fork_fails (o : Env) (req : msg_request_t) (a b c : Int) (s : World)
    (h : o.fork_rv = -1) :
    child_fork o req a b c s =
      Outcome.exit 1 { s with trace := s.trace ++ [Sys.fork (-1)] } := by
  unfold child_fork
  simp [bind_apply, Proc.bind, sys_fork, c_if, h, sys_exit]

theorem noninteractive_send_failed (o : Env) (fd : Int) (req : msg_request_t) (s : World)
    (hp : ∀ i, i < 4 → o.pipe_ok i = true) (hsend : o.send_rv = -1) (hfd : 0 ≤ fd) :
    ∃ r0 w0 r1 w1 r2 w2 r3 w3 : Int,
      (r0 ∉ s.open_fds ∧ w0 ∉ r0 :: s.open_fds ∧ r1 ∉ w0 :: r0 :: s.open_fds ∧
        w1 ∉ r1 :: w0 :: r0 :: s.open_fds ∧ r2 ∉ w1 :: r1 :: w0 :: r0 :: s.open_fds ∧
        w2 ∉ r2 :: w1 :: r1 :: w0 :: r0 :: s.open_fds ∧
        r3 ∉ w2 :: r2 :: w1 :: r1 :: w0 :: r0 :: s.open_fds ∧
        w3 ∉ r3 :: w2 :: r2 :: w1 :: r1 :: w0 :: r0 :: s.open_fds) ∧
      child_handle_noninteractive o fd req s = Outcome.ret 0
        { s with open_fds := (w3 :: r3 :: w2 :: r2 :: w1 :: r1 :: w0 :: r0 :: s.open_fds).filter
                   (fun x => decide (x ∉ [fd, r0, w0, r1, w1, r2, w2, r3, w3])),
                 trace := s.trace ++ [Sys.enter Handler.noninteractive,
                   Sys.pipe r0 w0, Sys.cloexec r0, Sys.cloexec w0,
                   Sys.pipe r1 w1, Sys.cloexec r1, Sys.cloexec w1,
                   Sys.pipe r2 w2, Sys.cloexec r2, Sys.cloexec w2,
                   Sys.pipe r3 w3, Sys.cloexec r3, Sys.cloexec w3,
                   Sys.send_fds fd [w0, r1, r2, r3] (-1),
                   Sys.close r0, Sys.close w0, Sys.close r1, Sys.close w1,
                   Sys.close r2, Sys.close w2, Sys.close r3, Sys.close w3, Sys.close fd] } := by
  obtain ⟨r0, w0, r1, w1, r2, w2, r3, w3, hnn, hfresh, heq⟩ :=
    noninteractive_after_send o fd req s hp
  refine ⟨r0, w0, r1, w1, r2, w2, r3, w3, hfresh, ?_⟩
  obtain ⟨a0, b0, a1, b1, a2, b2, a3, b3⟩ := hnn
  rw [heq, if_pos hsend, handler_err_eval _ _ _ (by
    intro x hx
    simp only [pipe_ends, List.mem_cons, List.mem_singleton, List.not_mem_nil, or_false] at hx
    rcases hx with h | h | h | h | h | h | h | h <;> rw [h] <;> assumption) hfd]
  simp only [hsend, pipe_ends, List.map_cons, List.map_nil, List.append_assoc,
    List.singleton_append, List.cons_append, List.nil_append]

theorem noninteractive_spawned (o : Env) (fd : Int) (req : msg_request_t) (s : World)
    (hp : ∀ i, i < 4 → o.pipe_ok i = true) (hsend : o.send_rv ≠ -1) (hfork : 0 < o.fork_rv)
    (hdup : o.dup_ok = true) (hfd : 0 ≤ fd) :
    ∃ r0 w0 r1 w1 r2 w2 r3 w3 d : Int,
      (r0 ∉ s.open_fds ∧ w0 ∉ r0 :: s.open_fds ∧ r1 ∉ w0 :: r0 :: s.open_fds ∧
        w1 ∉ r1 :: w0 :: r0 :: s.open_fds ∧ r2 ∉ w1 :: r1 :: w0 :: r0 :: s.open_fds ∧
        w2 ∉ r2 :: w1 :: r1 :: w0 :: r0 :: s.open_fds ∧
        r3 ∉ w2 :: r2 :: w1 :: r1 :: w0 :: r0 :: s.open_fds ∧
        w3 ∉ r3 :: w2 :: r2 :: w1 :: r1 :: w0 :: r0 :: s.open_fds ∧
        d ∉ w3 :: r3 :: w2 :: r2 :: w1 :: r1 :: w0 :: r0 :: s.open_fds) ∧
      child_handle_noninteractive o fd req s = Outcome.ret 0
        { s with w := { s.w with pid_to_fd := s.w.pid_to_fd ++ [{ pid := o.fork_rv, fd := d }] },
                 open_fds :=
                   (d :: w3 :: r3 :: w2 :: r2 :: w1 :: r1 :: w0 :: r0 :: s.open_fds).filter
                     (fun x => decide (x ∉ [fd, r0, w0, r1, w1, r2, w2, r3, w3])),
                 trace := s.trace ++ [Sys.enter Handler.noninteractive,
                   Sys.pipe r0 w0, Sys.cloexec r0, Sys.cloexec w0,
                   Sys.pipe r1 w1, Sys.cloexec r1, Sys.cloexec w1,
                   Sys.pipe r2 w2, Sys.cloexec r2, Sys.cloexec w2,
                   Sys.pipe r3 w3, Sys.cloexec r3, Sys.cloexec w3,
                   Sys.send_fds fd [w0, r1, r2, r3] o.send_rv,
                   Sys.fork o.fork_rv, Sys.dup w3 d,
                   Sys.close r0, Sys.close w0, Sys.close r1, Sys.close w1,
                   Sys.close r2, Sys.close w2, Sys.close r3, Sys.close w3, Sys.close fd] } := by
  obtain ⟨r0, w0, r1, w1, r2, w2, r3, w3, hnn, hfresh, heq⟩ :=
    noninteractive_after_send o fd req s hp
  refine ⟨r0, w0, r1, w1, r2, w2, r3, w3,
    lowest_free (w3 :: r3 :: w2 :: r2 :: w1 :: r1 :: w0 :: r0 :: s.open_fds),
    ⟨hfresh.1, hfresh.2.1, hfresh.2.2.1, hfresh.2.2.2.1, hfresh.2.2.2.2.1, hfresh.2.2.2.2.2.1,
      hfresh.2.2.2.2.2.2.1, hfresh.2.2.2.2.2.2.2, lowest_free_not_mem _⟩, ?_⟩
  obtain ⟨a0, b0, a1, b1, a2, b2, a3, b3⟩ := hnn
  rw [heq, if_neg hsend]
  rw [bind_ret _ _ _ _ _ (child_fork_parent o req r0 w1 w2 _ hfork)]
  rw [bind_ret _ _ _ _ () (by simp only [c_assert, hfork, gt_iff_lt, decide_True, if_true]; rfl)]
  rw [hdup, bind_ret _ _ _ _ () (add_ok o.fork_rv w3 _ (List.mem_cons_self _ _))]
  rw [handler_err_eval _ _ _ (by
    intro x hx
    simp only [pipe_ends, List.mem_cons, List.mem_singleton, List.not_mem_nil, or_false] at hx
    rcases hx with h | h | h | h | h | h | h | h <;> rw [h] <;> assumption) hfd]
  simp only [pipe_ends, List.map_cons, List.map_nil, List.append_assoc,
    List.singleton_append, List.cons_append, List.nil_append]

theorem interactive_after_send (o : Env) (fd : Int) (req : msg_request_t) (s : World)
    (hp : o.pipe_ok 1 = true) (hpty : o.openpty_ok = true) :
    ∃ r1 w1 m sl : Int,
      (0 ≤ r1 ∧ 0 ≤ w1 ∧ 0 ≤ m ∧ 0 ≤ sl) ∧
      (r1 ∉ s.open_fds ∧ w1 ∉ r1 :: s.open_fds ∧ m ∉ w1 :: r1 :: s.open_fds ∧
        sl ∉ m :: w1 :: r1 :: s.open_fds) ∧
      child_handle_interactive o fd req s =
        (if o.send_rv = -1 then
          handler_err [(m, sl), (r1, w1)] fd
        else do
          let rv ← child_fork o req sl sl sl
          c_assert (decide (rv > 0))
          child_pid_to_fd_add o.dup_ok rv w1
          handler_err [(m, sl), (r1, w1)] fd)
        { s with open_fds := sl :: m :: w1 :: r1 :: s.open_fds,
                 trace := s.trace ++ [Sys.enter Handler.interactive,
                   Sys.pipe r1 w1, Sys.cloexec r1, Sys.cloexec w1,
                   Sys.openpty m sl, Sys.cloexec m, Sys.cloexec sl,
                   Sys.send_fds fd [m, r1] o.send_rv] } := by
  obtain ⟨r1, w1, a1, b1, c1, d1, e1⟩ := open_pipe_ok o 1 (-1, -1)
    { s with trace := s.trace ++ [Sys.enter Handler.interactive] } hp
  obtain ⟨m, sl, a2, b2, c2, d2, e2⟩ := openpty_ok (-1, -1)
    { s with open_fds := w1 :: r1 :: s.open_fds,
             trace := s.trace ++ [Sys.enter Handler.interactive] ++
               [Sys.pipe r1 w1, Sys.cloexec r1, Sys.cloexec w1] }
  refine ⟨r1, w1, m, sl, ⟨a1, b1, a2, b2⟩, ⟨c1, d1, c2, d2⟩, ?_⟩
  have h0 : ¬ (0 : Int) < 0 := by decide
  unfold child_handle_interactive
  rw [bind_ret _ _ _ _ () (show emit _ s = Outcome.ret () _ from rfl)]
  rw [bind_ret _ _ _ _ _ e1, hpty, bind_ret _ _ _ _ _ e2]
  rw [bind_ret _ _ _ _ () (by simp only [c_if, h0, if_false]; rfl)]
  rw [bind_ret _ _ _ _ () (show fcntl_mix_cloexec _ _ = Outcome.ret () _ from rfl)]
  rw [bind_ret _ _ _ _ () (show fcntl_mix_cloexec _ _ = Outcome.ret () _ from rfl)]
  rw [bind_ret _ _ _ _ o.send_rv (show un_send_fds o fd _ _ = Outcome.ret _ _ from rfl)]
  simp only [List.append_assoc, List.singleton_append, List.cons_append, List.nil_append]

theorem interactive_send_failed (o : Env) (fd : Int) (req : msg_request_t) (s : World)
    (hp : o.pipe_ok 1 = true) (hpty : o.openpty_ok = true) (hsend : o.send_rv = -1)
    (hfd : 0 ≤ fd) :
    ∃ r1 w1 m sl : Int,
      (r1 ∉ s.open_fds ∧ w1 ∉ r1 :: s.open_fds ∧ m ∉ w1 :: r1 :: s.open_fds ∧
        sl ∉ m :: w1 :: r1 :: s.open_fds) ∧
      child_handle_interactive o fd req s = Outcome.ret 0
        { s with open_fds := (sl :: m :: w1 :: r1 :: s.open_fds).filter
                   (fun x => decide (x ∉ [fd, m, sl, r1, w1])),
                 trace := s.trace ++ [Sys.enter Handler.interactive,
                   Sys.pipe r1 w1, Sys.cloexec r1, Sys.cloexec w1,
                   Sys.openpty m sl, Sys.cloexec m, Sys.cloexec sl,
                   Sys.send_fds fd [m, r1] (-1),
                   Sys.close m, Sys.close sl, Sys.close r1, Sys.close w1, Sys.close fd] } := by
  obtain ⟨r1, w1, m, sl, hnn, hfresh, heq⟩ := interactive_after_send o fd req s hp hpty
  refine ⟨r1, w1, m, sl, hfresh, ?_⟩
  obtain ⟨a1, b1, a2, b2⟩ := hnn
  rw [heq, if_pos hsend, handler_err_eval _ _ _ (by
    intro x hx
    simp only [pipe_ends, List.mem_cons, List.mem_singleton, List.not_mem_nil, or_false] at hx
    rcases hx with h | h | h | h <;> rw [h] <;> assumption) hfd]
  simp only [hsend, pipe_ends, List.map_cons, List.map_nil, List.append_assoc,
    List.singleton_append, List.cons_append, List.nil_append]

theorem interactive_spawned (o : Env) (fd : Int) (req : msg_request_t) (s : World)
    (hp : o.pipe_ok 1 = true) (hpty : o.openpty_ok = true) (hsend : o.send_rv ≠ -1)
    (hfork : 0 < o.fork_rv) (hdup : o.dup_ok = true) (hfd : 0 ≤ fd) :
    ∃ r1 w1 m sl d : Int,
      (r1 ∉ s.open_fds ∧ w1 ∉ r1 :: s.open_fds ∧ m ∉ w1 :: r1 :: s.open_fds ∧
        sl ∉ m :: w1 :: r1 :: s.open_fds ∧ d ∉ sl :: m :: w1 :: r1 :: s.open_fds) ∧
      child_handle_interactive o fd req s = Outcome.ret 0
        { s with w := { s.w with pid_to_fd := s.w.pid_to_fd ++ [{ pid := o.fork_rv, fd := d }] },
                 open_fds := (d :: sl :: m :: w1 :: r1 :: s.open_fds).filter
                   (fun x => decide (x ∉ [fd, m, sl, r1, w1])),
                 trace := s.trace ++ [Sys.enter Handler.interactive,
                   Sys.pipe r1 w1, Sys.cloexec r1, Sys.cloexec w1,
                   Sys.openpty m sl, Sys.cloexec m, Sys.cloexec sl,
                   Sys.send_fds fd [m, r1] o.send_rv,
                   Sys.fork o.fork_rv, Sys.dup w1 d,
                   Sys.close m, Sys.close sl, Sys.close r1, Sys.close w1, Sys.close fd] } := by
  obtain ⟨r1, w1, m, sl, hnn, hfresh, heq⟩ := interactive_after_send o fd req s hp hpty
  refine ⟨r1, w1, m, sl, lowest_free (sl :: m :: w1 :: r1 :: s.open_fds),
    ⟨hfresh.1, hfresh.2.1, hfresh.2.2.1, hfresh.2.2.2, lowest_free_not_mem _⟩, ?_⟩
  obtain ⟨a1, b1, a2, b2⟩ := hnn
  rw [heq, if_neg hsend]
  rw [bind_ret _ _ _ _ _ (child_fork_parent o req sl sl sl _ hfork)]
  rw [bind_ret _ _ _ _ () (by simp only [c_assert, hfork, gt_iff_lt, decide_True, if_true]; rfl)]
  rw [hdup, bind_ret _ _ _ _ () (add_ok o.fork_rv w1 _ (by simp))]
  rw [handler_err_eval _ _ _ (by
    intro x hx
    simp only [pipe_ends, List.mem_cons, List.mem_singleton, List.not_mem_nil, or_false] at hx
    rcases hx with h | h | h | h <;> rw [h] <;> assumption) hfd]
  simp only [pipe_ends, List.map_cons, List.map_nil, List.append_assoc,
    List.singleton_append, List.cons_append, List.nil_append]

/-! ### What is sent to the client and what the child is given -/

theorem bind_returns {α β : Type} (m : Proc α) (f : α → Proc β) (s s' : World) (b : β)
    (h : (m >>= f) s = Outcome.ret b s') :
    ∃ a s1, m s = Outcome.ret a s1 ∧ f a s1 = Outcome.ret b s' := by
  rw [bind_apply] at h
  unfold Proc.bind at h
  cases hm : m s with
  | ret a s1 => rw [hm] at h; exact ⟨a, s1, rfl, h⟩
  | exit c s1 => rw [hm] at h; simp at h
  | abort s1 => rw [hm] at h; simp at h
  | exec a e s1 => rw [hm] at h; simp at h
  | undefined => rw [hm] at h; simp at h

theorem open_pipe_returns (o : Env) (i : Nat) (p x : Int × Int) (s s' : World)
    (h : open_pipe o i p s = Outcome.ret x s') : o.pipe_ok i = true := by
  by_cases hp : o.pipe_ok i = true
  · exact hp
  · rw [open_pipe_fails o i p s (by simpa using hp)] at h
    simp at h

theorem spawn_tail_returns (o : Env) (fd : Int) (req : msg_request_t) (a b c e : Int)
    (p : List (Int × Int)) (s s' : World) (rv : Int)
    (h : (do
          let rv ← child_fork o req a b c
          c_assert (decide (rv > 0))
          child_pid_to_fd_add o.dup_ok rv e
          handler_err p fd : Proc Int) s = Outcome.ret rv s') :
    0 < o.fork_rv ∧ o.dup_ok = true := by
  obtain ⟨v, s1, h1, h⟩ := bind_returns _ _ _ _ _ h
  obtain ⟨hv, -, -, -⟩ := child_fork_returns o req a b c s s1 v h1
  obtain ⟨u, s2, h2, h⟩ := bind_returns _ _ _ _ _ h
  obtain ⟨u', s3, h3, h⟩ := bind_returns _ _ _ _ _ h
  obtain ⟨-, hok, -⟩ := add_returns _ _ _ _ _ h3
  refine ⟨?_, hok⟩
  by_cases hpos : v > 0
  · rw [← hv]; exact hpos
  · simp [c_assert, hpos] at h2

theorem noninteractive_returns (o : Env) (fd : Int) (req : msg_request_t) (s s' : World)
    (rv : Int) (h : child_handle_noninteractive o fd req s = Outcome.ret rv s') :
    (∀ i, i < 4 → o.pipe_ok i = true) ∧
      (o.send_rv = -1 ∨ (o.send_rv ≠ -1 ∧ 0 < o.fork_rv ∧ o.dup_ok = true)) := by
  have hp : ∀ i, i < 4 → o.pipe_ok i = true := by
    have h' := h
    unfold child_handle_noninteractive at h'
    obtain ⟨_, s1, -, h'⟩ := bind_returns _ _ _ _ _ h'
    obtain ⟨p0, s2, e0, h'⟩ := bind_returns _ _ _ _ _ h'
    obtain ⟨p1, s3, e1, h'⟩ := bind_returns _ _ _ _ _ h'
    obtain ⟨p2, s4, e2, h'⟩ := bind_returns _ _ _ _ _ h'
    obtain ⟨p3, s5, e3, h'⟩ := bind_returns _ _ _ _ _ h'
    intro i hi
    have : i = 0 ∨ i = 1 ∨ i = 2 ∨ i = 3 := by omega
    rcases this with rfl | rfl | rfl | rfl
    · exact open_pipe_returns _ _ _ _ _ _ e0
    · exact open_pipe_returns _ _ _ _ _ _ e1
    · exact open_pipe_returns _ _ _ _ _ _ e2
    · exact open_pipe_returns _ _ _ _ _ _ e3
  refine ⟨hp, ?_⟩
  by_cases hsend : o.send_rv = -1
  · exact Or.inl hsend
  · right
    obtain ⟨r0, w0, r1, w1, r2, w2, r3, w3, -, -, heq⟩ := noninteractive_after_send o fd req s hp
    rw [heq, if_neg hsend] at h
    exact ⟨hsend, spawn_tail_returns o fd req _ _ _ _ _ _ _ _ h⟩

theorem interactive_returns (o : Env) (fd : Int) (req : msg_request_t) (s s' : World)
    (rv : Int) (h : child_handle_interactive o fd req s = Outcome.ret rv s') :
    o.pipe_ok 1 = true ∧ o.openpty_ok = true ∧
      (o.send_rv = -1 ∨ (o.send_rv ≠ -1 ∧ 0 < o.fork_rv ∧ o.dup_ok = true)) := by
  have hp : o.pipe_ok 1 = true ∧ o.openpty_ok = true := by
    have h' := h
    unfold child_handle_interactive at h'
    obtain ⟨_, s1, -, h'⟩ := bind_returns _ _ _ _ _ h'
    obtain ⟨p1, s2, e1, h'⟩ := bind_returns _ _ _ _ _ h'
    obtain ⟨r, s3, e2, h'⟩ := bind_returns _ _ _ _ _ h'
    obtain ⟨_, s4, e3, h'⟩ := bind_returns _ _ _ _ _ h'
    refine ⟨open_pipe_returns _ _ _ _ _ _ e1, ?_⟩
    by_cases hpty : o.openpty_ok = true
    · exact hpty
    · simp only [sys_openpty, hpty, if_false, Outcome.ret.injEq, Bool.false_eq_true] at e2
      rw [← e2.1] at e3
      simp [c_if, sys_abort] at e3
  refine ⟨hp.1, hp.2, ?_⟩
  by_cases hsend : o.send_rv = -1
  · exact Or.inl hsend
  · right
    obtain ⟨r1, w1, m, sl, -, -, heq⟩ := interactive_after_send o fd req s hp.1 hp.2
    rw [heq, if_neg hsend] at h
    exact ⟨hsend, spawn_tail_returns o fd req _ _ _ _ _ _ _ _ h⟩

theorem mem_filter_closed (O news' news : List Int) (fd : Int)
    (hperm : ∀ y, y ∈ news' → y ∈ news) (hn : ∀ y ∈ news, y ∉ O) (x : Int) :
    x ∈ (news' ++ O).filter (fun x => decide (x ∉ fd :: news)) ↔ x ∈ O ∧ x ≠ fd := by
  simp only [List.mem_filter, List.mem_append, List.mem_cons, not_or, decide_eq_true_eq]
  constructor
  · rintro ⟨h | h, hx1, hx2⟩
    · exact absurd (hperm x h) hx2
    · exact ⟨h, hx1⟩
  · rintro ⟨h, hne⟩
    exact ⟨Or.inr h, hne, fun hm => hn x hm h⟩

theorem mem_filter_closed_dup (O news' news : List Int) (fd d : Int)
    (hperm : ∀ y, y ∈ news' ↔ y ∈ news) (hn : ∀ y ∈ news, y ∉ O)
    (hd : d ∉ news' ++ O) (hfd : fd ∈ O) (x : Int) :
    x ∈ (d :: (news' ++ O)).filter (fun x => decide (x ∉ fd :: news))
      ↔ (x ∈ O ∧ x ≠ fd) ∨ x = d := by
  simp only [List.mem_filter, List.mem_append, List.mem_cons, not_or, decide_eq_true_eq]
  constructor
  · rintro ⟨h | h | h, hx1, hx2⟩
    · exact Or.inr h
    · exact absurd ((hperm x).1 h) hx2
    · exact Or.inl ⟨h, hx1⟩
  · rintro (⟨h, hne⟩ | h)
    · exact ⟨Or.inr (Or.inr h), hne, fun hm => hn x hm h⟩
    · subst h
      exact ⟨Or.inl rfl, fun hxf => hd (List.mem_append_right _ (hxf ▸ hfd)),
        fun hm => hd (List.mem_append_left _ ((hperm x).2 hm))⟩

theorem fresh8_not_mem (O : List Int) (r0 w0 r1 w1 r2 w2 r3 w3 : Int)
    (h0 : r0 ∉ O) (h1 : w0 ∉ r0 :: O) (h2 : r1 ∉ w0 :: r0 :: O)
    (h3 : w1 ∉ r1 :: w0 :: r0 :: O) (h4 : r2 ∉ w1 :: r1 :: w0 :: r0 :: O)
    (h5 : w2 ∉ r2 :: w1 :: r1 :: w0 :: r0 :: O)
    (h6 : r3 ∉ w2 :: r2 :: w1 :: r1 :: w0 :: r0 :: O)
    (h7 : w3 ∉ r3 :: w2 :: r2 :: w1 :: r1 :: w0 :: r0 :: O) :
    ∀ y ∈ [r0, w0, r1, w1, r2, w2, r3, w3], y ∉ O := by
  simp only [List.mem_cons, not_or] at h1 h2 h3 h4 h5 h6 h7
  intro y hy
  simp only [List.mem_cons, List.mem_singleton, List.not_mem_nil, or_false] at hy
  rcases hy with rfl | rfl | rfl | rfl | rfl | rfl | rfl | rfl
  · exact h0
  · exact h1.2
  · exact h2.2.2
  · exact h3.2.2.2
  · exact h4.2.2.2.2
  · exact h5.2.2.2.2.2
  · exact h6.2.2.2.2.2.2
  · exact h7.2.2.2.2.2.2.2

theorem fresh4_not_mem (O : List Int) (r1 w1 m sl : Int)
    (h0 : r1 ∉ O) (h1 : w1 ∉ r1 :: O) (h2 : m ∉ w1 :: r1 :: O)
    (h3 : sl ∉ m :: w1 :: r1 :: O) :
    ∀ y ∈ [m, sl, r1, w1], y ∉ O := by
  simp only [List.mem_cons, not_or] at h1 h2 h3
  intro y hy
  simp only [List.mem_cons, List.mem_singleton, List.not_mem_nil, or_false] at hy
  rcases hy with rfl | rfl | rfl | rfl
  · exact h2.2.2
  · exact h3.2.2.2
  · exact h0
  · exact h1.2

theorem nodup_fresh_step (O l : List Int) (x fd : Int) (hfd : fd ∈ O)
    (h : x ∉ l ++ O) (hl : (l ++ [fd]).Nodup) : (x :: l ++ [fd]).Nodup := by
  refine List.nodup_cons.2 ⟨?_, hl⟩
  intro hm
  apply h
  rcases List.mem_append.1 hm with h1 | h1
  · exact List.mem_append_left _ h1
  · rw [List.mem_singleton] at h1
    rw [h1]
    exact List.mem_append_right _ hfd

theorem nodup_reverse_append (l : List Int) (fd : Int) (h : (l ++ [fd]).Nodup) :
    (l.reverse ++ [fd]).Nodup := by
  rw [List.nodup_append] at h ⊢
  refine ⟨List.nodup_reverse.2 h.1, h.2.1, ?_⟩
  intro x hx
  exact h.2.2 (List.mem_reverse.1 hx)

theorem nodup_fresh8 (O : List Int) (r0 w0 r1 w1 r2 w2 r3 w3 fd : Int)
    (h0 : r0 ∉ O) (h1 : w0 ∉ r0 :: O) (h2 : r1 ∉ w0 :: r0 :: O)
    (h3 : w1 ∉ r1 :: w0 :: r0 :: O) (h4 : r2 ∉ w1 :: r1 :: w0 :: r0 :: O)
    (h5 : w2 ∉ r2 :: w1 :: r1 :: w0 :: r0 :: O)
    (h6 : r3 ∉ w2 :: r2 :: w1 :: r1 :: w0 :: r0 :: O)
    (h7 : w3 ∉ r3 :: w2 :: r2 :: w1 :: r1 :: w0 :: r0 :: O) (hfd : fd ∈ O) :
    [r0, w0, r1, w1, r2, w2, r3, w3, fd].Nodup := by
  have n0 : (([] : List Int) ++ [fd]).Nodup := List.nodup_singleton fd
  have n1 := nodup_fresh_step O [] r0 fd hfd h0 n0
  have n2 := nodup_fresh_step O [r0] w0 fd hfd h1 n1
  have n3 := nodup_fresh_step O [w0, r0] r1 fd hfd h2 n2
  have n4 := nodup_fresh_step O [r1, w0, r0] w1 fd hfd h3 n3
  have n5 := nodup_fresh_step O [w1, r1, w0, r0] r2 fd hfd h4 n4
  have n6 := nodup_fresh_step O [r2, w1, r1, w0, r0] w2 fd hfd h5 n5
  have n7 := nodup_fresh_step O [w2, r2, w1, r1, w0, r0] r3 fd hfd h6 n6
  have n8 := nodup_fresh_step O [r3, w2, r2, w1, r1, w0, r0] w3 fd hfd h7 n7
  exact nodup_reverse_append [w3, r3, w2, r2, w1, r1, w0, r0] fd n8

theorem nodup_fresh4 (O : List Int) (r1 w1 m sl fd : Int)
    (h0 : r1 ∉ O) (h1 : w1 ∉ r1 :: O) (h2 : m ∉ w1 :: r1 :: O)
    (h3 : sl ∉ m :: w1 :: r1 :: O) (hfd : fd ∈ O) :
    [m, sl, r1, w1, fd].Nodup := by
  have n0 : (([] : List Int) ++ [fd]).Nodup := List.nodup_singleton fd
  have n1 := nodup_fresh_step O [] r1 fd hfd h0 n0
  have n2 := nodup_fresh_step O [r1] w1 fd hfd h1 n1
  have n3 := nodup_fresh_step O [w1, r1] m fd hfd h2 n2
  have n4 := nodup_fresh_step O [m, w1, r1] sl fd hfd h3 n3
  have hperm : List.Perm [m, sl, r1, w1, fd] ([sl, m, w1, r1] ++ [fd]) :=
    (List.Perm.swap sl m _).trans
      (List.Perm.cons _ (List.Perm.cons _ (List.Perm.swap w1 r1 _)))
  exact hperm.nodup_iff.2 n4

theorem noninteractive_releases (o : Env) (fd : Int) (req : msg_request_t) (s s' : World)
    (rv : Int) (hfd0 : 0 ≤ fd) (hfd : fd ∈ s.open_fds)
    (h : child_handle_noninteractive o fd req s = Outcome.ret rv s') :
    rv = 0 ∧ ∃ t, s'.trace = s.trace ++ t ∧ (created_fds t).length = 8 ∧
      (∀ x ∈ fd :: created_fds t, (closed_fds t).count x = 1) ∧
      ((o.send_rv = -1 ∧ s'.w = s.w ∧ ∀ x, (x ∈ s'.open_fds ↔ x ∈ s.open_fds ∧ x ≠ fd)) ∨
       (o.send_rv ≠ -1 ∧ ∃ d, d ∉ s.open_fds ∧
          s'.w.pid_to_fd = s.w.pid_to_fd ++ [{ pid := o.fork_rv, fd := d }] ∧
          ∀ x, (x ∈ s'.open_fds ↔ (x ∈ s.open_fds ∧ x ≠ fd) ∨ x = d))) := by
  obtain ⟨hp, hcase⟩ := noninteractive_returns o fd req s s' rv h
  have hperm : ∀ (r0 w0 r1 w1 r2 w2 r3 w3 y : Int),
      y ∈ [w3, r3, w2, r2, w1, r1, w0, r0] ↔ y ∈ [r0, w0, r1, w1, r2, w2, r3, w3] := by
    intro r0 w0 r1 w1 r2 w2 r3 w3 y
    rw [← List.mem_reverse]
    rfl
  rcases hcase with hsend | ⟨hsend, hfork, hdup⟩
  · obtain ⟨r0, w0, r1, w1, r2, w2, r3, w3, hf, heq⟩ :=
      noninteractive_send_failed o fd req s hp hsend hfd0
    rw [heq] at h
    simp only [Outcome.ret.injEq] at h
    obtain ⟨h0, hs'⟩ := h
    obtain ⟨c0, c1, c2, c3, c4, c5, c6, c7⟩ := hf
    have hnd := nodup_fresh8 _ _ _ _ _ _ _ _ _ _ c0 c1 c2 c3 c4 c5 c6 c7 hfd
    have hnm := fresh8_not_mem _ _ _ _ _ _ _ _ _ c0 c1 c2 c3 c4 c5 c6 c7
    refine ⟨h0.symm, _, by rw [← hs'], by simp [created_fds], ?_,
      Or.inl ⟨hsend, by rw [← hs'], ?_⟩⟩
    · intro x hx
      simp only [created_fds, closed_fds] at hx ⊢
      apply List.count_eq_one_of_mem hnd
      simp only [List.mem_cons, List.mem_singleton, List.not_mem_nil, or_false] at hx ⊢
      tauto
    · intro x
      rw [← hs']
      exact mem_filter_closed s.open_fds [w3, r3, w2, r2, w1, r1, w0, r0]
        [r0, w0, r1, w1, r2, w2, r3, w3] fd (fun y => (hperm _ _ _ _ _ _ _ _ y).1) hnm x
  · obtain ⟨r0, w0, r1, w1, r2, w2, r3, w3, d, hf, heq⟩ :=
      noninteractive_spawned o fd req s hp hsend hfork hdup hfd0
    rw [heq] at h
    simp only [Outcome.ret.injEq] at h
    obtain ⟨h0, hs'⟩ := h
    obtain ⟨c0, c1, c2, c3, c4, c5, c6, c7, c8⟩ := hf
    have hnd := nodup_fresh8 _ _ _ _ _ _ _ _ _ _ c0 c1 c2 c3 c4 c5 c6 c7 hfd
    have hnm := fresh8_not_mem _ _ _ _ _ _ _ _ _ c0 c1 c2 c3 c4 c5 c6 c7
    have hdO : d ∉ s.open_fds := fun hm =>
      c8 (List.mem_append_right [w3, r3, w2, r2, w1, r1, w0, r0] hm)
    refine ⟨h0.symm, _, by rw [← hs'], by simp [created_fds], ?_,
      Or.inr ⟨hsend, d, hdO, by rw [← hs'], ?_⟩⟩
    · intro x hx
      simp only [created_fds, closed_fds] at hx ⊢
      apply List.count_eq_one_of_mem hnd
      simp only [List.mem_cons, List.mem_singleton, List.not_mem_nil, or_false] at hx ⊢
      tauto
    · intro x
      rw [← hs']
      exact mem_filter_closed_dup s.open_fds [w3, r3, w2, r2, w1, r1, w0, r0]
        [r0, w0, r1, w1, r2, w2, r3, w3] fd d (hperm _ _ _ _ _ _ _ _) hnm c8 hfd x

theorem interactive_releases (o : Env) (fd : Int) (req : msg_request_t) (s s' : World)
    (rv : Int) (hfd0 : 0 ≤ fd) (hfd : fd ∈ s.open_fds)
    (h : child_handle_interactive o fd req s = Outcome.ret rv s') :
    rv = 0 ∧ ∃ t, s'.trace = s.trace ++ t ∧ (created_fds t).length = 4 ∧
      (∀ x ∈ fd :: created_fds t, (closed_fds t).count x = 1) ∧
      ((o.send_rv = -1 ∧ s'.w = s.w ∧ ∀ x, (x ∈ s'.open_fds ↔ x ∈ s.open_fds ∧ x ≠ fd)) ∨
       (o.send_rv ≠ -1 ∧ ∃ d, d ∉ s.open_fds ∧
          s'.w.pid_to_fd = s.w.pid_to_fd ++ [{ pid := o.fork_rv, fd := d }] ∧
          ∀ x, (x ∈ s'.open_fds ↔ (x ∈ s.open_fds ∧ x ≠ fd) ∨ x = d))) := by
  obtain ⟨hp, hpty, hcase⟩ := interactive_returns o fd req s s' rv h
  have hperm : ∀ (r1 w1 m sl y : Int), y ∈ [sl, m, w1, r1] ↔ y ∈ [m, sl, r1, w1] := by
    intro r1 w1 m sl y
    simp only [List.mem_cons, List.mem_singleton, List.not_mem_nil, or_false]
    tauto
  rcases hcase with hsend | ⟨hsend, hfork, hdup⟩
  · obtain ⟨r1, w1, m, sl, hf, heq⟩ := interactive_send_failed o fd req s hp hpty hsend hfd0
    rw [heq] at h
    simp only [Outcome.ret.injEq] at h
    obtain ⟨h0, hs'⟩ := h
    obtain ⟨c0, c1, c2, c3⟩ := hf
    have hnd := nodup_fresh4 _ _ _ _ _ _ c0 c1 c2 c3 hfd
    have hnm := fresh4_not_mem _ _ _ _ _ c0 c1 c2 c3
    refine ⟨h0.symm, _, by rw [← hs'], by simp [created_fds], ?_,
      Or.inl ⟨hsend, by rw [← hs'], ?_⟩⟩
    · intro x hx
      simp only [created_fds, closed_fds] at hx ⊢
      apply List.count_eq_one_of_mem hnd
      simp only [List.mem_cons, List.mem_singleton, List.not_mem_nil, or_false] at hx ⊢
      tauto
    · intro x
      rw [← hs']
      exact mem_filter_closed s.open_fds [sl, m, w1, r1] [m, sl, r1, w1] fd
        (fun y => (hperm _ _ _ _ y).1) hnm x
  · obtain ⟨r1, w1, m, sl, d, hf, heq⟩ :=
      interactive_spawned o fd req s hp hpty hsend hfork hdup hfd0
    rw [heq] at h
    simp only [Outcome.ret.injEq] at h
    obtain ⟨h0, hs'⟩ := h
    obtain ⟨c0, c1, c2, c3, c4⟩ := hf
    have hnd := nodup_fresh4 _ _ _ _ _ _ c0 c1 c2 c3 hfd
    have hnm := fresh4_not_mem _ _ _ _ _ c0 c1 c2 c3
    have hdO : d ∉ s.open_fds := fun hm => c4 (List.mem_append_right [sl, m, w1, r1] hm)
    refine ⟨h0.symm, _, by rw [← hs'], by simp [created_fds], ?_,
      Or.inr ⟨hsend, d, hdO, by rw [← hs'], ?_⟩⟩
    · intro x hx
      simp only [created_fds, closed_fds] at hx ⊢
      apply List.count_eq_one_of_mem hnd
      simp only [List.mem_cons, List.mem_singleton, List.not_mem_nil, or_false] at hx ⊢
      tauto
    · intro x
      rw [← hs']
      exact mem_filter_closed_dup s.open_fds [sl, m, w1, r1] [m, sl, r1, w1] fd d
        (hperm _ _ _ _) hnm c4 hfd x

/-- C9: on every path on which `child_handle_noninteractive` or
`child_handle_interactive` returns (the connection descriptor `fd` being a
descriptor open in the daemon), it returns `0`; each of the eight pipe ends
(four pipe and pseudo-terminal ends for the interactive handler) it created
and the connection descriptor has been closed exactly once; and, compared
with the descriptors open before the call, the descriptors open afterwards are
the same without the connection, plus, when the send succeeded, one new
descriptor `d`, the duplicate stored in the new last entry of the PID map.
When the send failed no descriptor is newly open and the map is unchanged. -/
theorem handlers_release_descriptors (o : Env) (fd : Int) (req : msg_request_t)
    (s s' : World) (rv : Int) (hfd0 : 0 ≤ fd) (hfd : fd ∈ s.open_fds) :
    (child_handle_noninteractive o fd req s = Outcome.ret rv s' →
      rv = 0 ∧ ∃ t, s'.trace = s.trace ++ t ∧ (created_fds t).length = 8 ∧
        (∀ x ∈ fd :: created_fds t, (closed_fds t).count x = 1) ∧
        ((o.send_rv = -1 ∧ s'.w = s.w ∧ ∀ x, (x ∈ s'.open_fds ↔ x ∈ s.open_fds ∧ x ≠ fd)) ∨
         (o.send_rv ≠ -1 ∧ ∃ d, d ∉ s.open_fds ∧
            s'.w.pid_to_fd = s.w.pid_to_fd ++ [{ pid := o.fork_rv, fd := d }] ∧
            ∀ x, (x ∈ s'.open_fds ↔ (x ∈ s.open_fds ∧ x ≠ fd) ∨ x = d)))) ∧
    (child_handle_interactive o fd req s = Outcome.ret rv s' →
      rv = 0 ∧ ∃ t, s'.trace = s.trace ++ t ∧ (created_fds t).length = 4 ∧
        (∀ x ∈ fd :: created_fds t, (closed_fds t).count x = 1) ∧
        ((o.send_rv = -1 ∧ s'.w = s.w ∧ ∀ x, (x ∈ s'.open_fds ↔ x ∈ s.open_fds ∧ x ≠ fd)) ∨
         (o.send_rv ≠ -1 ∧ ∃ d, d ∉ s.open_fds ∧
            s'.w.pid_to_fd = s.w.pid_to_fd ++ [{ pid := o.fork_rv, fd := d }] ∧
            ∀ x, (x ∈ s'.open_fds ↔ (x ∈ s.open_fds ∧ x ≠ fd) ∨ x = d)))) :=
  ⟨noninteractive_releases o fd req s s' rv hfd0 hfd,
   interactive_releases o fd req s s' rv hfd0 hfd⟩

/-- A spawn that succeeds and an interactive spawn whose send fails. -/
theorem handlers_release_descriptors_witness :
    (∃ d : Int, d ∉ [(3 : Int)] ∧
      ([{ pid := 1, fd := 9 }] : List pid_fd) = [] ++ [{ pid := 1, fd := d }] ∧
      ∀ x, (x ∈ [(9 : Int)] ↔ (x ∈ [(3 : Int)] ∧ x ≠ 3) ∨ x = d)) ∧
    (∀ x : Int, x ∈ ([] : List Int) ↔ x ∈ [(3 : Int)] ∧ x ≠ 3) := by
  constructor
  · obtain ⟨-, t, -, -, -, h⟩ := (handlers_release_descriptors {} 3 {} { open_fds := [3] }
      { w := { pid_to_fd := [⟨1, 9⟩] }, open_fds := [9],
        trace := [Sys.enter Handler.noninteractive,
          Sys.pipe 0 1, Sys.cloexec 0, Sys.cloexec 1, Sys.pipe 2 4, Sys.cloexec 2, Sys.cloexec 4,
          Sys.pipe 5 6, Sys.cloexec 5, Sys.cloexec 6, Sys.pipe 7 8, Sys.cloexec 7, Sys.cloexec 8,
          Sys.send_fds 3 [1, 2, 5, 7] 0, Sys.fork 1, Sys.dup 8 9,
          Sys.close 0, Sys.close 1, Sys.close 2, Sys.close 4, Sys.close 5, Sys.close 6,
          Sys.close 7, Sys.close 8, Sys.close 3] }
      0 (by decide) (by decide)).1 (by decide!)
    rcases h with ⟨h, -⟩ | ⟨-, h⟩
    · exact absurd h (by decide)
    · exact h
  · obtain ⟨-, t, -, -, -, h⟩ := (handlers_release_descriptors { send_rv := -1 } 3 {}
      { open_fds := [3] }
      { w := { pid_to_fd := [] }, open_fds := [],
        trace := [Sys.enter Handler.interactive,
          Sys.pipe 0 1, Sys.cloexec 0, Sys.cloexec 1, Sys.openpty 2 4, Sys.cloexec 2,
          Sys.cloexec 4, Sys.send_fds 3 [2, 0] (-1),
          Sys.close 2, Sys.close 4, Sys.close 0, Sys.close 1, Sys.close 3] }
      0 (by decide) (by decide)).2 (by decide!)
    rcases h with ⟨-, -, h⟩ | ⟨h, -⟩
    · exact h
    · exact absurd rfl h

/-! ## Failures while a request is accepted -/

theorem filter_ne_lowest_free (l : List Int) :
    (lowest_free l :: l).filter (fun x => decide (x ≠ lowest_free l)) = l := by
  rw [List.filter_cons_of_neg (by simp)]
  rw [List.filter_eq_self]
  intro x hx
  have := lowest_free_not_mem l
  simp only [ne_eq, decide_eq_true_eq]
  intro h
  exact this (h ▸ hx)

/-- C7, counterexample: when the receive fails the daemon ends with
`exit(255)`, and when `fork` fails it ends with `exit(1)`: `child_accept` does
not return to the request loop. -/
theorem child_accept_failure_ends_daemon :
    (child_accept { recv_rv := -1 } { open_fds := [0] }).ending = Ending.exited 255 ∧
    (child_accept { fork_rv := -1 } { open_fds := [0] }).ending = Ending.exited 1 := by
  decide!

/-- C7, amended: for every accepted connection, when receiving the request
fails with an error the daemon process ends with `exit(255)`, and when `fork`
fails in a spawn handler it ends with `exit(1)`; in both cases the PID map is
unchanged when the process ends. Only an end-of-file on receive is confined to
the connection: `child_accept` closes the connection and returns `0` to the
request loop, with the PID map and the open descriptors as before the call. -/
theorem child_accept_failures (o : Env) (s : World) (hacc : o.accept_ok = true) :
    (o.recv_rv < 0 → ∃ s', child_accept o s = Outcome.exit 255 s' ∧ s'.w = s.w) ∧
    (o.recv_rv = 0 →
      ∃ s', child_accept o s = Outcome.ret 0 s' ∧ s'.w = s.w ∧ s'.open_fds = s.open_fds ∧
        closed_fds s'.trace = closed_fds s.trace ++ [lowest_free s.open_fds]) ∧
    (o.recv_rv = o.sizeof_req → 0 < o.recv_rv →
      ¬ (o.recv_req.bind_mount_source.path ≠ "" ∧ o.recv_req.bind_mount_destination.path ≠ "") →
      (o.recv_req.tty = 0 → ∀ i, i < 4 → o.pipe_ok i = true) →
      (o.recv_req.tty ≠ 0 → o.pipe_ok 1 = true ∧ o.openpty_ok = true) →
      o.send_rv ≠ -1 → o.fork_rv = -1 →
      ∃ s', child_accept o s = Outcome.exit 1 s' ∧ s'.w = s.w) := by
  have h0 := lowest_free_nonneg s.open_fds
  have h1 : ¬ lowest_free s.open_fds = -1 := by omega
  refine ⟨?_, ?_, ?_⟩
  · intro hneg
    unfold child_accept
    simp only [bind_apply, Proc.bind, get_w, sys_accept, hacc, if_true, c_if, h1, if_false,
      pure_apply, fcntl_mix_cloexec, emit, un_recv_fds, hneg, sys_exit]
    exact ⟨_, rfl, rfl⟩
  · intro hz
    have h2 : ¬ o.recv_rv < 0 := by omega
    unfold child_accept
    simp only [bind_apply, Proc.bind, get_w, sys_accept, hacc, if_true, c_if, h1, if_false,
      pure_apply, fcntl_mix_cloexec, emit, un_recv_fds, h2, hz, sys_close]
    refine ⟨_, rfl, rfl, filter_ne_lowest_free _, ?_⟩
    simp only [List.append_assoc, List.singleton_append, List.cons_append, List.nil_append]
    induction s.trace with
    | nil => rfl
    | cons e t ih => cases e <;> simp [closed_fds, ih]
  · intro hrv hpos hb hni hi hsend hfork
    have hb' : ¬ (o.recv_req.bind_mount_source.path.length ≠ 0 ∧
        o.recv_req.bind_mount_destination.path.length ≠ 0) := by
      rw [string_length_ne_zero, string_length_ne_zero]; exact hb
    have key := child_accept_received o s hacc hrv hpos
    rw [if_neg hb'] at key
    by_cases ht : o.recv_req.tty = 0
    · have ht' : ¬ o.recv_req.tty ≠ 0 := by simpa using ht
      rw [if_neg ht'] at key
      rw [key]
      obtain ⟨r0, w0, r1, w1, r2, w2, r3, w3, -, -, heq⟩ :=
        noninteractive_after_send o (lowest_free s.open_fds) o.recv_req
          { s with open_fds := lowest_free s.open_fds :: s.open_fds,
                   trace := s.trace ++ [Sys.accept (lowest_free s.open_fds),
                     Sys.cloexec (lowest_free s.open_fds),
                     Sys.recv_fds (lowest_free s.open_fds) o.recv_rv] } (hni ht)
      rw [heq, if_neg hsend, bind_apply, Proc.bind, child_fork_fails _ _ _ _ _ _ hfork]
      exact ⟨_, rfl, rfl⟩
    · rw [if_pos ht] at key
      rw [key]
      obtain ⟨r1, w1, m, sl, -, -, heq⟩ :=
        interactive_after_send o (lowest_free s.open_fds) o.recv_req
          { s with open_fds := lowest_free s.open_fds :: s.open_fds,
                   trace := s.trace ++ [Sys.accept (lowest_free s.open_fds),
                     Sys.cloexec (lowest_free s.open_fds),
                     Sys.recv_fds (lowest_free s.open_fds) o.recv_rv] } (hi ht).1 (hi ht).2
      rw [heq, if_neg hsend, bind_apply, Proc.bind, child_fork_fails _ _ _ _ _ _ hfork]
      exact ⟨_, rfl, rfl⟩

theorem child_accept_failures_witness :
    (∃ s', child_accept { recv_rv := -1 } { open_fds := [0] } = Outcome.exit 255 s' ∧
        s'.w = ({ open_fds := [0] } : World).w) ∧
    (∃ s', child_accept { recv_rv := 0 } { open_fds := [0] } = Outcome.ret 0 s' ∧
        s'.w = ({ open_fds := [0] } : World).w ∧ s'.open_fds = [0] ∧
        closed_fds s'.trace = closed_fds [] ++ [lowest_free [0]]) ∧
    (∃ s', child_accept { fork_rv := -1 } { open_fds := [0] } = Outcome.exit 1 s' ∧
        s'.w = ({ open_fds := [0] } : World).w) ∧
    (∃ s', child_accept { fork_rv := -1, recv_req := { tty := 1 } } { open_fds := [0] }
        = Outcome.exit 1 s' ∧ s'.w = ({ open_fds := [0] } : World).w) :=
  ⟨(child_accept_failures { recv_rv := -1 } { open_fds := [0] } rfl).1 (by decide),
   (child_accept_failures { recv_rv := 0 } { open_fds := [0] } rfl).2.1 rfl,
   (child_accept_failures { fork_rv := -1 } { open_fds := [0] } rfl).2.2 rfl (by decide)
     (by decide) (fun _ _ _ => rfl) (fun h => absurd rfl h) (by decide) rfl,
   (child_accept_failures { fork_rv := -1, recv_req := { tty := 1 } } { open_fds := [0] }
     rfl).2.2 rfl (by decide) (by decide) (fun h => absurd h (by decide))
     (fun _ => ⟨rfl, rfl⟩) (by decide) rfl⟩

/-! ## The mount injector -/

theorem snprintf_rv_ne (size : Nat) (str : String) : (snprintf size str).1 ≠ -1 := by
  simp only [snprintf]
  have := Int.ofNat_nonneg str.length
  omega

/-- C10: a bind-mount request whose directory `<volumes_dir>/<bind_name>`
already exists in the host mount namespace (the namespace descriptor could be
opened and the host namespace entered) makes `child_handle_bind_mount` end
the daemon by the abort of the failed `assert` after `mkdir`; it does not
return `0`. -/
theorem bind_mount_existing_directory_aborts (o : Env) (fd : Int) (req : msg_request_t)
    (s : World) (hopen : o.open_ok = true) (hsetns : o.setns_ok s.w.host_mount_ns = true)
    (hexists :
      (snprintf PATH_MAX (s.w.volumes_path ++ "/" ++ req.bind_mount_name)).2 ∈ s.host_dirs) :
    (child_handle_bind_mount o fd req s).ending = Ending.aborted := by
  have h0 := lowest_free_nonneg s.open_fds
  have h1 : ¬ lowest_free s.open_fds = -1 := by omega
  have h2 : ¬ (0 : Int) = -1 := by decide
  unfold child_handle_bind_mount
  simp only [bind_apply, Proc.bind, emit, get_w, c_assert, snprintf_rv_ne, ne_eq,
    not_false_eq_true, decide_True, if_true, sys_open_ns, hopen, h1, sys_setns, hsetns, h2,
    sys_mkdir, hexists, not_true_eq_false, decide_False, Bool.false_eq_true, if_false,
    Outcome.ending]

/-- The first injection of a bind-mount named `x` succeeds and leaves the
directory `/vol/x` in the host mount namespace. -/
theorem bind_mount_first_request :
    child_handle_bind_mount {} 3 ⟨0, {}, {}, {}, {}, "x", ⟨"/data/x"⟩, ⟨"/mnt/x"⟩⟩
        { w := { volumes_path := "/vol", host_mount_ns := 4 }, open_fds := [3, 4],
          host_dirs := ["/vol"], container_dirs := ["/"] }
      = Outcome.ret 0
        { w := { volumes_path := "/vol", host_mount_ns := 4 }, open_fds := [0, 3, 4],
          host_dirs := ["/vol/x", "/vol"], container_dirs := ["/mnt/x", "/mnt", "/"],
          trace := [Sys.enter Handler.bind_mount, Sys.open_ns 0, Sys.setns 4 0,
            Sys.mkdir "/vol/x" 0, Sys.mount "/data/x" "/vol/x" 0, Sys.setns 0 0,
            Sys.mkdir "/mnt" 0, Sys.chown "/mnt" 0 0 0,
            Sys.mkdir "/mnt/x" 0, Sys.chown "/mnt/x" 0 0 0,
            Sys.mount "/tmp/container-shared-mounts/x" "/mnt/x" 0] } := by
  decide!

/-- The second injection of the same bind-mount, in the state the first one
left, aborts the daemon. -/
theorem bind_mount_existing_directory_aborts_witness :
    (child_handle_bind_mount {} 5 ⟨0, {}, {}, {}, {}, "x", ⟨"/data/x"⟩, ⟨"/mnt/x"⟩⟩
        { w := { volumes_path := "/vol", host_mount_ns := 4 }, open_fds := [0, 3, 4],
          host_dirs := ["/vol/x", "/vol"], container_dirs := ["/mnt/x", "/mnt", "/"],
          trace := [Sys.enter Handler.bind_mount, Sys.open_ns 0, Sys.setns 4 0,
            Sys.mkdir "/vol/x" 0, Sys.mount "/data/x" "/vol/x" 0, Sys.setns 0 0,
            Sys.mkdir "/mnt" 0, Sys.chown "/mnt" 0 0 0,
            Sys.mkdir "/mnt/x" 0, Sys.chown "/mnt/x" 0 0 0,
            Sys.mount "/tmp/container-shared-mounts/x" "/mnt/x" 0] }).ending
      = Ending.aborted :=
  bind_mount_existing_directory_aborts {} 5 ⟨0, {}, {}, {}, {}, "x", ⟨"/data/x"⟩, ⟨"/mnt/x"⟩⟩
    _ rfl rfl (by decide!)

/-! ## The command line -/

theorem getopt_loop_fuel (argv : List String) :
    ∀ (n i : Nat) (j : Int) (s : World), argv.length ≤ i + n →
      wshd__getopt_loop argv (n + 1) i j s = wshd__getopt_loop argv n i j s := by
  intro n
  induction n with
  | zero =>
    intro i j s h
    have h' : ¬ i < argv.length := by omega
    simp [wshd__getopt_loop, h']
  | succ n ih =>
    intro i j s h
    have e : ∀ s1 : World, wshd__getopt_loop argv (n + 1) (i + 2) (j - 2) s1 =
        wshd__getopt_loop argv n (i + 2) (j - 2) s1 := fun s1 => ih (i + 2) (j - 2) s1 (by omega)
    have e' : wshd__getopt_loop argv (n + 1) (i + 2) (j - 2) =
        wshd__getopt_loop argv n (i + 2) (j - 2) := funext e
    rw [wshd__getopt_loop, e']
    conv_rhs => rw [wshd__getopt_loop]

theorem getopt_loop_shift (prog a b : String) (rest : List String) :
    ∀ (n i : Nat) (j : Int), 1 ≤ i →
      wshd__getopt_loop (prog :: a :: b :: rest) n (i + 2) j =
        wshd__getopt_loop (prog :: rest) n i j := by
  intro n
  induction n with
  | zero => intro i j _; simp [wshd__getopt_loop]
  | succ n ih =>
    intro i j hi
    obtain ⟨k, rfl⟩ : ∃ k, i = k + 1 := ⟨i - 1, by omega⟩
    have h1 : (prog :: a :: b :: rest).getD (k + 1 + 2) "" = (prog :: rest).getD (k + 1) "" := by
      simp
    have h2 : (prog :: a :: b :: rest).getD (k + 1 + 2 + 1) "" =
        (prog :: rest).getD (k + 1 + 1) "" := by
      simp
    rw [wshd__getopt_loop, ih (k + 1 + 2) (j - 2) (by omega), h1, h2]
    conv_rhs => rw [wshd__getopt_loop]
    by_cases hk : k + 1 < (prog :: rest).length
    · have hk' : k + 1 + 2 < (prog :: a :: b :: rest).length := by
        simp only [List.length_cons] at hk ⊢
        omega
      rw [if_pos hk, if_pos hk']
      rfl
    · have hk' : ¬ k + 1 + 2 < (prog :: a :: b :: rest).length := by
        simp only [List.length_cons] at hk ⊢
        omega
      rw [if_neg hk, if_neg hk']

theorem getopt_loop_first (prog opt val : String) (rest : List String) :
    wshd__getopt_loop (prog :: opt :: val :: rest) (rest.length + 2) (1 + 2)
        (((rest.length + 2 + 1 : Nat) : Int) - 1 - 2) =
      wshd__getopt (prog :: rest) := by
  rw [getopt_loop_shift prog opt val rest _ 1 _ (le_refl 1)]
  funext s
  have hj : (((rest.length + 2 + 1 : Nat) : Int) - 1 - 2) = (((prog :: rest).length : Int) - 1) := by
    simp only [List.length_cons]
    push_cast
    ring
  rw [hj, getopt_loop_fuel (prog :: rest) (rest.length + 1) 1 _ s (by simp)]
  rfl

theorem getopt_step (prog opt val : String) (rest : List String) :
    wshd__getopt (prog :: opt :: val :: rest) =
      wshd__getopt_loop (prog :: opt :: val :: rest) (rest.length + 2 + 1) 1
        (((rest.length + 2 + 1 : Nat) : Int) - 1) := rfl

theorem snprintf_value (size : Nat) (str : String) :
    snprintf size str = ((str.length : Int), String.mk (str.data.take (size - 1))) := rfl

theorem getopt_pair (prog opt val : String) (rest : List String) (s : World) :
    wshd__getopt (prog :: opt :: val :: rest) s =
      match option_size opt with
      | some size =>
        if val.length < size then
          wshd__getopt (prog :: rest) { s with w := store_option s.w (opt, val) }
        else
          Outcome.ret (-1)
            { s with w := store_option s.w (opt, String.mk (val.data.take (size - 1))) }
      | none => Outcome.ret (-1) s := by
  rw [getopt_step, wshd__getopt_loop, getopt_loop_first]
  have hlen : 1 < (prog :: opt :: val :: rest).length := by simp
  have hj : (((rest.length + 2 + 1 : Nat) : Int) - 1) ≥ 2 := by push_cast; omega
  rw [if_pos hlen, if_pos hj]
  have g1 : (prog :: opt :: val :: rest).getD 1 "" = opt := rfl
  have g2 : (prog :: opt :: val :: rest).getD (1 + 1) "" = val := rfl
  rw [g1, g2]
  have hfit : ∀ size : Nat, val.length < size → String.mk (val.data.take (size - 1)) = val :=
    fun size h => snprintf_fits size val h
  by_cases h1 : opt = "--run"
  · subst h1
    by_cases hv : val.length < PATH_MAX
    · have hv' : ¬ ((val.length : Int) ≥ (PATH_MAX : Int)) := by omega
      simp [option_size, store_option, set_w, bind_apply, Proc.bind, snprintf_value, hv, hv',
        hfit _ hv]
    · have hv' : ((val.length : Int) ≥ (PATH_MAX : Int)) := by omega
      simp [option_size, store_option, set_w, bind_apply, Proc.bind, snprintf_value, hv, hv',
        pure_apply]
  by_cases h2 : opt = "--lib"
  · subst h2
    by_cases hv : val.length < PATH_MAX
    · have hv' : ¬ ((val.length : Int) ≥ (PATH_MAX : Int)) := by omega
      simp [option_size, store_option, set_w, bind_apply, Proc.bind, snprintf_value, hv, hv',
        hfit _ hv]
    · have hv' : ((val.length : Int) ≥ (PATH_MAX : Int)) := by omega
      simp [option_size, store_option, set_w, bind_apply, Proc.bind, snprintf_value, hv, hv',
        pure_apply]
  by_cases h3 : opt = "--root"
  · subst h3
    by_cases hv : val.length < PATH_MAX
    · have hv' : ¬ ((val.length : Int) ≥ (PATH_MAX : Int)) := by omega
      simp [option_size, store_option, set_w, bind_apply, Proc.bind, snprintf_value, hv, hv',
        hfit _ hv]
    · have hv' : ((val.length : Int) ≥ (PATH_MAX : Int)) := by omega
      simp [option_size, store_option, set_w, bind_apply, Proc.bind, snprintf_value, hv, hv',
        pure_apply]
  by_cases h4 : opt = "--volumes"
  · subst h4
    by_cases hv : val.length < PATH_MAX
    · have hv' : ¬ ((val.length : Int) ≥ (PATH_MAX : Int)) := by omega
      simp [option_size, store_option, set_w, bind_apply, Proc.bind, snprintf_value, hv, hv',
        hfit _ hv]
    · have hv' : ((val.length : Int) ≥ (PATH_MAX : Int)) := by omega
      simp [option_size, store_option, set_w, bind_apply, Proc.bind, snprintf_value, hv, hv',
        pure_apply]
  by_cases h5 : opt = "--title"
  · subst h5
    by_cases hv : val.length < sizeof_title
    · have hv' : ¬ ((val.length : Int) ≥ (sizeof_title : Int)) := by omega
      simp [option_size, store_option, set_w, bind_apply, Proc.bind, snprintf_value, hv, hv',
        hfit _ hv]
    · have hv' : ((val.length : Int) ≥ (sizeof_title : Int)) := by omega
      simp [option_size, store_option, set_w, bind_apply, Proc.bind, snprintf_value, hv, hv',
        pure_apply]
  simp [option_size, h1, h2, h3, h4, h5, pure_apply]

theorem getopt_words (prog : String) (rest : List String) :
    ∀ (pre : List (String × String)) (s : World), (∀ p ∈ pre, fitting_pair p = true) →
      wshd__getopt (prog :: (option_words pre ++ rest)) s =
        wshd__getopt (prog :: rest) { s with w := pre.foldl store_option s.w } := by
  intro pre
  induction pre with
  | nil => intro s _; rfl
  | cons p ps ih =>
    intro s h
    have hp : fitting_pair p = true := h p (List.mem_cons_self _ _)
    have e : prog :: (option_words (p :: ps) ++ rest) =
        prog :: p.1 :: p.2 :: (option_words ps ++ rest) := rfl
    rw [e, getopt_pair]
    simp only [fitting_pair] at hp
    cases hs : option_size p.1 with
    | none => rw [hs] at hp; simp at hp
    | some size =>
      rw [hs] at hp
      have hlt : p.2.length < size := by simpa using hp
      simp only [hlt, if_true]
      rw [ih _ (fun q hq => h q (List.mem_cons_of_mem _ hq))]
      rfl

theorem getopt_no_words (prog : String) (s : World) :
    wshd__getopt [prog] s = Outcome.ret 0 s := by
  simp [wshd__getopt, wshd__getopt_loop, pure_apply]

/-- C11, counterexample: a `--title` value of 32 bytes is not
accepted; `wshd__getopt` returns `-1` on the command line
`wshd --title 0123456789012345678901234567890x`, leaving the first 31 bytes
in the title field. -/
theorem getopt_long_title_rejected :
    wshd__getopt ["wshd", "--title", "0123456789012345678901234567890x"] {} =
      Outcome.ret (-1) { w := { title := "0123456789012345678901234567890" } } := by
  decide!

/-- C11, amended: on a command line whose other options are valid, with
values that fit their fields, a `--title` value `t` shorter than 32 bytes is
accepted: `wshd__getopt` returns `0` and the title stored is all of `t`
(until a later `--title` replaces it). A value of 32 bytes or more is
rejected: `wshd__getopt` returns `-1` ("argument too long") whatever follows,
the title field then holding the first 31 bytes of `t`. -/
theorem getopt_title (prog t : String) (pre post : List (String × String))
    (rest : List String) (s : World)
    (hpre : ∀ p ∈ pre, fitting_pair p = true) (hpost : ∀ p ∈ post, fitting_pair p = true) :
    (t.length < 32 →
      wshd__getopt (prog :: (option_words pre ++ "--title" :: t :: option_words post)) s =
        Outcome.ret 0
          { s with w := post.foldl store_option
                          { pre.foldl store_option s.w with title := t } }) ∧
    (t.length < 32 → (∀ p ∈ post, p.1 ≠ "--title") →
      (post.foldl store_option { pre.foldl store_option s.w with title := t }).title = t) ∧
    (32 ≤ t.length →
      wshd__getopt (prog :: (option_words pre ++ "--title" :: t :: rest)) s =
        Outcome.ret (-1)
          { s with w := { pre.foldl store_option s.w with
                          title := String.mk (t.data.take 31) } }) := by
  refine ⟨fun ht => ?_, fun _ hno => ?_, fun ht => ?_⟩
  · rw [getopt_words prog _ pre s hpre, getopt_pair]
    have hsz : option_size "--title" = some 32 := by decide
    simp only [hsz, ht, if_true]
    have e : prog :: option_words post = prog :: (option_words post ++ []) := by simp
    rw [e, getopt_words prog [] post _ hpost, getopt_no_words]
    rfl
  · clear hpost
    generalize pre.foldl store_option s.w = w0
    have key : ∀ (l : List (String × String)) (w : wshd_t), (∀ p ∈ l, p.1 ≠ "--title") →
        (l.foldl store_option w).title = w.title := by
      intro l
      induction l with
      | nil => intro w _; rfl
      | cons p ps ih =>
        intro w h
        rw [List.foldl_cons, ih _ (fun q hq => h q (List.mem_cons_of_mem _ hq))]
        have hp := h p (List.mem_cons_self _ _)
        unfold store_option
        split_ifs <;> first | rfl | contradiction
    rw [key post _ hno]
  · rw [getopt_words prog _ pre s hpre, getopt_pair]
    have hsz : option_size "--title" = some 32 := by decide
    have ht' : ¬ t.length < 32 := by omega
    simp only [hsz, ht', if_false]
    rfl

/-- The command line `wshd --run r --title garden --volumes /v` is accepted
with the title `garden`; with a title of 32 bytes it is rejected. -/
theorem getopt_title_witness :
    wshd__getopt ["wshd", "--run", "r", "--title", "garden", "--volumes", "/v"] {} =
      Outcome.ret 0 { w := { run_path := "r", title := "garden", volumes_path := "/v" } } ∧
    wshd__getopt ["wshd", "--run", "r", "--title", "0123456789012345678901234567890x",
        "--volumes", "/v"] {} =
      Outcome.ret (-1) { w := { run_path := "r", title := "0123456789012345678901234567890" } } :=
  ⟨(getopt_title "wshd" "garden" [("--run", "r")] [("--volumes", "/v")] [] {}
      (by decide) (by decide)).1 (by decide),
   (getopt_title "wshd" "0123456789012345678901234567890x" [("--run", "r")] []
      ["--volumes", "/v"] {} (by decide) (by decide)).2.2 (by decide)⟩

/-! ## Recursive creation of a directory -/

theorem mkdir_p_as_loop_each (o : Env) (tmp : List Char) (uid gid : Int) :
    ∀ (fuel i : Nat), 1 ≤ i → tmp.length ≤ i + fuel →
      mkdir_p_as_loop o tmp uid gid fuel i =
        mkdir_each o uid gid
          (((List.range' i (tmp.length - i)).filter
              (fun i => decide (1 ≤ i) && decide (tmp.getD i ' ' = '/'))).map
            (fun i => String.mk (tmp.take i)))
          (String.mk tmp) := by
  intro fuel
  induction fuel with
  | zero =>
    intro i _ h
    have e : tmp.length - i = 0 := by omega
    rw [e]
    rfl
  | succ n ih =>
    intro i hi h
    rw [mkdir_p_as_loop]
    by_cases hlt : i < tmp.length
    · rw [if_pos hlt, ih (i + 1) (by omega) (by omega)]
      have e : tmp.length - i = (tmp.length - (i + 1)) + 1 := by omega
      rw [e, List.range'_succ]
      by_cases hc : tmp.getD i ' ' = '/'
      · have hP : (decide (1 ≤ i) && decide (tmp.getD i ' ' = '/')) = true := by
          rw [decide_eq_true hi, decide_eq_true hc]
          rfl
        rw [if_pos hc, List.filter_cons]
        beta_reduce
        rw [if_pos hP, List.map_cons, mkdir_each]
        congr 1
        funext rv
        by_cases hrv : rv = -1
        · rw [if_pos hrv, if_pos hrv, hrv]
        · rw [if_neg hrv, if_neg hrv]
      · have hP : ¬ (decide (1 ≤ i) && decide (tmp.getD i ' ' = '/')) = true := by
          rw [decide_eq_false hc]
          simp
        rw [if_neg hc, List.filter_cons]
        beta_reduce
        rw [if_neg hP]
    · have e : tmp.length - i = 0 := by omega
      rw [if_neg hlt, e]
      rfl

theorem slash_prefixes_from_one (tmp : List Char) :
    slash_prefixes tmp =
      ((List.range' 1 (tmp.length - 1)).filter
          (fun i => decide (1 ≤ i) && decide (tmp.getD i ' ' = '/'))).map
        (fun i => String.mk (tmp.take i)) := by
  unfold slash_prefixes
  rw [List.range_eq_range']
  cases hl : tmp.length with
  | zero => rfl
  | succ n =>
    rw [List.range'_succ, List.filter_cons]
    have h0 : ¬ (decide (1 ≤ 0) && decide (tmp.getD 0 ' ' = '/')) = true := by simp
    beta_reduce
    rw [if_neg h0]
    rfl

theorem strip_slash_buffer (l : List Char) (h : l ≠ []) :
    (if l.getD (l.length - 1) ' ' = '/' then l.take (l.length - 1) else l) = strip_slash l := by
  unfold strip_slash
  have hlen : l.length - 1 < l.length := by
    have := List.length_pos.mpr h
    omega
  have e1 : l.getD (l.length - 1) ' ' = l.getLast h := by
    rw [List.getD_eq_getElem _ _ hlen, List.getLast_eq_getElem]
  have e2 : l.getLast? = some (l.getLast h) := List.getLast?_eq_getLast _ h
  rw [e1, e2, List.dropLast_eq_take]
  by_cases hc : l.getLast h = '/'
  · rw [if_pos hc, if_pos (by rw [hc])]
  · rw [if_neg hc, if_neg (by simpa using hc)]

theorem mkdir_p_as_each (o : Env) (dir : String) (uid gid : Int)
    (hne : dir ≠ "") (hlen : dir.length < PATH_MAX) :
    mkdir_p_as o dir uid gid =
      mkdir_each o uid gid (slash_prefixes (strip_slash dir.data))
        (String.mk (strip_slash dir.data)) := by
  have hdata : dir.data ≠ [] := by
    intro h
    apply hne
    cases dir
    simp_all
  have hl : ¬ dir.data.length = 0 := by
    intro h
    exact hdata (List.length_eq_zero.mp h)
  unfold mkdir_p_as
  simp only [snprintf_fits PATH_MAX dir hlen, if_neg hl]
  rw [strip_slash_buffer dir.data hdata, slash_prefixes_from_one]
  exact mkdir_p_as_loop_each o _ uid gid _ 1 (le_refl 1) (by omega)

theorem mkdir_as_existing (o : Env) (d : String) (uid gid : Int) (s : World)
    (h : d ∈ s.dirs) :
    mkdir_as o d uid gid s =
      Outcome.ret 0 { s with errno := EEXIST, trace := s.trace ++ [Sys.mkdir d (-1)] } := by
  unfold World.dirs at h
  simp [mkdir_as, sys_mkdir, bind_apply, Proc.bind, h, pure_apply]

theorem mkdir_as_new (o : Env) (d : String) (uid gid : Int) (s : World)
    (h : d ∉ s.dirs) (hm : o.mkdir_errno d = 0) :
    mkdir_as o d uid gid s =
      Outcome.ret (rv_of (o.chown_ok d))
        { s.add_dir d with
          trace := s.trace ++
            [Sys.mkdir d 0, Sys.chown d uid gid (rv_of (o.chown_ok d))] } := by
  unfold World.dirs at h
  unfold World.add_dir
  by_cases hh : s.in_host_ns <;>
    simp [mkdir_as, sys_mkdir, sys_chown, bind_apply, Proc.bind, h, hm, hh] at h ⊢ <;>
    simp [sys_chown, h]

theorem mkdir_as_error (o : Env) (d : String) (uid gid : Int) (s : World)
    (h : d ∉ s.dirs) (hm : o.mkdir_errno d ≠ 0) (he : o.mkdir_errno d ≠ EEXIST) :
    mkdir_as o d uid gid s =
      Outcome.ret (-1)
        { s with errno := o.mkdir_errno d, trace := s.trace ++ [Sys.mkdir d (-1)] } := by
  unfold World.dirs at h
  simp [mkdir_as, sys_mkdir, bind_apply, Proc.bind, h, hm, he, pure_apply]

/-- C12: for a non-empty path shorter than `PATH_MAX`, `mkdir_p_as` strips
one trailing `'/'` and calls `mkdir_as`, in order of increasing length, on
every prefix that ends immediately before a `'/'` at index 1 or later and
finally on the whole stripped path; the first call that returns `-1` ends
the sequence with `-1` in the state that call left, and otherwise the result
is the one of the final call. A call of `mkdir_as` on a directory that exists
returns `0` without a `chown`; on a directory it creates it returns the
result of the `chown` to `uid`/`gid`; when `mkdir` fails otherwise it returns
`-1`. For `"/a/b/c"` the calls are on `"/a"`, `"/a/b"` and `"/a/b/c"`. -/
theorem mkdir_p_as_creates (o : Env) (dir : String) (uid gid : Int)
    (hne : dir ≠ "") (hlen : dir.length < PATH_MAX) :
    mkdir_p_as o dir uid gid =
      mkdir_each o uid gid (slash_prefixes (strip_slash dir.data))
        (String.mk (strip_slash dir.data)) ∧
    (∀ (d : String) (ds : List String) (last : String) (s s1 : World) (rv : Int),
      mkdir_as o d uid gid s = Outcome.ret rv s1 →
        mkdir_each o uid gid (d :: ds) last s =
          if rv = -1 then Outcome.ret (-1) s1 else mkdir_each o uid gid ds last s1) ∧
    (∀ (d : String) (s : World),
      (d ∈ s.dirs →
        mkdir_as o d uid gid s =
          Outcome.ret 0 { s with errno := EEXIST, trace := s.trace ++ [Sys.mkdir d (-1)] }) ∧
      (d ∉ s.dirs → o.mkdir_errno d = 0 →
        mkdir_as o d uid gid s =
          Outcome.ret (rv_of (o.chown_ok d))
            { s.add_dir d with
              trace := s.trace ++
                [Sys.mkdir d 0, Sys.chown d uid gid (rv_of (o.chown_ok d))] }) ∧
      (d ∉ s.dirs → o.mkdir_errno d ≠ 0 → o.mkdir_errno d ≠ EEXIST →
        mkdir_as o d uid gid s =
          Outcome.ret (-1)
            { s with errno := o.mkdir_errno d, trace := s.trace ++ [Sys.mkdir d (-1)] })) ∧
    mkdir_p_as o "/a/b/c" uid gid = mkdir_each o uid gid ["/a", "/a/b"] "/a/b/c" := by
  refine ⟨mkdir_p_as_each o dir uid gid hne hlen, ?_, fun d s =>
    ⟨mkdir_as_existing o d uid gid s, mkdir_as_new o d uid gid s,
      mkdir_as_error o d uid gid s⟩, ?_⟩
  · intro d ds last s s1 rv h
    rw [mkdir_each, bind_ret _ _ s s1 rv h]
    by_cases hrv : rv = -1
    · rw [if_pos hrv, if_pos hrv]
      rfl
    · rw [if_neg hrv, if_neg hrv]
  · exact mkdir_p_as_each o "/a/b/c" uid gid (by decide) (by decide)

/-- The request for `"/a/b/"` where `"/a"` exists: the calls are on `"/a"`,
which is left as it is, and on `"/a/b"`, which is created and given the
owner; where creating `"/a"` is refused, nothing else is attempted. -/
theorem mkdir_p_as_creates_witness :
    mkdir_p_as {} "/a/b/" 5 6 = mkdir_each {} 5 6 ["/a"] "/a/b" ∧
    mkdir_p_as {} "/a/b/" 5 6 { container_dirs := ["/a"] } =
      Outcome.ret 0
        { container_dirs := ["/a/b", "/a"], errno := EEXIST,
          trace := [Sys.mkdir "/a" (-1), Sys.mkdir "/a/b" 0, Sys.chown "/a/b" 5 6 0] } ∧
    mkdir_p_as { mkdir_errno := fun _ => 13 } "/a/b/c" 5 6 {} =
      Outcome.ret (-1) { errno := 13, trace := [Sys.mkdir "/a" (-1)] } :=
  ⟨(mkdir_p_as_creates {} "/a/b/" 5 6 (by decide) (by decide)).1, by decide!, by decide!⟩

end Wshd
